import Mathlib

/-!
# kiku: request encoders, response decoders and operations of the AKASHI client

A shallow embedding of the Go package `kiku` (`staff.go`, `stamp.go`,
`token.go`, `client.go`, `error.go`, `organization.go`), with the properties
of its encoders, decoders and operations.

Conventions of the embedding:

* Go strings are Lean `String`s (valid UTF-8 texts); an `io.Reader` is the
  text it delivers before end of file.
* Go `int` values are `Int`s; the JSON decoder checks the 64-bit range
  where `strconv.ParseInt` does.
* A Go function body either returns or panics: `Run`.
* A Go `error` is an `Option GoError` (`none` is `nil`); errors of the standard
  library are told apart by their dynamic type.
* A nil pointer or nil slice is `none`.
* The standard-library functions the package calls (`fmt.Sprintf`,
  `url.Values`, `time.Time.Format`, `time.Parse`, `encoding/json`) are
  embedded next to the code that calls them, as of Go 1.21.
* `float32` is a parameter (`Float32Impl`).
* The transport (`net/http`) is a parameter of the operations (`HTTP`); the
  context of a call is part of it.
-/

namespace Kiku

/-! ## Results of running Go code -/

/-- Outcome of running a Go function body: a normal return or a run-time panic. -/
inductive Run (α : Type) where
  | ret (a : α)
  | panic (msg : String)
  deriving DecidableEq, Repr

/-- Go error values that occur in the package, by dynamic type. -/
inductive GoError where
  /-- Value of `errors.New(msg)` and `fmt.Errorf` without `%w` (type `*errors.errorString`). -/
  | errorString (msg : String)
  /-- Type `*json.UnmarshalTypeError`: `Value` is the description of the JSON value,
  `Field` the dotted path of the struct field. -/
  | unmarshalTypeError (Value : String) (Field : String)
  /-- Type `*json.SyntaxError`. -/
  | jsonSyntaxError
  /-- Value `io.EOF`. -/
  | eof
  /-- Value `io.ErrUnexpectedEOF`. -/
  | unexpectedEOF
  /-- Type `*time.ParseError`. -/
  | timeParseError
  /-- Type `*json.MarshalerError`. -/
  | marshalerError
  /-- Any error of `net/http` (`*url.Error`, context errors, ...), by its message. -/
  | httpError (msg : String)
  deriving DecidableEq, Repr

/-- Go `error` interface value; `none` is `nil`. -/
abbrev error := Option GoError

/-- Go `errors.New`. -/
def errors.New (msg : String) : error := some (GoError.errorString msg)

/-- Sequencing of Go statements: a panic ends the function. -/
def Run.bind {α β : Type} (x : Run α) (f : α → Run β) : Run β :=
  match x with
  | .ret a => f a
  | .panic msg => .panic msg

instance : Monad Run where
  pure := Run.ret
  bind := Run.bind

/-- Dereference of a Go pointer (`*p`): a nil pointer panics. -/
def deref {α : Type} : Option α → Run α
  | some a => .ret a
  | none => .panic "runtime error: invalid memory address or nil pointer dereference"

/-! ## Decimal rendering (`%d`, `strconv.FormatInt(_, 10)`) -/

/-- Decimal digit character of a number below ten. -/
def digitChar (d : Nat) : Char := Char.ofNat (48 + d % 10)

/-- Decimal digits of `n`, most significant first, pushed in front of `acc`;
`fuel` bounds the number of digits. -/
def natDigits : Nat → Nat → List Char → List Char
  | 0, _, acc => acc
  | fuel + 1, n, acc =>
    if n / 10 = 0 then digitChar n :: acc
    else natDigits fuel (n / 10) (digitChar n :: acc)

/-- Decimal digits of a natural number (`"0"` for zero). -/
def natDecimal (n : Nat) : List Char := natDigits (n + 1) n []

/-- Decimal text of an integer as `%d` and `strconv.FormatInt(x, 10)` print it. -/
def formatInt (x : Int) : String :=
  match x with
  | Int.ofNat n => String.mk (natDecimal n)
  | Int.negSucc n => String.mk ('-' :: natDecimal (n + 1))

/-- Go `time.appendInt`: decimal text of `x`, zero-padded to at least `width` digits,
with a leading `-` for negative `x`. -/
def appendInt (x : Int) (width : Nat) : List Char :=
  let u := x.natAbs
  let ds := natDecimal u
  let pad := List.replicate (width - ds.length) '0'
  (if x < 0 then ['-'] else []) ++ pad ++ ds

/-- ASCII decimal digit. -/
def isDigitChar (c : Char) : Bool := 48 ≤ c.toNat && c.toNat ≤ 57

/-- Value of a string of decimal digits; `none` when another character occurs. -/
def digitsValue : List Char → Nat → Option Nat
  | [], acc => some acc
  | c :: cs, acc => if isDigitChar c then digitsValue cs (acc * 10 + (c.toNat - 48)) else none

/-! ## `net/url`: query escaping and `url.Values` -/

/-- Bytes of a Go string. -/
def goBytes (s : String) : List UInt8 := s.data.flatMap String.utf8EncodeChar

/-- Go `url.shouldEscape(c, encodeQueryComponent)`: everything except ASCII letters,
digits and `-`, `_`, `.`, `~` is escaped. -/
def shouldEscape (c : UInt8) : Bool :=
  let n := c.toNat
  if (97 ≤ n ∧ n ≤ 122) ∨ (65 ≤ n ∧ n ≤ 90) ∨ (48 ≤ n ∧ n ≤ 57) then false
  else if n = 45 ∨ n = 95 ∨ n = 46 ∨ n = 126 then false
  else true

/-- Entry of the table `"0123456789ABCDEF"`. -/
def upperhex (d : Nat) : Char :=
  if d < 10 then Char.ofNat (48 + d) else Char.ofNat (55 + d)

/-- One byte as `url.escape` writes it in query-component mode. -/
def escapeByte (c : UInt8) : List Char :=
  if c.toNat = 32 then ['+']
  else if shouldEscape c then ['%', upperhex (c.toNat / 16), upperhex (c.toNat % 16)]
  else [Char.ofNat c.toNat]

/-- Go `url.QueryEscape`. -/
def QueryEscape (s : String) : String := String.mk ((goBytes s).flatMap escapeByte)

/-- Byte-wise order of Go strings (`<` on `string`), on code points: UTF-8 keeps
the order of code points. -/
def strLt : List Char → List Char → Bool
  | [], [] => false
  | [], _ :: _ => true
  | _ :: _, [] => false
  | a :: as, b :: bs => if a.toNat < b.toNat then true else if b.toNat < a.toNat then false else strLt as bs

/-- Go `url.Values`, a `map[string][]string`: each key occurs once. -/
abbrev Values := List (String × List String)

/-- Go `Values.Add`: `v[key] = append(v[key], value)`. -/
def Values.Add : Values → String → String → Values
  | [], key, value => [(key, [value])]
  | (k, vs) :: rest, key, value =>
    if k = key then (k, vs ++ [value]) :: rest else (k, vs) :: Values.Add rest key value

/-- Insertion of a key into a list of keys sorted by `strLt`. -/
def insertKey (k : String × List String) : Values → Values
  | [] => [k]
  | x :: xs => if strLt x.1.data k.1.data then x :: insertKey k xs else k :: x :: xs

/-- Keys of the map in sorted order, as `Values.Encode` visits them. -/
def sortKeys : Values → Values
  | [] => []
  | x :: xs => insertKey x (sortKeys xs)

/-- The pairs `key=value` that `Values.Encode` writes, in order. -/
def encodePairs : Values → List String
  | [] => []
  | (k, vs) :: rest => vs.map (fun v => QueryEscape k ++ "=" ++ QueryEscape v) ++ encodePairs rest

/-- Go `Values.Encode`: keys sorted, pairs joined by `&`. -/
def Values.Encode (v : Values) : String := "&".intercalate (encodePairs (sortKeys v))

/-! ## `time`: civil time and the two layouts of the package -/

/-- Go `time.Time`, by the civil fields it shows in its own location. -/
structure Time where
  year : Int
  month : Nat
  day : Nat
  hour : Nat
  min : Nat
  sec : Nat
  nsec : Nat
  deriving DecidableEq, Repr

/-- The zero `time.Time`: January 1, year 1, 00:00:00 UTC. -/
def Time.zero : Time := ⟨1, 1, 1, 0, 0, 0, 0⟩

instance : Inhabited Time := ⟨Time.zero⟩

/-- Go `time.isLeap`. -/
def isLeap (year : Int) : Bool := year % 4 = 0 ∧ (year % 100 ≠ 0 ∨ year % 400 = 0)

/-- Go `time.daysIn`. -/
def daysIn (month : Nat) (year : Int) : Nat :=
  if month = 2 then (if isLeap year then 29 else 28)
  else if month = 4 ∨ month = 6 ∨ month = 9 ∨ month = 11 then 30 else 31

/-- The civil fields denote a date and time of day that exist. -/
def Time.IsValid (t : Time) : Prop :=
  1 ≤ t.month ∧ t.month ≤ 12 ∧ 1 ≤ t.day ∧ t.day ≤ daysIn t.month t.year ∧
  t.hour < 24 ∧ t.min < 60 ∧ t.sec < 60 ∧ t.nsec < 1000000000

instance (t : Time) : Decidable t.IsValid := by unfold Time.IsValid; infer_instance

/-- Elements of a `time` layout, as `time.nextStdChunk` cuts a layout string. -/
inductive Chunk where
  | lit (s : List Char)
  | stdLongYear
  | stdZeroMonth
  | stdZeroDay
  | stdHour
  | stdZeroMinute
  | stdZeroSecond
  deriving DecidableEq, Repr

/-- Constant `DateFormat = "20060102150405"`. -/
def DateFormat : List Chunk :=
  [.stdLongYear, .stdZeroMonth, .stdZeroDay, .stdHour, .stdZeroMinute, .stdZeroSecond]

/-- Constant `ReturnDateFormat = "2006/01/02 15:04:05"`. -/
def ReturnDateFormat : List Chunk :=
  [.stdLongYear, .lit ['/'], .stdZeroMonth, .lit ['/'], .stdZeroDay, .lit [' '],
   .stdHour, .lit [':'], .stdZeroMinute, .lit [':'], .stdZeroSecond]

/-- What `Time.Format` appends for one layout element. -/
def formatChunk (t : Time) : Chunk → List Char
  | .lit s => s
  | .stdLongYear => appendInt t.year 4
  | .stdZeroMonth => appendInt t.month 2
  | .stdZeroDay => appendInt t.day 2
  | .stdHour => appendInt t.hour 2
  | .stdZeroMinute => appendInt t.min 2
  | .stdZeroSecond => appendInt t.sec 2

/-- Go `Time.Format`. -/
def Time.Format (t : Time) (layout : List Chunk) : String :=
  String.mk (layout.flatMap (formatChunk t))

/-- Fields collected by `time.Parse`; month and day start unset (Go's `-1`). -/
structure Parsing where
  year : Int
  month : Option Nat
  day : Option Nat
  hour : Nat
  min : Nat
  sec : Nat
  nsec : Nat
  deriving DecidableEq, Repr

/-- Go `time.cutspace`. -/
def cutspace : List Char → List Char
  | [] => []
  | c :: cs => if c = ' ' then cutspace cs else c :: cs

/-- Go `time.skip`: the literal text `pre` of the layout is taken off the front of
`value`.  A run of blanks in the layout stands for a run of blanks in the value
(or for the end of the value); `inBlanks` says that the blanks of the layout
read just before have taken the blanks of the value already. -/
def skip : Bool → List Char → List Char → Option (List Char)
  | _, value, [] => some value
  | inBlanks, value, p :: ps =>
    if p = ' ' then
      if inBlanks then skip true value ps
      else
        match value with
        | v :: _ => if v ≠ ' ' then none else skip true (cutspace value) ps
        | [] => skip true [] ps
    else
      match value with
      | v :: vs => if v = p then skip false vs ps else none
      | [] => none

/-- Go `time.getnum`: a number of one or two digits, of exactly two when `fixed`. -/
def getnum (s : List Char) (fixed : Bool) : Option (Nat × List Char) :=
  match s with
  | [] => none
  | a :: rest =>
    if !isDigitChar a then none
    else
      match rest with
      | b :: rest2 =>
        if isDigitChar b then some ((a.toNat - 48) * 10 + (b.toNat - 48), rest2)
        else if fixed then none else some (a.toNat - 48, rest)
      | [] => if fixed then none else some (a.toNat - 48, [])

/-- The digits at the front of a text, and what follows them. -/
def spanDigits : List Char → List Char × List Char
  | [] => ([], [])
  | c :: cs =>
    if isDigitChar c then ((spanDigits cs).1.cons c, (spanDigits cs).2) else ([], c :: cs)

/-- Go `time.parseNanoseconds` on the digits of a fraction of a second: the first
nine digits count, scaled to nanoseconds. -/
def parseNanoseconds (digits : List Char) : Nat :=
  let ds := digits.take 9
  (digitsValue ds 0).getD 0 * 10 ^ (9 - ds.length)

/-- One element of the layout read off the value by `time.Parse`; `none` is a
parse error. -/
def parseChunk (c : Chunk) (value : List Char) (p : Parsing) : Option (List Char × Parsing) :=
  match c with
  | Chunk.lit s => (skip false value s).map (fun v => (v, p))
  | Chunk.stdLongYear =>
    match value with
    | a :: b :: c :: d :: rest =>
      match digitsValue [a, b, c, d] 0 with
      | some y => some (rest, { p with year := (y : Int) })
      | none => none
    | _ => none
  | Chunk.stdZeroMonth =>
    match getnum value true with
    | some (m, rest) => if m = 0 ∨ 12 < m then none else some (rest, { p with month := some m })
    | none => none
  | Chunk.stdZeroDay =>
    match getnum value true with
    | some (d, rest) => some (rest, { p with day := some d })
    | none => none
  | Chunk.stdHour =>
    match getnum value false with
    | some (h, rest) => if 24 ≤ h then none else some (rest, { p with hour := h })
    | none => none
  | Chunk.stdZeroMinute =>
    match getnum value true with
    | some (m, rest) => if 60 ≤ m then none else some (rest, { p with min := m })
    | none => none
  | Chunk.stdZeroSecond =>
    match getnum value true with
    | some (sec, rest) =>
      if 60 ≤ sec then none
      else
        match rest with
        | x :: y :: more =>
          if (x = '.' ∨ x = ',') ∧ isDigitChar y then
            let ds := spanDigits (y :: more)
            some (ds.2, { p with sec := sec, nsec := parseNanoseconds ds.1 })
          else some (rest, { p with sec := sec })
        | _ => some (rest, { p with sec := sec })
    | none => none

/-- The loop of `time.Parse` over the elements of the layout; at the end of the
layout the value has to be used up. -/
def parseLoop : List Chunk → List Char → Parsing → Option Parsing
  | [], value, p => if value.isEmpty then some p else none
  | c :: layout, value, p =>
    match parseChunk c value p with
    | some (rest, p') => parseLoop layout rest p'
    | none => none

/-- Go `time.Parse`: the time read (in UTC) or the zero time and a
`*time.ParseError`.  The day is checked against the month at the end. -/
def time.Parse (layout : List Chunk) (value : List Char) : Time × error :=
  match parseLoop layout value ⟨0, none, none, 0, 0, 0, 0⟩ with
  | none => (Time.zero, some GoError.timeParseError)
  | some p =>
    let month := p.month.getD 1
    let day := p.day.getD 1
    if day < 1 ∨ daysIn month p.year < day then (Time.zero, some GoError.timeParseError)
    else (⟨p.year, month, day, p.hour, p.min, p.sec, p.nsec⟩, none)

/-- Go `AkTime`, a struct embedding `time.Time`. -/
structure AkTime where
  Time : Kiku.Time
  deriving DecidableEq, Repr

/-- Go `AkTime.UnmarshalJSON`: the receiver afterwards and the error returned.
The layout is `ReturnDateFormat` between double quotes. -/
def AkTime.UnmarshalJSON (a : AkTime) (data : List Char) : AkTime × error :=
  if data = ['n', 'u', 'l', 'l'] then (a, none)
  else
    let r := time.Parse (Chunk.lit ['"'] :: ReturnDateFormat ++ [Chunk.lit ['"']]) data
    (⟨r.1⟩, r.2)

/-! ## `staff.go`: request parameters of the GET employee API -/

/-- Go `GetStaffParam`; the pointer fields are `none` when nil. -/
structure GetStaffParam where
  LoginCompanyCode : String
  Token : String
  Target : Option String
  StaffID : Option Int
  Page : Option Int
  deriving DecidableEq, Repr

/-- The `switch` of `GetStaffParam.EncodeURL` that fills the query values: the
`Target` case falls through into the `Page` case, which dereferences `Page`. -/
def GetStaffParam.queryValues (g : GetStaffParam) (uv : Values) : Run Values :=
  if g.Target ≠ none then do
    let target ← deref g.Target
    let uv := uv.Add "target" target
    let page ← deref g.Page
    pure (uv.Add "page" (formatInt page))
  else if g.Page ≠ none then do
    let page ← deref g.Page
    pure (uv.Add "page" (formatInt page))
  else pure uv

/-- Go `GetStaffParam.EncodeURL`, returning `(encodedURL, err)`. -/
def GetStaffParam.EncodeURL (g : GetStaffParam) : Run (String × error) :=
  if g.LoginCompanyCode = "" then pure ("", errors.New "LoginCompanyCode must be set")
  else if g.Token = "" then pure ("", errors.New "Token must be set")
  else do
    let encodedURL := "/" ++ g.LoginCompanyCode ++ "/staffs"
    let encodedURL :=
      match g.StaffID with
      | some id => encodedURL ++ ("/" ++ formatInt id)
      | none => encodedURL
    let uv : Values := []
    let uv := uv.Add "token" g.Token
    let uv ← g.queryValues uv
    let q := uv.Encode
    let encodedURL := if q ≠ "" then encodedURL ++ ("?" ++ q) else encodedURL
    pure (encodedURL, none)

/-! ## `stamp.go`: request parameters of the GET stamp API -/

/-- Go `GetStampParam`; the pointer fields are `none` when nil. -/
structure GetStampParam where
  LoginCompanyCode : String
  Token : String
  StartDate : Option Time
  EndDate : Option Time
  StaffID : Int
  deriving DecidableEq, Repr

/-- Go `GetStampParam.EncodeURL`. -/
def GetStampParam.EncodeURL (g : GetStampParam) : String :=
  let encodedURL := "/" ++ g.LoginCompanyCode ++ "/stamps"
  let encodedURL := if g.StaffID ≠ 0 then encodedURL ++ "/" ++ formatInt g.StaffID else encodedURL
  let uv : Values := []
  let uv := if g.Token ≠ "" then uv.Add "token" g.Token else uv
  let uv := match g.StartDate with
    | some d => uv.Add "start_date" (d.Format DateFormat)
    | none => uv
  let uv := match g.EndDate with
    | some d => uv.Add "end_date" (d.Format DateFormat)
    | none => uv
  let q := uv.Encode
  if q ≠ "" then encodedURL ++ ("?" ++ q) else encodedURL

/-! ## `encoding/json`: the scanner

`json.Decoder.Decode` first reads one complete JSON value from the stream with
the state machine of `scanner.go` and only then unmarshals it.  The machine is
embedded state by state; next to Go's parse-state stack it keeps the value
built so far, so that the scan yields the syntax tree of the value read. -/

/-- A JSON value as read from the input.  Strings (and member names) keep the
raw text between their quotes, numbers their literal. -/
inductive JSON where
  | null
  | bool (b : Bool)
  | number (lit : List Char)
  | string (raw : List Char)
  | array (elems : List JSON)
  | object (members : List (List Char × JSON))
  deriving Repr

/-- Go's `parseObjectKey` and `parseObjectValue`. -/
inductive ObjPhase where
  | parseObjectKey
  | parseObjectValue
  deriving DecidableEq, Repr

/-- One entry of the scanner's `parseState` stack, with the part of the
container read so far (latest first). -/
inductive Frame where
  | object (ps : ObjPhase) (members : List (List Char × JSON)) (key : List Char)
  | array (elems : List JSON)
  deriving Repr

/-- The scanner's `step` function, by name. -/
inductive Step where
  | stateBeginValueOrEmpty
  | stateBeginValue
  | stateBeginStringOrEmpty
  | stateBeginString
  | stateEndValue
  | stateEndTop
  | stateInString
  | stateInStringEsc
  /-- States `stateInStringEscU`, `...U1`, `...U12`, `...U123`: `n` hex digits read. -/
  | stateInStringEscU (n : Nat)
  | stateNeg
  | state1
  | state0
  | stateDot
  | stateDot0
  | stateE
  | stateESign
  | stateE0
  /-- States `stateT` ... `stateNul`: inside a literal, `rest` still expected. -/
  | stateLit (rest : List Char) (v : JSON)
  deriving Repr

/-- Scanner state: Go's `step` and `parseState`, the text of the token being
read (latest character first) and the finished top-level value. -/
structure Scanner where
  step : Step
  parseState : List Frame
  tok : List Char
  top : Option JSON
  deriving Repr

/-- Codes returned by a scanner step. -/
inductive OpCode where
  | scanContinue
  | scanEndObject
  | scanEndArray
  | scanEnd
  | scanError
  deriving DecidableEq, Repr

/-- Go `maxNestingDepth`. -/
def maxNestingDepth : Nat := 10000

/-- Go `isSpace`. -/
def isSpace (c : Char) : Bool := c = ' ' || c = '\t' || c = '\r' || c = '\n'

/-- Hexadecimal digit, either case. -/
def isHexChar (c : Char) : Bool :=
  isDigitChar c || (97 ≤ c.toNat && c.toNat ≤ 102) || (65 ≤ c.toNat && c.toNat ≤ 70)

/-- A finished value goes into the innermost open container, or becomes the
top-level value. -/
def Scanner.attach (s : Scanner) (v : JSON) : Scanner :=
  match s.parseState with
  | [] => { s with top := some v, tok := [] }
  | Frame.array elems :: rest => { s with parseState := Frame.array (v :: elems) :: rest, tok := [] }
  | Frame.object ps ms key :: rest =>
    { s with parseState := Frame.object ps ((key, v) :: ms) key :: rest, tok := [] }

/-- A finished string is a member name when the innermost container is an
object waiting for a key, and a value otherwise. -/
def Scanner.endString (s : Scanner) : Scanner :=
  match s.parseState with
  | Frame.object ObjPhase.parseObjectKey ms _ :: rest =>
    { s with parseState := Frame.object ObjPhase.parseObjectKey ms s.tok.reverse :: rest,
             tok := [], step := Step.stateEndValue }
  | _ => { s.attach (JSON.string s.tok.reverse) with step := Step.stateEndValue }

/-- Go `popParseState`, handing the finished container to its parent. -/
def Scanner.popParseState (s : Scanner) : Scanner :=
  match s.parseState with
  | [] => s
  | f :: rest =>
    let v := match f with
      | Frame.array elems => JSON.array elems.reverse
      | Frame.object _ ms _ => JSON.object ms.reverse
    let s := { s with parseState := rest }
    let s := s.attach v
    if rest.isEmpty then { s with step := Step.stateEndTop } else { s with step := Step.stateEndValue }

/-- Go `stateEndTop`. -/
def stateEndTop (s : Scanner) (_c : Char) : Scanner × OpCode :=
  (s, OpCode.scanEnd)

/-- Go `stateEndValue`. -/
def stateEndValue (s : Scanner) (c : Char) : Scanner × OpCode :=
  match s.parseState with
  | [] => stateEndTop { s with step := Step.stateEndTop } c
  | f :: rest =>
    if isSpace c then ({ s with step := Step.stateEndValue }, OpCode.scanContinue)
    else match f with
      | Frame.object ObjPhase.parseObjectKey ms key =>
        if c = ':' then
          ({ s with parseState := Frame.object ObjPhase.parseObjectValue ms key :: rest,
                    step := Step.stateBeginValue }, OpCode.scanContinue)
        else (s, OpCode.scanError)
      | Frame.object ObjPhase.parseObjectValue ms key =>
        if c = ',' then
          ({ s with parseState := Frame.object ObjPhase.parseObjectKey ms key :: rest,
                    step := Step.stateBeginString }, OpCode.scanContinue)
        else if c = '}' then (s.popParseState, OpCode.scanEndObject)
        else (s, OpCode.scanError)
      | Frame.array _ =>
        if c = ',' then ({ s with step := Step.stateBeginValue }, OpCode.scanContinue)
        else if c = ']' then (s.popParseState, OpCode.scanEndArray)
        else (s, OpCode.scanError)

/-- A number ends at the first character that cannot continue it; that
character is then read by `stateEndValue`. -/
def endNumber (s : Scanner) (c : Char) : Scanner × OpCode :=
  stateEndValue (s.attach (JSON.number s.tok.reverse)) c

/-- Go `stateBeginValue`. -/
def stateBeginValue (s : Scanner) (c : Char) : Scanner × OpCode :=
  if isSpace c then (s, OpCode.scanContinue)
  else if c = '{' then
    if s.parseState.length + 1 > maxNestingDepth then (s, OpCode.scanError)
    else ({ s with step := Step.stateBeginStringOrEmpty,
                   parseState := Frame.object ObjPhase.parseObjectKey [] [] :: s.parseState },
          OpCode.scanContinue)
  else if c = '[' then
    if s.parseState.length + 1 > maxNestingDepth then (s, OpCode.scanError)
    else ({ s with step := Step.stateBeginValueOrEmpty,
                   parseState := Frame.array [] :: s.parseState }, OpCode.scanContinue)
  else if c = '"' then ({ s with step := Step.stateInString, tok := [] }, OpCode.scanContinue)
  else if c = '-' then ({ s with step := Step.stateNeg, tok := [c] }, OpCode.scanContinue)
  else if c = '0' then ({ s with step := Step.state0, tok := [c] }, OpCode.scanContinue)
  else if c = 't' then
    ({ s with step := Step.stateLit ['r', 'u', 'e'] (JSON.bool true) }, OpCode.scanContinue)
  else if c = 'f' then
    ({ s with step := Step.stateLit ['a', 'l', 's', 'e'] (JSON.bool false) }, OpCode.scanContinue)
  else if c = 'n' then
    ({ s with step := Step.stateLit ['u', 'l', 'l'] JSON.null }, OpCode.scanContinue)
  else if isDigitChar c then ({ s with step := Step.state1, tok := [c] }, OpCode.scanContinue)
  else (s, OpCode.scanError)

/-- Go `stateBeginString`. -/
def stateBeginString (s : Scanner) (c : Char) : Scanner × OpCode :=
  if isSpace c then (s, OpCode.scanContinue)
  else if c = '"' then ({ s with step := Step.stateInString, tok := [] }, OpCode.scanContinue)
  else (s, OpCode.scanError)

/-- Go `state0`: after the leading `0` (or the integer digits) of a number. -/
def state0 (s : Scanner) (c : Char) : Scanner × OpCode :=
  if c = '.' then ({ s with step := Step.stateDot, tok := c :: s.tok }, OpCode.scanContinue)
  else if c = 'e' ∨ c = 'E' then
    ({ s with step := Step.stateE, tok := c :: s.tok }, OpCode.scanContinue)
  else endNumber s c

/-- Go `stateESign`. -/
def stateESign (s : Scanner) (c : Char) : Scanner × OpCode :=
  if isDigitChar c then ({ s with step := Step.stateE0, tok := c :: s.tok }, OpCode.scanContinue)
  else (s, OpCode.scanError)

/-- One step of the scanner: `s.step(s, c)`. -/
def Scanner.next (s : Scanner) (c : Char) : Scanner × OpCode :=
  match s.step with
  | Step.stateBeginValueOrEmpty =>
    if isSpace c then (s, OpCode.scanContinue)
    else if c = ']' then stateEndValue s c
    else stateBeginValue s c
  | Step.stateBeginValue => stateBeginValue s c
  | Step.stateBeginStringOrEmpty =>
    if isSpace c then (s, OpCode.scanContinue)
    else if c = '}' then
      match s.parseState with
      | Frame.object _ ms key :: rest =>
        stateEndValue { s with parseState := Frame.object ObjPhase.parseObjectValue ms key :: rest } c
      | _ => stateEndValue s c
    else stateBeginString s c
  | Step.stateBeginString => stateBeginString s c
  | Step.stateEndValue => stateEndValue s c
  | Step.stateEndTop => stateEndTop s c
  | Step.stateInString =>
    if c = '"' then (s.endString, OpCode.scanContinue)
    else if c = '\\' then
      ({ s with step := Step.stateInStringEsc, tok := c :: s.tok }, OpCode.scanContinue)
    else if c.toNat < 32 then (s, OpCode.scanError)
    else ({ s with tok := c :: s.tok }, OpCode.scanContinue)
  | Step.stateInStringEsc =>
    if c = 'b' ∨ c = 'f' ∨ c = 'n' ∨ c = 'r' ∨ c = 't' ∨ c = '\\' ∨ c = '/' ∨ c = '"' then
      ({ s with step := Step.stateInString, tok := c :: s.tok }, OpCode.scanContinue)
    else if c = 'u' then
      ({ s with step := Step.stateInStringEscU 0, tok := c :: s.tok }, OpCode.scanContinue)
    else (s, OpCode.scanError)
  | Step.stateInStringEscU n =>
    if isHexChar c then
      ({ s with step := if n < 3 then Step.stateInStringEscU (n + 1) else Step.stateInString,
                tok := c :: s.tok }, OpCode.scanContinue)
    else (s, OpCode.scanError)
  | Step.stateNeg =>
    if c = '0' then ({ s with step := Step.state0, tok := c :: s.tok }, OpCode.scanContinue)
    else if isDigitChar c then
      ({ s with step := Step.state1, tok := c :: s.tok }, OpCode.scanContinue)
    else (s, OpCode.scanError)
  | Step.state1 =>
    if isDigitChar c then ({ s with tok := c :: s.tok }, OpCode.scanContinue)
    else state0 s c
  | Step.state0 => state0 s c
  | Step.stateDot =>
    if isDigitChar c then
      ({ s with step := Step.stateDot0, tok := c :: s.tok }, OpCode.scanContinue)
    else (s, OpCode.scanError)
  | Step.stateDot0 =>
    if isDigitChar c then ({ s with tok := c :: s.tok }, OpCode.scanContinue)
    else if c = 'e' ∨ c = 'E' then
      ({ s with step := Step.stateE, tok := c :: s.tok }, OpCode.scanContinue)
    else endNumber s c
  | Step.stateE =>
    if c = '+' ∨ c = '-' then
      ({ s with step := Step.stateESign, tok := c :: s.tok }, OpCode.scanContinue)
    else stateESign s c
  | Step.stateESign => stateESign s c
  | Step.stateE0 =>
    if isDigitChar c then ({ s with tok := c :: s.tok }, OpCode.scanContinue)
    else endNumber s c
  | Step.stateLit rest v =>
    match rest with
    | [] => (s, OpCode.scanError)
    | [x] =>
      if c = x then ({ s.attach v with step := Step.stateEndValue }, OpCode.scanContinue)
      else (s, OpCode.scanError)
    | x :: more =>
      if c = x then ({ s with step := Step.stateLit more v }, OpCode.scanContinue)
      else (s, OpCode.scanError)

/-- Scanner at the start of a value (`scanner.reset`). -/
def Scanner.init : Scanner := ⟨Step.stateBeginValue, [], [], none⟩

/-- The value a finished scan has read. -/
def Scanner.value (s : Scanner) : Except GoError JSON :=
  match s.top with
  | some v => Except.ok v
  | none => Except.error GoError.jsonSyntaxError

/-- Go `Decoder.readValue` on a stream holding `cs`: the first JSON value of the
stream, `io.EOF` when the stream holds nothing but white space,
`io.ErrUnexpectedEOF` when it ends inside a value, a syntax error otherwise.
Text after the first value is left unread.  `nonSpace` tells whether a
non-blank character was read before. -/
def readValue (s : Scanner) (nonSpace : Bool) : List Char → Except GoError JSON
  | [] =>
    match s.next ' ' with
    | (s', OpCode.scanEnd) => s'.value
    | _ => if nonSpace then Except.error GoError.unexpectedEOF else Except.error GoError.eof
  | c :: cs =>
    match s.next c with
    | (s', OpCode.scanEnd) => s'.value
    | (_, OpCode.scanError) => Except.error GoError.jsonSyntaxError
    | (s', OpCode.scanContinue) => readValue s' (nonSpace || !isSpace c) cs
    | (s', _) =>
      match stateEndValue s' ' ' with
      | (s'', OpCode.scanEnd) => s''.value
      | _ => readValue s' true cs

/-- The JSON value that `json.NewDecoder(r).Decode` reads from a stream with
contents `input`. -/
def scanJSON (input : String) : Except GoError JSON := readValue Scanner.init false input.data

/-! ## `encoding/json`: unmarshalling into Go values

`decodeState.value` decodes a JSON value INTO an existing Go value.  A value of
the wrong JSON kind is recorded by `saveError` (the first one wins) and decoding
goes on; an error returned by an `UnmarshalJSON` method ends decoding at once. -/

/-- Value of a hexadecimal digit. -/
def hexVal (c : Char) : Nat :=
  if isDigitChar c then c.toNat - 48
  else if 97 ≤ c.toNat ∧ c.toNat ≤ 102 then c.toNat - 87
  else c.toNat - 55

/-- Number written by four hexadecimal digits. -/
def hex4 (a b c d : Char) : Nat := ((hexVal a * 16 + hexVal b) * 16 + hexVal c) * 16 + hexVal d

/-- Character denoted by a one-letter escape. -/
def escChar (c : Char) : Char :=
  if c = 'b' then Char.ofNat 8
  else if c = 'f' then Char.ofNat 12
  else if c = 'n' then '\n'
  else if c = 'r' then '\r'
  else if c = 't' then '\t'
  else c

/-- Whether a code unit is a UTF-16 surrogate. -/
def isSurrogate (r : Nat) : Bool := 0xD800 ≤ r && r < 0xE000

/-- What is written for a `\u` escape `hi` that denotes a surrogate and found no
partner: U+FFFD. -/
def flushSurrogate : Option Nat → List Char
  | some _ => [Char.ofNat 0xFFFD]
  | none => []

/-- Go `unquote` on the raw text between the quotes of a scanned string: escapes
are replaced by the characters they denote, a `\u` pair of surrogates by the
character it encodes and a lone surrogate by U+FFFD.  `hi` is the surrogate
escape read just before, which still waits for its partner. -/
def unquoteFrom : Option Nat → List Char → List Char
  | hi, [] => flushSurrogate hi
  | hi, c :: rest =>
    if c = '\\' then
      match rest with
      | [] => flushSurrogate hi
      | x :: rest1 =>
        if x = 'u' then
          match rest1 with
          | a :: b :: c' :: d :: rest2 =>
            let rr1 := hex4 a b c' d
            match hi with
            | some rr =>
              if rr < 0xDC00 ∧ 0xDC00 ≤ rr1 ∧ rr1 < 0xE000 then
                Char.ofNat ((rr - 0xD800) * 1024 + (rr1 - 0xDC00) + 0x10000) :: unquoteFrom none rest2
              else if isSurrogate rr1 then Char.ofNat 0xFFFD :: unquoteFrom (some rr1) rest2
              else Char.ofNat 0xFFFD :: Char.ofNat rr1 :: unquoteFrom none rest2
            | none =>
              if isSurrogate rr1 then unquoteFrom (some rr1) rest2
              else Char.ofNat rr1 :: unquoteFrom none rest2
          | _ => flushSurrogate hi
        else flushSurrogate hi ++ escChar x :: unquoteFrom none rest1
    else flushSurrogate hi ++ c :: unquoteFrom none rest

/-- Go `unquote`. -/
def unquote (raw : List Char) : List Char := unquoteFrom none raw

/-- Go `foldName` on one character: ASCII letters in upper case; U+017F and
U+212A fold to `S` and `K`.  Other characters are left alone: the member
names of the package are ASCII. -/
def foldChar (c : Char) : Char :=
  if 97 ≤ c.toNat ∧ c.toNat ≤ 122 then Char.ofNat (c.toNat - 32)
  else if c.toNat = 0x17F then 'S'
  else if c.toNat = 0x212A then 'K'
  else c

/-- A member name of the input selects the struct field tagged `name`: the
names are equal, or equal after case folding. -/
def keyIs (key : List Char) (name : String) : Bool :=
  unquote key = name.data || (unquote key).map foldChar = name.data.map foldChar

/-- Result of decoding one JSON value into a Go value: the updated value, the
first error recorded by `saveError` on the way, and the error that ended
decoding, if any. -/
structure Decoded (α : Type) where
  val : α
  savedError : error
  err : error
  deriving DecidableEq, Repr

/-- Go `saveError`: only the first error is kept. -/
def saveError (saved new : error) : error :=
  match saved with
  | some e => some e
  | none => new

/-- Decoding without error. -/
def Decoded.ok {α : Type} (a : α) : Decoded α := ⟨a, none, none⟩

/-- Decoding goes on with the next part of the input unless an error ended it. -/
def Decoded.andThen {α : Type} (d : Decoded α) (f : α → Decoded α) : Decoded α :=
  match d.err with
  | some _ => d
  | none => let r := f d.val; ⟨r.val, saveError d.savedError r.savedError, r.err⟩

/-- The decoded value put back into the struct that holds it. -/
def Decoded.map {α β : Type} (d : Decoded α) (f : α → β) : Decoded β :=
  ⟨f d.val, d.savedError, d.err⟩

/-- A decoder of a Go type: field stack of the error context, input, current value. -/
abbrev Decoder (α : Type) := List String → JSON → α → Decoded α

/-- How `UnmarshalTypeError.Value` names the kind of a JSON value. -/
def JSON.kindName : JSON → String
  | JSON.null => "null"
  | JSON.bool _ => "bool"
  | JSON.number _ => "number"
  | JSON.string _ => "string"
  | JSON.array _ => "array"
  | JSON.object _ => "object"

/-- The `*json.UnmarshalTypeError` saved for a value of the wrong kind; `Field`
is the field stack joined by dots. -/
def typeError {α : Type} (fs : List String) (value : String) (cur : α) : Decoded α :=
  ⟨cur, some (GoError.unmarshalTypeError value (".".intercalate fs)), none⟩

/-- Decoding into a Go `bool`. -/
def decodeBool : Decoder Bool := fun fs j cur =>
  match j with
  | JSON.bool b => Decoded.ok b
  | JSON.null => Decoded.ok cur
  | j => typeError fs j.kindName cur

/-- Decoding into a Go `string`. -/
def decodeString : Decoder String := fun fs j cur =>
  match j with
  | JSON.string raw => Decoded.ok (String.mk (unquote raw))
  | JSON.null => Decoded.ok cur
  | j => typeError fs j.kindName cur

/-- Go `strconv.ParseInt(s, 10, 64)` on a JSON number literal: the literal has
to be an integer between `-2^63` and `2^63 - 1`. -/
def parseInt64 (lit : List Char) : Option Int :=
  match lit with
  | [] => none
  | '-' :: ds =>
    match ds, digitsValue ds 0 with
    | _ :: _, some n => if n ≤ 2 ^ 63 then some (-(n : Int)) else none
    | _, _ => none
  | ds =>
    match digitsValue ds 0 with
    | some n => if n < 2 ^ 63 then some (n : Int) else none
    | none => none

/-- Decoding into a Go `int` (64 bits). -/
def decodeInt : Decoder Int := fun fs j cur =>
  match j with
  | JSON.number lit =>
    match parseInt64 lit with
    | some n => Decoded.ok n
    | none => typeError fs ("number " ++ String.mk lit) cur
  | JSON.null => Decoded.ok cur
  | j => typeError fs j.kindName cur

/-- The `float32` type of the Go implementation: its zero value and
`strconv.ParseFloat(s, 32)` on a JSON number literal (`none` when the literal is
out of range). -/
structure Float32Impl where
  T : Type
  zero : T
  ParseFloat : List Char → Option T

/-- Decoding into a Go `float32`. -/
def decodeFloat32 (f : Float32Impl) : Decoder f.T := fun fs j cur =>
  match j with
  | JSON.number lit =>
    match f.ParseFloat lit with
    | some x => Decoded.ok x
    | none => typeError fs ("number " ++ String.mk lit) cur
  | JSON.null => Decoded.ok cur
  | j => typeError fs j.kindName cur

/-- The loop of `decodeState.object` over the members of an object, in the order
of the input: each member is decoded into the field that `field` selects for
its name. -/
def decodeMembers {α : Type} (field : List Char → JSON → α → Decoded α) :
    List (List Char × JSON) → Decoded α → Decoded α
  | [], d => d
  | kv :: rest, d => decodeMembers field rest (d.andThen (field kv.1 kv.2))

/-- Go `decodeState.object` on a struct. -/
def decodeStruct {α : Type} (field : List String → List Char → JSON → α → Decoded α) :
    Decoder α := fun fs j cur =>
  match j with
  | JSON.object members => decodeMembers (field fs) members (Decoded.ok cur)
  | JSON.null => Decoded.ok cur
  | j => typeError fs j.kindName cur

/-- The loop of `decodeState.array` on a slice: element `i` of the input is
decoded into element `i` of the slice when there is one and into a zero value
otherwise; the slice is cut to the length of the input.  When an error ends
decoding the elements behind it stay.  (Spare capacity of the slice is taken to
be zeroed.) -/
def decodeElems {α : Type} (dec : Decoder α) (zero : α) (fs : List String) :
    List JSON → List α → Decoded (List α)
  | [], _ => Decoded.ok []
  | j :: js, cur =>
    let d := dec fs j (cur.headD zero)
    match d.err with
    | some e => ⟨d.val :: cur.tail, d.savedError, some e⟩
    | none =>
      let r := decodeElems dec zero fs js cur.tail
      ⟨d.val :: r.val, saveError d.savedError r.savedError, r.err⟩

/-- Decoding into a Go slice; `none` is the nil slice. -/
def decodeSlice {α : Type} (dec : Decoder α) (zero : α) : Decoder (Option (List α)) :=
  fun fs j cur =>
  match j with
  | JSON.array elems => (decodeElems dec zero fs elems (cur.getD [])).map some
  | JSON.null => Decoded.ok none
  | j => typeError fs j.kindName cur

/-- Go `decodeState.unmarshal`: a scanned value is decoded into `v`.  The result
is `v` afterwards and the error returned: the error that ended decoding, or
else the first saved one. -/
def unmarshal {α : Type} (dec : Decoder α) (j : JSON) (v : α) : α × error :=
  let d := dec [] j v
  (d.val, match d.err with
          | some e => some e
          | none => d.savedError)

/-- Go `Decoder.Decode(&v)`: one value is read from the stream and unmarshalled
into `v`.  The result is `v` afterwards and the error returned. -/
def json.Decode {α : Type} (dec : Decoder α) (input : String) (v : α) : α × error :=
  match scanJSON input with
  | Except.error e => (v, some e)
  | Except.ok j => unmarshal dec j v

/-! ## The records of the package and their decoders

Every record comes with its zero value and with the function that decodes one
JSON member into the field named by the `json` tag. -/

/-- Go `Error` (`error.go`). -/
structure Error where
  Code : String
  Message : String
  deriving DecidableEq, Repr

/-- Zero value of `Error`. -/
def Error.zero : Error := ⟨"", ""⟩

/-- Member of an `Error` object. -/
def Error.field (fs : List String) (key : List Char) (v : JSON) (e : Error) : Decoded Error :=
  if keyIs key "code" then (decodeString (fs ++ ["code"]) v e.Code).map (fun x => { e with Code := x })
  else if keyIs key "message" then
    (decodeString (fs ++ ["message"]) v e.Message).map (fun x => { e with Message := x })
  else Decoded.ok e

/-- Go `Organization` (`organization.go`). -/
structure Organization where
  ID : Int
  Name : String
  deriving DecidableEq, Repr

/-- Zero value of `Organization`. -/
def Organization.zero : Organization := ⟨0, ""⟩

/-- Member of an `Organization` object. -/
def Organization.field (fs : List String) (key : List Char) (v : JSON) (o : Organization) :
    Decoded Organization :=
  if keyIs key "organizationId" then
    (decodeInt (fs ++ ["organizationId"]) v o.ID).map (fun x => { o with ID := x })
  else if keyIs key "name" then
    (decodeString (fs ++ ["name"]) v o.Name).map (fun x => { o with Name := x })
  else Decoded.ok o

/-- Go `EmploymentCategory`. -/
structure EmploymentCategory where
  ID : Int
  Name : String
  deriving DecidableEq, Repr

/-- Zero value of `EmploymentCategory`. -/
def EmploymentCategory.zero : EmploymentCategory := ⟨0, ""⟩

/-- Member of an `EmploymentCategory` object. -/
def EmploymentCategory.field (fs : List String) (key : List Char) (v : JSON)
    (o : EmploymentCategory) : Decoded EmploymentCategory :=
  if keyIs key "employmentCategoryId" then
    (decodeInt (fs ++ ["employmentCategoryId"]) v o.ID).map (fun x => { o with ID := x })
  else if keyIs key "Name" then
    (decodeString (fs ++ ["Name"]) v o.Name).map (fun x => { o with Name := x })
  else Decoded.ok o

/-- Go `PermissionGroup`. -/
structure PermissionGroup where
  ID : Int
  Type' : Int
  Name : String
  deriving DecidableEq, Repr

/-- Zero value of `PermissionGroup`. -/
def PermissionGroup.zero : PermissionGroup := ⟨0, 0, ""⟩

/-- Member of a `PermissionGroup` object. -/
def PermissionGroup.field (fs : List String) (key : List Char) (v : JSON)
    (o : PermissionGroup) : Decoded PermissionGroup :=
  if keyIs key "permissionGroupId" then
    (decodeInt (fs ++ ["permissionGroupId"]) v o.ID).map (fun x => { o with ID := x })
  else if keyIs key "permissionType" then
    (decodeInt (fs ++ ["permissionType"]) v o.Type').map (fun x => { o with Type' := x })
  else if keyIs key "name" then
    (decodeString (fs ++ ["name"]) v o.Name).map (fun x => { o with Name := x })
  else Decoded.ok o

/-- Go `Staff`; a slice is `none` when nil. -/
structure Staff where
  ID : Int
  LastName : String
  FirstName : String
  LastNameKana : String
  FirstNameKana : String
  Organization : Kiku.Organization
  SubGroups : Option (List Kiku.Organization)
  EmploymentCategory : Kiku.EmploymentCategory
  Tag : String
  StaffNum : String
  IDmNum : String
  CardTypeID : Int
  Remarks : String
  PermissionGroup : Kiku.PermissionGroup
  ManagedOrganizations : Option (List Kiku.Organization)
  deriving DecidableEq, Repr

/-- Zero value of `Staff`. -/
def Staff.zero : Staff :=
  ⟨0, "", "", "", "", Organization.zero, none, EmploymentCategory.zero, "", "", "", 0, "",
   PermissionGroup.zero, none⟩

/-- Member of a `Staff` object. -/
def Staff.field (fs : List String) (key : List Char) (v : JSON) (o : Staff) : Decoded Staff :=
  if keyIs key "staffId" then
    (decodeInt (fs ++ ["staffId"]) v o.ID).map (fun x => { o with ID := x })
  else if keyIs key "lastName" then
    (decodeString (fs ++ ["lastName"]) v o.LastName).map (fun x => { o with LastName := x })
  else if keyIs key "firstName" then
    (decodeString (fs ++ ["firstName"]) v o.FirstName).map (fun x => { o with FirstName := x })
  else if keyIs key "lastNameKana" then
    (decodeString (fs ++ ["lastNameKana"]) v o.LastNameKana).map
      (fun x => { o with LastNameKana := x })
  else if keyIs key "firstNameKana" then
    (decodeString (fs ++ ["firstNameKana"]) v o.FirstNameKana).map
      (fun x => { o with FirstNameKana := x })
  else if keyIs key "organization" then
    (decodeStruct Organization.field (fs ++ ["organization"]) v o.Organization).map
      (fun x => { o with Organization := x })
  else if keyIs key "subgroups" then
    (decodeSlice (decodeStruct Organization.field) Organization.zero (fs ++ ["subgroups"]) v
      o.SubGroups).map (fun x => { o with SubGroups := x })
  else if keyIs key "employmentCategory" then
    (decodeStruct EmploymentCategory.field (fs ++ ["employmentCategory"]) v
      o.EmploymentCategory).map (fun x => { o with EmploymentCategory := x })
  else if keyIs key "tag" then
    (decodeString (fs ++ ["tag"]) v o.Tag).map (fun x => { o with Tag := x })
  else if keyIs key "staffNum" then
    (decodeString (fs ++ ["staffNum"]) v o.StaffNum).map (fun x => { o with StaffNum := x })
  else if keyIs key "idmNum" then
    (decodeString (fs ++ ["idmNum"]) v o.IDmNum).map (fun x => { o with IDmNum := x })
  else if keyIs key "cardTypeId" then
    (decodeInt (fs ++ ["cardTypeId"]) v o.CardTypeID).map (fun x => { o with CardTypeID := x })
  else if keyIs key "remarks" then
    (decodeString (fs ++ ["remarks"]) v o.Remarks).map (fun x => { o with Remarks := x })
  else if keyIs key "permissionGroup" then
    (decodeStruct PermissionGroup.field (fs ++ ["permissionGroup"]) v o.PermissionGroup).map
      (fun x => { o with PermissionGroup := x })
  else if keyIs key "managedOrganizations" then
    (decodeSlice (decodeStruct Organization.field) Organization.zero
      (fs ++ ["managedOrganizations"]) v o.ManagedOrganizations).map
      (fun x => { o with ManagedOrganizations := x })
  else Decoded.ok o

/-- Go `GetStaffResponse`. -/
structure GetStaffResponse where
  LoginCompanyCode : String
  Count : Int
  TotalCount : Int
  Staffs : Option (List Staff)
  deriving DecidableEq, Repr

/-- Zero value of `GetStaffResponse`. -/
def GetStaffResponse.zero : GetStaffResponse := ⟨"", 0, 0, none⟩

/-- Member of a `GetStaffResponse` object. -/
def GetStaffResponse.field (fs : List String) (key : List Char) (v : JSON)
    (o : GetStaffResponse) : Decoded GetStaffResponse :=
  if keyIs key "login_company_code" then
    (decodeString (fs ++ ["login_company_code"]) v o.LoginCompanyCode).map
      (fun x => { o with LoginCompanyCode := x })
  else if keyIs key "Count" then
    (decodeInt (fs ++ ["Count"]) v o.Count).map (fun x => { o with Count := x })
  else if keyIs key "TotalCount" then
    (decodeInt (fs ++ ["TotalCount"]) v o.TotalCount).map (fun x => { o with TotalCount := x })
  else if keyIs key "staffs" then
    (decodeSlice (decodeStruct Staff.field) Staff.zero (fs ++ ["staffs"]) v o.Staffs).map
      (fun x => { o with Staffs := x })
  else Decoded.ok o

/-- The text `UnmarshalJSON` receives for a value.  Of a value that is no string
`time.Parse` reads the first character only (it is no double quote), so the
literal or the opening bracket stands for the text. -/
def JSON.text : JSON → List Char
  | JSON.null => ['n', 'u', 'l', 'l']
  | JSON.bool true => ['t', 'r', 'u', 'e']
  | JSON.bool false => ['f', 'a', 'l', 's', 'e']
  | JSON.number lit => lit
  | JSON.string raw => '"' :: raw ++ ['"']
  | JSON.array _ => ['[']
  | JSON.object _ => ['{']

/-- Decoding into a field of type `*AkTime` (`none` is nil): `null` sets the
pointer to nil; for any other value the pointer is allocated when nil and
`AkTime.UnmarshalJSON` is called on the text of the value.  Its error ends
decoding. -/
def decodeAkTimePtr : Decoder (Option AkTime) := fun _ j cur =>
  match j with
  | JSON.null => Decoded.ok none
  | j =>
    let r := AkTime.UnmarshalJSON (cur.getD ⟨Time.zero⟩) j.text
    ⟨some r.1, none, r.2⟩

/-- Go `StampAttribute`. -/
structure StampAttribute (f : Float32Impl) where
  Method : Int
  OrgID : Int
  WorkplaceID : Int
  Latitude : f.T
  Longitude : f.T
  IP : String

/-- Zero value of `StampAttribute`. -/
def StampAttribute.zero (f : Float32Impl) : StampAttribute f := ⟨0, 0, 0, f.zero, f.zero, ""⟩

/-- Member of a `StampAttribute` object. -/
def StampAttribute.field (f : Float32Impl) (fs : List String) (key : List Char) (v : JSON)
    (o : StampAttribute f) : Decoded (StampAttribute f) :=
  if keyIs key "method" then
    (decodeInt (fs ++ ["method"]) v o.Method).map (fun x => { o with Method := x })
  else if keyIs key "org_id" then
    (decodeInt (fs ++ ["org_id"]) v o.OrgID).map (fun x => { o with OrgID := x })
  else if keyIs key "workplace_id" then
    (decodeInt (fs ++ ["workplace_id"]) v o.WorkplaceID).map (fun x => { o with WorkplaceID := x })
  else if keyIs key "latitude" then
    (decodeFloat32 f (fs ++ ["latitude"]) v o.Latitude).map (fun x => { o with Latitude := x })
  else if keyIs key "longitude" then
    (decodeFloat32 f (fs ++ ["longitude"]) v o.Longitude).map (fun x => { o with Longitude := x })
  else if keyIs key "ip" then
    (decodeString (fs ++ ["ip"]) v o.IP).map (fun x => { o with IP := x })
  else Decoded.ok o

/-- Go `Stamp`; `StampType` is an `int`. -/
structure Stamp (f : Float32Impl) where
  StampedAt : Option AkTime
  Type' : Int
  LocalTime : Option AkTime
  Timezone : String
  Attributes : StampAttribute f

/-- Zero value of `Stamp`. -/
def Stamp.zero (f : Float32Impl) : Stamp f := ⟨none, 0, none, "", StampAttribute.zero f⟩

/-- Member of a `Stamp` object. -/
def Stamp.field (f : Float32Impl) (fs : List String) (key : List Char) (v : JSON)
    (o : Stamp f) : Decoded (Stamp f) :=
  if keyIs key "stamped_at" then
    (decodeAkTimePtr (fs ++ ["stamped_at"]) v o.StampedAt).map (fun x => { o with StampedAt := x })
  else if keyIs key "type" then
    (decodeInt (fs ++ ["type"]) v o.Type').map (fun x => { o with Type' := x })
  else if keyIs key "local_time" then
    (decodeAkTimePtr (fs ++ ["local_time"]) v o.LocalTime).map (fun x => { o with LocalTime := x })
  else if keyIs key "timezone" then
    (decodeString (fs ++ ["timezone"]) v o.Timezone).map (fun x => { o with Timezone := x })
  else if keyIs key "attributes" then
    (decodeStruct (StampAttribute.field f) (fs ++ ["attributes"]) v o.Attributes).map
      (fun x => { o with Attributes := x })
  else Decoded.ok o

/-- Go `GetStampResponse`. -/
structure GetStampResponse (f : Float32Impl) where
  LoginCompanyCode : String
  StaffID : Int
  Count : Int
  Stamps : Option (List (Stamp f))

/-- Zero value of `GetStampResponse`. -/
def GetStampResponse.zero (f : Float32Impl) : GetStampResponse f := ⟨"", 0, 0, none⟩

/-- Member of a `GetStampResponse` object. -/
def GetStampResponse.field (f : Float32Impl) (fs : List String) (key : List Char) (v : JSON)
    (o : GetStampResponse f) : Decoded (GetStampResponse f) :=
  if keyIs key "login_company_code" then
    (decodeString (fs ++ ["login_company_code"]) v o.LoginCompanyCode).map
      (fun x => { o with LoginCompanyCode := x })
  else if keyIs key "staff_id" then
    (decodeInt (fs ++ ["staff_id"]) v o.StaffID).map (fun x => { o with StaffID := x })
  else if keyIs key "count" then
    (decodeInt (fs ++ ["count"]) v o.Count).map (fun x => { o with Count := x })
  else if keyIs key "stamps" then
    (decodeSlice (decodeStruct (Stamp.field f)) (Stamp.zero f) (fs ++ ["stamps"]) v o.Stamps).map
      (fun x => { o with Stamps := x })
  else Decoded.ok o

/-- Go `PostStampResponse`. -/
structure PostStampResponse where
  LoginCompanyCode : String
  StaffID : Int
  Type' : Int
  StampedAt : Option AkTime
  deriving DecidableEq, Repr

/-- Zero value of `PostStampResponse`. -/
def PostStampResponse.zero : PostStampResponse := ⟨"", 0, 0, none⟩

/-- Member of a `PostStampResponse` object. -/
def PostStampResponse.field (fs : List String) (key : List Char) (v : JSON)
    (o : PostStampResponse) : Decoded PostStampResponse :=
  if keyIs key "login_company_code" then
    (decodeString (fs ++ ["login_company_code"]) v o.LoginCompanyCode).map
      (fun x => { o with LoginCompanyCode := x })
  else if keyIs key "staff_id" then
    (decodeInt (fs ++ ["staff_id"]) v o.StaffID).map (fun x => { o with StaffID := x })
  else if keyIs key "type" then
    (decodeInt (fs ++ ["type"]) v o.Type').map (fun x => { o with Type' := x })
  else if keyIs key "stampedAt" then
    (decodeAkTimePtr (fs ++ ["stampedAt"]) v o.StampedAt).map (fun x => { o with StampedAt := x })
  else Decoded.ok o

/-- Go `PostTokenReissueResponse`. -/
structure PostTokenReissueResponse where
  LoginCompanyCode : String
  StaffId : Int
  AgencyManagerId : Int
  Token : String
  ExpiredAt : Option AkTime
  deriving DecidableEq, Repr

/-- Zero value of `PostTokenReissueResponse`. -/
def PostTokenReissueResponse.zero : PostTokenReissueResponse := ⟨"", 0, 0, "", none⟩

/-- Member of a `PostTokenReissueResponse` object. -/
def PostTokenReissueResponse.field (fs : List String) (key : List Char) (v : JSON)
    (o : PostTokenReissueResponse) : Decoded PostTokenReissueResponse :=
  if keyIs key "login_company_code" then
    (decodeString (fs ++ ["login_company_code"]) v o.LoginCompanyCode).map
      (fun x => { o with LoginCompanyCode := x })
  else if keyIs key "staff_id" then
    (decodeInt (fs ++ ["staff_id"]) v o.StaffId).map (fun x => { o with StaffId := x })
  else if keyIs key "agency_manager_id" then
    (decodeInt (fs ++ ["agency_manager_id"]) v o.AgencyManagerId).map
      (fun x => { o with AgencyManagerId := x })
  else if keyIs key "token" then
    (decodeString (fs ++ ["token"]) v o.Token).map (fun x => { o with Token := x })
  else if keyIs key "expired_at" then
    (decodeAkTimePtr (fs ++ ["expired_at"]) v o.ExpiredAt).map (fun x => { o with ExpiredAt := x })
  else Decoded.ok o

/-! ## The response envelope and the four decoders -/

/-- The anonymous struct every decoder declares: `success`, `response`, `errors`. -/
structure Envelope (R : Type) where
  Success : Bool
  Response : R
  Errors : Option (List Error)

/-- Zero value of the envelope. -/
def Envelope.zero {R : Type} (zero : R) : Envelope R := ⟨false, zero, none⟩

/-- Member of an envelope object; `resp` decodes the record of the resource. -/
def Envelope.field {R : Type} (resp : Decoder R) (fs : List String) (key : List Char) (v : JSON)
    (o : Envelope R) : Decoded (Envelope R) :=
  if keyIs key "success" then
    (decodeBool (fs ++ ["success"]) v o.Success).map (fun x => { o with Success := x })
  else if keyIs key "response" then
    (resp (fs ++ ["response"]) v o.Response).map (fun x => { o with Response := x })
  else if keyIs key "errors" then
    (decodeSlice (decodeStruct Error.field) Error.zero (fs ++ ["errors"]) v o.Errors).map
      (fun x => { o with Errors := x })
  else Decoded.ok o

/-- Decoder of the envelope around the record with members `field`. -/
def Envelope.decoder {R : Type} (field : List String → List Char → JSON → R → Decoded R) :
    Decoder (Envelope R) :=
  decodeStruct (Envelope.field (decodeStruct field))

/-- What `json.NewDecoder(r).Decode(&decoded)` leaves in a fresh envelope, and
the error it returns; `r` holds the text `input`. -/
def decodeEnvelope {R : Type} (field : List String → List Char → JSON → R → Decoded R)
    (zero : R) (input : String) : Envelope R × error :=
  json.Decode (Envelope.decoder field) input (Envelope.zero zero)

/-- Go `GetStaffResponse.DecodeFrom`: the receiver afterwards and the error
returned.  The type assertion `err.(*json.UnmarshalTypeError)` panics on an
error of another type. -/
def GetStaffResponse.DecodeFrom (g : GetStaffResponse) (r : String) :
    Run (GetStaffResponse × error) :=
  let decoded := decodeEnvelope GetStaffResponse.field GetStaffResponse.zero r
  match decoded.2 with
  | some (GoError.unmarshalTypeError value field) =>
    Run.ret (g, some (GoError.errorString
      ("Unmarshal error: field: " ++ field ++ ", value: " ++ value)))
  | some _ =>
    Run.panic "interface conversion: error is not *json.UnmarshalTypeError"
  | none =>
    let err := if !decoded.1.Success then errors.New "AKASHI API failed" else none
    Run.ret (decoded.1.Response, err)

/-- Go `GetStampResponse.Decode`: the receiver afterwards and the error returned. -/
def GetStampResponse.Decode (f : Float32Impl) (g : GetStampResponse f) (r : String) :
    GetStampResponse f × error :=
  let gsr := decodeEnvelope (GetStampResponse.field f) (GetStampResponse.zero f) r
  if !gsr.1.Success then (g, errors.New "Requesting Stamps API failed")
  else if gsr.2 ≠ none then (g, gsr.2)
  else (gsr.1.Response, gsr.2)

/-- Go `PostStampResponse.Decode`: the receiver afterwards and the error returned. -/
def PostStampResponse.Decode (p : PostStampResponse) (r : String) : PostStampResponse × error :=
  let psr := decodeEnvelope PostStampResponse.field PostStampResponse.zero r
  if !psr.1.Success then (p, errors.New "Requesting Stamp API failed")
  else if psr.2 ≠ none then (p, psr.2)
  else (psr.1.Response, psr.2)

/-- Go `PostTokenReissueResponse.Decode`: the receiver afterwards and the error
returned. -/
def PostTokenReissueResponse.Decode (p : PostTokenReissueResponse) (r : String) :
    PostTokenReissueResponse × error :=
  let psr := decodeEnvelope PostTokenReissueResponse.field PostTokenReissueResponse.zero r
  if !psr.1.Success then (p, errors.New "Requesting Token Reissue API failed")
  else if psr.2 ≠ none then (p, psr.2)
  else (psr.1.Response, psr.2)

/-! ## Validation and the encoders of the POST requests -/

/-- Go `GetStampParam.IsValid`. -/
def GetStampParam.IsValid (g : GetStampParam) : error :=
  if g.LoginCompanyCode = "" then errors.New "LoginCompanyCode must be set"
  else if g.Token = "" then errors.New "Token must be set"
  else if g.StartDate = none then errors.New "StartDate must be set"
  else if g.EndDate = none then errors.New "EndDate must be set"
  else none

/-- Go `PostStampParam`; `StampType` is an `int`, a nil `StampedAt` is `none`. -/
structure PostStampParam where
  LoginCompanyCode : String
  Token : String
  Type' : Int
  StampedAt : Option AkTime
  Timezone : String
  deriving DecidableEq, Repr

/-- Go `PostStampParam.IsValid`. -/
def PostStampParam.IsValid (p : PostStampParam) : error :=
  if p.LoginCompanyCode = "" then errors.New "LoginCompanyCode must be set"
  else if p.Token = "" then errors.New "Token must be set"
  else none

/-- Go `PostStampParam.EncodeURL`, returning `(encodedURL, err)`. -/
def PostStampParam.EncodeURL (p : PostStampParam) : String × error :=
  ("/" ++ p.LoginCompanyCode ++ "/stamps", none)

/-- Go `PostTokenReissueParam`. -/
structure PostTokenReissueParam where
  LoginCompanyCode : String
  Token : String
  deriving DecidableEq, Repr

/-- Go `PostTokenReissueParam.IsValid`. -/
def PostTokenReissueParam.IsValid (p : PostTokenReissueParam) : error :=
  if p.LoginCompanyCode = "" then errors.New "LoginCompanyCode must be set"
  else if p.Token = "" then errors.New "Token must be set"
  else none

/-- Go `PostTokenReissueParam.EncodeUrl`, returning `(encodedUrl, err)`. -/
def PostTokenReissueParam.EncodeUrl (p : PostTokenReissueParam) : String × error :=
  ("/token/reissue/" ++ p.LoginCompanyCode, none)

/-! ## `encoding/json`: marshalling the bodies of the POST requests

`json.Marshal` writes the exported fields of a struct in the order of their
declaration, under the name of the `json` tag or, without a tag, under the Go
name of the field; a field tagged `omitempty` is left out when it holds its zero
value. -/

/-- Lower-case hexadecimal digit. -/
def lowerhex (d : Nat) : Char :=
  if d < 10 then Char.ofNat (48 + d) else Char.ofNat (87 + d)

/-- One character of a string as `json.Marshal` writes it (HTML escaping on):
quote and backslash behind a backslash, `\n`, `\r`, `\t`, other control
characters, `<`, `>`, `&`, U+2028 and U+2029 as `\u` escapes. -/
def encodeChar (c : Char) : List Char :=
  if c = '"' then ['\\', '"']
  else if c = '\\' then ['\\', '\\']
  else if c = '\n' then ['\\', 'n']
  else if c = '\r' then ['\\', 'r']
  else if c = '\t' then ['\\', 't']
  else if c.toNat < 32 ∨ c = '<' ∨ c = '>' ∨ c = '&' then
    ['\\', 'u', '0', '0', lowerhex (c.toNat / 16), lowerhex (c.toNat % 16)]
  else if c.toNat = 0x2028 then ['\\', 'u', '2', '0', '2', '8']
  else if c.toNat = 0x2029 then ['\\', 'u', '2', '0', '2', '9']
  else [c]

/-- A Go string as a JSON string (`encodeState.string`). -/
def encodeString (s : String) : String := String.mk ('"' :: s.data.flatMap encodeChar ++ ['"'])

/-- The fraction of a second in the layout `.999999999`: nine digits without
their trailing zeros, nothing at all for zero nanoseconds. -/
def formatNano (nsec : Nat) : List Char :=
  if nsec = 0 then []
  else '.' :: ((appendInt nsec 9).reverse.dropWhile (fun c => c = '0')).reverse

/-- Go `Time.MarshalJSON`, which `AkTime` inherits from the embedded `time.Time`:
the time in RFC 3339 between double quotes, or an error for a year outside 0
to 9999.  Locations are not part of `Time`; the zone is written `Z`. -/
def Time.MarshalJSON (t : Time) : String × error :=
  if t.year < 0 ∨ 9999 < t.year then ("", some GoError.marshalerError)
  else
    (String.mk (['"'] ++ appendInt t.year 4 ++ ['-'] ++ appendInt t.month 2 ++ ['-'] ++
      appendInt t.day 2 ++ ['T'] ++ appendInt t.hour 2 ++ [':'] ++ appendInt t.min 2 ++ [':'] ++
      appendInt t.sec 2 ++ formatNano t.nsec ++ ['Z', '"']), none)

/-- Go `json.Marshal` on a `PostTokenReissueParam`: `LoginCompanyCode` has no tag and
is written under its Go name, `Token` under `token`. -/
def PostTokenReissueParam.Marshal (p : PostTokenReissueParam) : String × error :=
  ("\x7b\"LoginCompanyCode\":" ++ encodeString p.LoginCompanyCode ++
    ",\"token\":" ++ encodeString p.Token ++ "\x7d", none)

/-- Go `json.Marshal` on a `PostStampParam`: `LoginCompanyCode` under its Go name,
`token`, and `type`, `stampedAt`, `timezone` when they are not zero. -/
def PostStampParam.Marshal (p : PostStampParam) : String × error :=
  let head := "\x7b\"LoginCompanyCode\":" ++ encodeString p.LoginCompanyCode ++
    ",\"token\":" ++ encodeString p.Token ++
    (if p.Type' ≠ 0 then ",\"type\":" ++ formatInt p.Type' else "")
  let tail := (if p.Timezone ≠ "" then ",\"timezone\":" ++ encodeString p.Timezone else "") ++ "\x7d"
  match p.StampedAt with
  | none => (head ++ tail, none)
  | some a =>
    match a.Time.MarshalJSON with
    | (_, some e) => ("", some e)
    | (text, none) => (head ++ ",\"stampedAt\":" ++ text ++ tail, none)

/-! ## `client.go`: the HTTP client -/

/-- A `*http.Request` as the client fills it: method, URL, body and the
`Content-Type` header. -/
structure Request where
  Method : String
  URL : String
  Body : Option String
  ContentType : Option String
  deriving DecidableEq, Repr

/-- A `*http.Response`: status code and the contents of the body. -/
structure Response where
  StatusCode : Int
  Body : String
  deriving DecidableEq, Repr

/-- The part of `net/http` behind the client, together with the context of the
call: `NewRequestError method url` is the error of `http.NewRequestWithContext`
(`none` when the request can be built), `Do` is `http.Client.Do`, which returns
a response (`none` is nil) and an error. -/
structure HTTP where
  NewRequestError : String → String → error
  Do : Request → Option Response × error

/-- Constant `endpointURL`. -/
def endpointURL : String := "https://atnd.ak4.jp/api/cooperation"

/-- Go `client.Get`.  (The line written to the log is not part of the model.) -/
def client.Get (http : HTTP) (url : String) : Option Response × error :=
  let reqURL := endpointURL ++ url
  match http.NewRequestError "GET" reqURL with
  | some e => (none, some e)
  | none => http.Do ⟨"GET", reqURL, none, none⟩

/-- Go `client.Post`; `marshal` is `json.Marshal` on the type of `body`. -/
def client.Post {α : Type} (marshal : α → String × error) (http : HTTP) (url : String)
    (body : α) : Option Response × error :=
  let reqURL := endpointURL ++ url
  match marshal body with
  | (_, some e) => (none, some e)
  | (b, none) =>
    match http.NewRequestError "POST" reqURL with
    | some e => (none, some e)
    | none => http.Do ⟨"POST", reqURL, some b, some "application/json"⟩

/-! ## The four operations -/

/-- Constant `http.StatusOK`. -/
def StatusOK : Int := 200

/-- The error `fmt.Errorf("Status code=%d", code)`. -/
def statusError (code : Int) : error := some (GoError.errorString ("Status code=" ++ formatInt code))

/-- Go `GetStaff`, returning `(response, err)`.  The statement
`defer res.Body.Close()` evaluates `res.Body` where it stands, before `err` is
looked at. -/
def GetStaff (http : HTTP) (param : GetStaffParam) : Run (GetStaffResponse × error) := do
  let response := GetStaffResponse.zero
  let encoded ← param.EncodeURL
  if encoded.2 ≠ none then pure (response, encoded.2)
  else
    let r := client.Get http encoded.1
    let res ← deref r.1
    if r.2 ≠ none then pure (response, r.2)
    else if res.StatusCode ≠ StatusOK then pure (response, statusError res.StatusCode)
    else response.DecodeFrom res.Body

/-- Go `GetStamps`, returning `(response, err)`.  The first case of the `switch`
reads `res.StatusCode`. -/
def GetStamps (f : Float32Impl) (http : HTTP) (param : GetStampParam) :
    Run (GetStampResponse f × error) := do
  let response := GetStampResponse.zero f
  if param.IsValid ≠ none then pure (response, param.IsValid)
  else
    let endpoint := param.EncodeURL
    let r := client.Get http endpoint
    let res ← deref r.1
    if res.StatusCode ≠ StatusOK then pure (response, statusError res.StatusCode)
    else if r.2 ≠ none then pure (response, r.2)
    else pure (GetStampResponse.Decode f response res.Body)

/-- Go `PostStamp`, returning `(response, err)`.  (The line printed at the end is
not part of the model.) -/
def PostStamp (http : HTTP) (param : PostStampParam) : Run (PostStampResponse × error) := do
  let response := PostStampResponse.zero
  if param.IsValid ≠ none then pure (response, param.IsValid)
  else
    let encoded := param.EncodeURL
    if encoded.2 ≠ none then pure (response, encoded.2)
    else
      let r := client.Post PostStampParam.Marshal http encoded.1 param
      let res ← deref r.1
      if res.StatusCode ≠ StatusOK then pure (response, statusError res.StatusCode)
      else if r.2 ≠ none then pure (response, r.2)
      else pure (response.Decode res.Body)

/-- Go `PostTokenReissue`, returning `(res, err)`. -/
def PostTokenReissue (http : HTTP) (param : PostTokenReissueParam) :
    Run (PostTokenReissueResponse × error) := do
  let res := PostTokenReissueResponse.zero
  if param.IsValid ≠ none then pure (res, param.IsValid)
  else
    let encoded := param.EncodeUrl
    if encoded.2 ≠ none then pure (res, encoded.2)
    else
      let resp := client.Post PostTokenReissueParam.Marshal http encoded.1 param
      let r ← deref resp.1
      if r.StatusCode ≠ StatusOK then pure (res, statusError r.StatusCode)
      else if resp.2 ≠ none then pure (res, resp.2)
      else pure (res.Decode r.Body)

/-! ## Notions used to state the properties of the encoders -/

/-- Characters that `url.QueryEscape` copies unchanged: ASCII letters, digits
and `-`, `_`, `.`, `~`. -/
def isUnreserved (c : Char) : Bool :=
  (97 ≤ c.toNat && c.toNat ≤ 122) || (65 ≤ c.toNat && c.toNat ≤ 90) ||
  (48 ≤ c.toNat && c.toNat ≤ 57) || c.toNat = 45 || c.toNat = 95 || c.toNat = 46 || c.toNat = 126

/-- The two decimal digits of a number below 100. -/
def twoDigits (n : Nat) : List Char := [digitChar (n / 10), digitChar n]

/-- The four decimal digits of a number below 10000. -/
def fourDigits (n : Nat) : List Char :=
  [digitChar (n / 1000), digitChar (n / 100), digitChar (n / 10), digitChar n]

/-- The fourteen digits `YYYYMMDDHHMMSS` of a civil time. -/
def YYYYMMDDHHMMSS (t : Time) : String :=
  String.mk (fourDigits t.year.toNat ++ twoDigits t.month ++ twoDigits t.day ++
    twoDigits t.hour ++ twoDigits t.min ++ twoDigits t.sec)

/-- The URL of the GET stamp request as the specification describes it: the
path, the staff ID when it is not zero, and the parameters that are set, in the
order `end_date`, `start_date`, `token`, joined by `&` behind a `?`; a date is
written with its fourteen digits and the token percent-encoded. -/
def GetStampParam.specURL (g : GetStampParam) : String :=
  let path := "/" ++ g.LoginCompanyCode ++ "/stamps" ++
    (if g.StaffID ≠ 0 then "/" ++ formatInt g.StaffID else "")
  let params :=
    (g.EndDate.map (fun d => "end_date=" ++ YYYYMMDDHHMMSS d)).toList ++
    (g.StartDate.map (fun d => "start_date=" ++ YYYYMMDDHHMMSS d)).toList ++
    (if g.Token ≠ "" then ["token=" ++ QueryEscape g.Token] else [])
  if params.isEmpty then path else path ++ "?" ++ "&".intercalate params

/-- The part of a path that a staff ID adds when it is present: `"/"` and the
decimal ID. -/
def idSuffix : Option Int → String
  | some id => "/" ++ formatInt id
  | none => ""

/-! ## Notions used to state the properties of the decoders -/

/-- An implementation of `float32` that keeps the literal it parsed; it serves to
run the decoders on examples. -/
def literalFloat32 : Float32Impl := ⟨List Char, ['0'], fun lit => some lit⟩

/-- The value of an `errors` member is a list of error details: it decodes into a
`[]Error` without error. -/
def IsErrorList (e : JSON) : Prop :=
  (decodeSlice (decodeStruct Error.field) Error.zero ["errors"] e none).savedError = none ∧
  (decodeSlice (decodeStruct Error.field) Error.zero ["errors"] e none).err = none

instance (e : JSON) : Decidable (IsErrorList e) := by unfold IsErrorList; infer_instance

/-- The errors of a decoder do not depend on the value decoded into. -/
def ErrorsIndependent {α : Type} (dec : JSON → α → Decoded α) : Prop :=
  ∀ j c c', (dec j c).savedError = (dec j c').savedError ∧ (dec j c).err = (dec j c').err

/-- Two decoding states that agree on everything a decoder reads: `Success`,
`Response` and the errors. -/
def SameOutcome {R : Type} (d d' : Decoded (Envelope R)) : Prop :=
  d.val.Success = d'.val.Success ∧ d.val.Response = d'.val.Response ∧
  d.savedError = d'.savedError ∧ d.err = d'.err

/-! ## Notions used to state the properties of validation -/

/-- The error for the first constraint of a list that is not met: each entry
tells whether the constraint is met and carries the message for when it is
not. -/
def firstUnmet : List (Bool × String) → error
  | [] => none
  | c :: rest => if c.1 then firstUnmet rest else errors.New c.2

/-! ## Notions used to state the properties of the wire time -/

/-- The inbound literal of a civil time with a year from 0 to 9999:
`"YYYY/MM/DD HH:MM:SS"` between double quotes. -/
def inboundLiteral (t : Time) : List Char :=
  '"' :: (fourDigits t.year.toNat ++ '/' :: (twoDigits t.month ++ '/' :: (twoDigits t.day ++
    ' ' :: (twoDigits t.hour ++ ':' :: (twoDigits t.min ++ ':' :: (twoDigits t.sec ++ ['"']))))))

/-- A text of exactly `n` decimal digits. -/
def IsDigits (n : Nat) (l : List Char) : Prop := l.length = n ∧ ∀ c ∈ l, isDigitChar c = true

/-- The number written by a text of decimal digits. -/
def numberOf (l : List Char) : Nat := (digitsValue l 0).getD 0

/-- The parts of an inbound text: the digits of its fields, the number of blanks
behind the first one between date and time, and the fraction of a second behind
the seconds (with its separator; empty when there is none). -/
structure InboundParts where
  year : List Char
  month : List Char
  day : List Char
  blanks : Nat
  hour : List Char
  min : List Char
  sec : List Char
  frac : List Char

/-- The text made of the parts, between double quotes. -/
def InboundParts.text (p : InboundParts) : List Char :=
  '"' :: (p.year ++ '/' :: (p.month ++ '/' :: (p.day ++ ' ' :: (List.replicate p.blanks ' ' ++
    (p.hour ++ ':' :: (p.min ++ ':' :: (p.sec ++ (p.frac ++ ['"']))))))))

/-- The parts are well-formed and denote a date and a time of day that exist:
four digits of year, two of month, day, minute and second, one or two of hour,
a fraction that is empty or a `.` or `,` with at least one digit, and every
field in its range. -/
def InboundParts.Valid (p : InboundParts) : Prop :=
  IsDigits 4 p.year ∧ IsDigits 2 p.month ∧ IsDigits 2 p.day ∧
  (IsDigits 1 p.hour ∨ IsDigits 2 p.hour) ∧ IsDigits 2 p.min ∧ IsDigits 2 p.sec ∧
  (p.frac = [] ∨ ∃ sep ds, p.frac = sep :: ds ∧ (sep = '.' ∨ sep = ',') ∧ ds ≠ [] ∧
    ∀ c ∈ ds, isDigitChar c = true) ∧
  1 ≤ numberOf p.month ∧ numberOf p.month ≤ 12 ∧
  1 ≤ numberOf p.day ∧ numberOf p.day ≤ daysIn (numberOf p.month) (numberOf p.year) ∧
  numberOf p.hour < 24 ∧ numberOf p.min < 60 ∧ numberOf p.sec < 60

/-- The strict shape `YYYY/MM/DD HH:MM:SS`: one blank, two digits of hour, no
fraction. -/
def InboundParts.Strict (p : InboundParts) : Prop :=
  p.blanks = 0 ∧ p.hour.length = 2 ∧ p.frac = []

/-- A double-quoted string of exactly the shape `YYYY/MM/DD HH:MM:SS` that
denotes a date and time that exist. -/
def StrictInbound (data : List Char) : Prop :=
  ∃ p : InboundParts, p.Valid ∧ p.Strict ∧ data = p.text

/-- A double-quoted string of the shape `time.Parse` accepts for the layout
`2006/01/02 15:04:05`: like the strict shape, but with one or more blanks
between date and time, an hour of one or two digits and an optional fraction of
a second. -/
def AcceptedInbound (data : List Char) : Prop :=
  ∃ p : InboundParts, p.Valid ∧ data = p.text

/-! ## The wire form of the records

What it means for a JSON value to fit a record of the package and to denote a
given value of it, as the specification describes the records: an object with
the member names of the record and, possibly, members that are unknown to it.
Nothing here refers to the decoders. -/

/-- The value of the member that bears exactly the name `tag`, if there is one. -/
def memberOf (tag : String) : List (List Char × JSON) → Option JSON
  | [] => none
  | kv :: rest => if kv.1 = tag.data then some kv.2 else memberOf tag rest

/-- The members of an object fit a record with the member names `tags`: every
member either bears one of the names, spelled as in `tags` and not borne by a
later member, or bears a name that selects no field of the record at all (an
unknown member). -/
def shapeOK (tags : List String) : List (List Char × JSON) → Bool
  | [] => true
  | kv :: rest =>
    ((tags.any (fun t => decide (kv.1 = t.data)) && rest.all (fun kv' => decide (kv'.1 ≠ kv.1))) ||
      tags.all (fun t => !keyIs kv.1 t)) && shapeOK tags rest

/-- What the member of a field has to be: when the member is absent the field
holds its zero value, otherwise the member denotes the value of the field. -/
def FieldIs {α : Type} (P : JSON → α → Prop) (zero : α) (oj : Option JSON) (x : α) : Prop :=
  match oj with
  | none => x = zero
  | some j => P j x

/-- The JSON value is the integer `n` in decimal, as Go prints it, and `n` fits
64 bits. -/
@[reducible] def IsInt (j : JSON) (n : Int) : Prop :=
  j = JSON.number (formatInt n).data ∧ -(2 ^ 63 : Int) ≤ n ∧ n < 2 ^ 63

/-- The JSON value is a string without escapes that holds the text `s`. -/
@[reducible] def IsString (j : JSON) (s : String) : Prop :=
  j = JSON.string s.data ∧ '\\' ∉ s.data

/-- The text `YYYY/MM/DD HH:MM:SS` of a civil time. -/
def inboundText (t : Time) : List Char :=
  fourDigits t.year.toNat ++ '/' :: (twoDigits t.month ++ '/' :: (twoDigits t.day ++
    ' ' :: (twoDigits t.hour ++ ':' :: (twoDigits t.min ++ ':' :: twoDigits t.sec))))

/-- The JSON value is `null` for an absent timestamp, or the string
`YYYY/MM/DD HH:MM:SS` of a time that exists, with whole seconds and a year from
0 to 9999. -/
@[reducible] def IsTime (j : JSON) (a : Option AkTime) : Prop :=
  (j = JSON.null ∧ a = none) ∨
  ∃ t : Time, t.IsValid ∧ 0 ≤ t.year ∧ t.year ≤ 9999 ∧ t.nsec = 0 ∧
    j = JSON.string (inboundText t) ∧ a = some ⟨t⟩

/-- The JSON value is a number that the `float32` of the implementation reads as `x`. -/
@[reducible] def IsFloat (f : Float32Impl) (j : JSON) (x : f.T) : Prop :=
  ∃ lit, j = JSON.number lit ∧ f.ParseFloat lit = some x

/-- The JSON value is `null` for a nil slice, or an array whose elements denote
the elements of the slice, one by one. -/
@[reducible] def IsSlice {α : Type} (P : JSON → α → Prop) (j : JSON) (l : Option (List α)) : Prop :=
  (j = JSON.null ∧ l = none) ∨
  ∃ elems xs, j = JSON.array elems ∧ l = some xs ∧ List.Forall₂ P elems xs

/-- The JSON value is an object that denotes the `Error` `o`. -/
@[reducible] def IsError (j : JSON) (o : Error) : Prop :=
  ∃ ms, j = JSON.object ms ∧ shapeOK ["code", "message"] ms = true ∧
    FieldIs IsString "" (memberOf "code" ms) o.Code ∧
    FieldIs IsString "" (memberOf "message" ms) o.Message

/-- The JSON value is an object that denotes the `Organization` `o`. -/
@[reducible] def IsOrganization (j : JSON) (o : Organization) : Prop :=
  ∃ ms, j = JSON.object ms ∧ shapeOK ["organizationId", "name"] ms = true ∧
    FieldIs IsInt 0 (memberOf "organizationId" ms) o.ID ∧
    FieldIs IsString "" (memberOf "name" ms) o.Name

/-- The JSON value is an object that denotes the `EmploymentCategory` `o`. -/
@[reducible] def IsEmploymentCategory (j : JSON) (o : EmploymentCategory) : Prop :=
  ∃ ms, j = JSON.object ms ∧ shapeOK ["employmentCategoryId", "Name"] ms = true ∧
    FieldIs IsInt 0 (memberOf "employmentCategoryId" ms) o.ID ∧
    FieldIs IsString "" (memberOf "Name" ms) o.Name

/-- The JSON value is an object that denotes the `PermissionGroup` `o`. -/
@[reducible] def IsPermissionGroup (j : JSON) (o : PermissionGroup) : Prop :=
  ∃ ms, j = JSON.object ms ∧ shapeOK ["permissionGroupId", "permissionType", "name"] ms = true ∧
    FieldIs IsInt 0 (memberOf "permissionGroupId" ms) o.ID ∧
    FieldIs IsInt 0 (memberOf "permissionType" ms) o.Type' ∧
    FieldIs IsString "" (memberOf "name" ms) o.Name

/-- The JSON value is an object that denotes the `Staff` `o`. -/
@[reducible] def IsStaff (j : JSON) (o : Staff) : Prop :=
  ∃ ms, j = JSON.object ms ∧ shapeOK
    ["staffId", "lastName", "firstName", "lastNameKana", "firstNameKana", "organization", "subgroups", "employmentCategory", "tag", "staffNum", "idmNum", "cardTypeId", "remarks", "permissionGroup", "managedOrganizations"] ms = true ∧
    FieldIs IsInt 0 (memberOf "staffId" ms) o.ID ∧
    FieldIs IsString "" (memberOf "lastName" ms) o.LastName ∧
    FieldIs IsString "" (memberOf "firstName" ms) o.FirstName ∧
    FieldIs IsString "" (memberOf "lastNameKana" ms) o.LastNameKana ∧
    FieldIs IsString "" (memberOf "firstNameKana" ms) o.FirstNameKana ∧
    FieldIs IsOrganization Organization.zero (memberOf "organization" ms) o.Organization ∧
    FieldIs (IsSlice IsOrganization) none (memberOf "subgroups" ms) o.SubGroups ∧
    FieldIs IsEmploymentCategory EmploymentCategory.zero (memberOf "employmentCategory" ms) o.EmploymentCategory ∧
    FieldIs IsString "" (memberOf "tag" ms) o.Tag ∧
    FieldIs IsString "" (memberOf "staffNum" ms) o.StaffNum ∧
    FieldIs IsString "" (memberOf "idmNum" ms) o.IDmNum ∧
    FieldIs IsInt 0 (memberOf "cardTypeId" ms) o.CardTypeID ∧
    FieldIs IsString "" (memberOf "remarks" ms) o.Remarks ∧
    FieldIs IsPermissionGroup PermissionGroup.zero (memberOf "permissionGroup" ms) o.PermissionGroup ∧
    FieldIs (IsSlice IsOrganization) none (memberOf "managedOrganizations" ms) o.ManagedOrganizations

/-- The JSON value is an object that denotes the `GetStaffResponse` `o`. -/
@[reducible] def IsGetStaffResponse (j : JSON) (o : GetStaffResponse) : Prop :=
  ∃ ms, j = JSON.object ms ∧ shapeOK
    ["login_company_code", "Count", "TotalCount", "staffs"] ms = true ∧
    FieldIs IsString "" (memberOf "login_company_code" ms) o.LoginCompanyCode ∧
    FieldIs IsInt 0 (memberOf "Count" ms) o.Count ∧
    FieldIs IsInt 0 (memberOf "TotalCount" ms) o.TotalCount ∧
    FieldIs (IsSlice IsStaff) none (memberOf "staffs" ms) o.Staffs

/-- The JSON value is an object that denotes the `StampAttribute` `o`. -/
@[reducible] def IsStampAttribute (f : Float32Impl) (j : JSON) (o : StampAttribute f) : Prop :=
  ∃ ms, j = JSON.object ms ∧ shapeOK
    ["method", "org_id", "workplace_id", "latitude", "longitude", "ip"] ms = true ∧
    FieldIs IsInt 0 (memberOf "method" ms) o.Method ∧
    FieldIs IsInt 0 (memberOf "org_id" ms) o.OrgID ∧
    FieldIs IsInt 0 (memberOf "workplace_id" ms) o.WorkplaceID ∧
    FieldIs (IsFloat f) f.zero (memberOf "latitude" ms) o.Latitude ∧
    FieldIs (IsFloat f) f.zero (memberOf "longitude" ms) o.Longitude ∧
    FieldIs IsString "" (memberOf "ip" ms) o.IP

/-- The JSON value is an object that denotes the `Stamp` `o`. -/
@[reducible] def IsStamp (f : Float32Impl) (j : JSON) (o : Stamp f) : Prop :=
  ∃ ms, j = JSON.object ms ∧ shapeOK
    ["stamped_at", "type", "local_time", "timezone", "attributes"] ms = true ∧
    FieldIs IsTime none (memberOf "stamped_at" ms) o.StampedAt ∧
    FieldIs IsInt 0 (memberOf "type" ms) o.Type' ∧
    FieldIs IsTime none (memberOf "local_time" ms) o.LocalTime ∧
    FieldIs IsString "" (memberOf "timezone" ms) o.Timezone ∧
    FieldIs (IsStampAttribute f) (StampAttribute.zero f) (memberOf "attributes" ms) o.Attributes

/-- The JSON value is an object that denotes the `GetStampResponse` `o`. -/
@[reducible] def IsGetStampResponse (f : Float32Impl) (j : JSON) (o : GetStampResponse f) : Prop :=
  ∃ ms, j = JSON.object ms ∧ shapeOK
    ["login_company_code", "staff_id", "count", "stamps"] ms = true ∧
    FieldIs IsString "" (memberOf "login_company_code" ms) o.LoginCompanyCode ∧
    FieldIs IsInt 0 (memberOf "staff_id" ms) o.StaffID ∧
    FieldIs IsInt 0 (memberOf "count" ms) o.Count ∧
    FieldIs (IsSlice (IsStamp f)) none (memberOf "stamps" ms) o.Stamps

/-- The JSON value is an object that denotes the `PostStampResponse` `o`. -/
@[reducible] def IsPostStampResponse (j : JSON) (o : PostStampResponse) : Prop :=
  ∃ ms, j = JSON.object ms ∧ shapeOK
    ["login_company_code", "staff_id", "type", "stampedAt"] ms = true ∧
    FieldIs IsString "" (memberOf "login_company_code" ms) o.LoginCompanyCode ∧
    FieldIs IsInt 0 (memberOf "staff_id" ms) o.StaffID ∧
    FieldIs IsInt 0 (memberOf "type" ms) o.Type' ∧
    FieldIs IsTime none (memberOf "stampedAt" ms) o.StampedAt

/-- The JSON value is an object that denotes the `PostTokenReissueResponse` `o`. -/
@[reducible] def IsPostTokenReissueResponse (j : JSON) (o : PostTokenReissueResponse) : Prop :=
  ∃ ms, j = JSON.object ms ∧ shapeOK
    ["login_company_code", "staff_id", "agency_manager_id", "token", "expired_at"] ms = true ∧
    FieldIs IsString "" (memberOf "login_company_code" ms) o.LoginCompanyCode ∧
    FieldIs IsInt 0 (memberOf "staff_id" ms) o.StaffId ∧
    FieldIs IsInt 0 (memberOf "agency_manager_id" ms) o.AgencyManagerId ∧
    FieldIs IsString "" (memberOf "token" ms) o.Token ∧
    FieldIs IsTime none (memberOf "expired_at" ms) o.ExpiredAt

/-- The JSON value is a well-formed envelope with `success` true whose `response`
member denotes the record `x`: an object with the members `success` (the value
`true`) and `response`, possibly a member `errors` that is `null` or a list of
error details, and possibly unknown members. -/
@[reducible] def IsSuccessEnvelope {R : Type} (P : JSON → R → Prop) (j : JSON) (x : R) : Prop :=
  ∃ ms jr, j = JSON.object ms ∧ shapeOK ["success", "response", "errors"] ms = true ∧
    memberOf "success" ms = some (JSON.bool true) ∧
    memberOf "response" ms = some jr ∧ P jr x ∧
    ∃ es, FieldIs (IsSlice IsError) none (memberOf "errors" ms) es

/-! ## Notions used in the proofs about the decoders -/

/-- One field while the members of an object are decoded: without a member the
field keeps its value, with one the decoder of the field gives the new value. -/
def FieldStep {α : Type} (dec : JSON → α → Decoded α) (oj : Option JSON) (cur x : α) : Prop :=
  match oj with
  | none => x = cur
  | some j => dec j cur = Decoded.ok x

/-! ## Transports used in examples -/

/-- A transport that answers every request with the same response and no error. -/
def respondWith (res : Response) : HTTP := ⟨fun _ _ => none, fun _ => (some res, none)⟩

/-- A transport whose call fails: it returns no response and the error `e`. -/
def failWith (e : GoError) : HTTP := ⟨fun _ _ => none, fun _ => (none, some e)⟩

/-- A transport that returns a response together with an error, as
`http.Client.Do` does when following redirects fails. -/
def redirectFailure (res : Response) (e : GoError) : HTTP :=
  ⟨fun _ _ => none, fun _ => (some res, some e)⟩

/-! ## Theorems -/

set_option maxRecDepth 100000

/-! ### The member loop of the JSON decoder -/

theorem andThen_abort {α : Type} (d : Decoded α) (f : α → Decoded α) (e : GoError)
    (h : d.err = some e) : d.andThen f = d := by
  simp [Decoded.andThen, h]

theorem decodeMembers_abort {α : Type} (field : List Char → JSON → α → Decoded α)
    (ms : List (List Char × JSON)) (d : Decoded α) (e : GoError) (h : d.err = some e) :
    decodeMembers field ms d = d := by
  induction ms with
  | nil => rfl
  | cons kv rest ih =>
    simp only [decodeMembers]
    rw [andThen_abort d _ e h]
    exact ih

theorem decodeMembers_append {α : Type} (field : List Char → JSON → α → Decoded α)
    (a b : List (List Char × JSON)) (d : Decoded α) :
    decodeMembers field (a ++ b) d = decodeMembers field b (decodeMembers field a d) := by
  induction a generalizing d with
  | nil => rfl
  | cons kv rest ih => simp only [List.cons_append, decodeMembers]; exact ih _

theorem andThen_err_none {α : Type} (d : Decoded α) (f : α → Decoded α)
    (h : (d.andThen f).err = none) : d.err = none := by
  cases hd : d.err with
  | none => rfl
  | some e => rw [andThen_abort d f e hd] at h; rw [hd] at h; exact h

theorem andThen_saved_none {α : Type} (d : Decoded α) (f : α → Decoded α)
    (h : (d.andThen f).savedError = none) : d.savedError = none := by
  cases hd : d.err with
  | some e => rw [andThen_abort d f e hd] at h; exact h
  | none =>
    simp only [Decoded.andThen, hd] at h
    cases hs : d.savedError with
    | none => rfl
    | some e => simp [saveError, hs] at h

theorem decodeMembers_err_none {α : Type} (field : List Char → JSON → α → Decoded α)
    (ms : List (List Char × JSON)) (d : Decoded α)
    (h : (decodeMembers field ms d).err = none) : d.err = none := by
  induction ms generalizing d with
  | nil => exact h
  | cons kv rest ih => exact andThen_err_none _ _ (ih _ h)

theorem decodeMembers_saved_none {α : Type} (field : List Char → JSON → α → Decoded α)
    (ms : List (List Char × JSON)) (d : Decoded α)
    (h : (decodeMembers field ms d).savedError = none) : d.savedError = none := by
  induction ms generalizing d with
  | nil => exact h
  | cons kv rest ih => exact andThen_saved_none _ _ (ih _ h)

/-- Once an error is saved, the rest of the loop runs as before and the saved
error stays. -/
theorem decodeMembers_saved_first {α : Type} (field : List Char → JSON → α → Decoded α)
    (ms : List (List Char × JSON)) (a : α) (E : GoError) (s e : error) :
    decodeMembers field ms ⟨a, some E, e⟩ =
      ⟨(decodeMembers field ms ⟨a, s, e⟩).val, some E, (decodeMembers field ms ⟨a, s, e⟩).err⟩ := by
  induction ms generalizing a s e with
  | nil => rfl
  | cons kv rest ih =>
    cases e with
    | some x =>
      rw [decodeMembers_abort field _ ⟨a, some E, some x⟩ x rfl,
        decodeMembers_abort field _ ⟨a, s, some x⟩ x rfl]
    | none =>
      simp only [decodeMembers, Decoded.andThen, saveError]
      exact ih _ _ _

/-! ### Member names -/

theorem keyIs_iff (k : List Char) (n : String) :
    keyIs k n = true ↔ (unquote k).map foldChar = n.data.map foldChar := by
  unfold keyIs
  constructor
  · intro h
    rcases Bool.or_eq_true _ _ |>.mp h with h | h
    · rw [of_decide_eq_true h]
    · exact of_decide_eq_true h
  · intro h
    simp [h]

theorem keyIs_success_not_response (k : List Char) (h : keyIs k "success" = true) :
    keyIs k "response" = false := by
  rw [keyIs_iff] at h
  cases hr : keyIs k "response" with
  | false => rfl
  | true =>
    rw [keyIs_iff] at hr
    rw [h] at hr
    exact absurd hr (by decide)

theorem keyIs_errors_not_success (k : List Char) (h : keyIs k "errors" = true) :
    keyIs k "success" = false := by
  rw [keyIs_iff] at h
  cases hr : keyIs k "success" with
  | false => rfl
  | true =>
    rw [keyIs_iff] at hr
    rw [h] at hr
    exact absurd hr (by decide)

theorem keyIs_errors_not_response (k : List Char) (h : keyIs k "errors" = true) :
    keyIs k "response" = false := by
  rw [keyIs_iff] at h
  cases hr : keyIs k "response" with
  | false => rfl
  | true =>
    rw [keyIs_iff] at hr
    rw [h] at hr
    exact absurd hr (by decide)

theorem keyIs_response_not_success (k : List Char) (h : keyIs k "response" = true) :
    keyIs k "success" = false := by
  cases hr : keyIs k "success" with
  | false => rfl
  | true => rw [keyIs_success_not_response k hr] at h; cases h

/-! ### The envelope -/

theorem Envelope_field_success_string {R : Type} (resp : Decoder R) (k raw : List Char)
    (o : Envelope R) (hk : keyIs k "success" = true) :
    Envelope.field resp [] k (JSON.string raw) o =
      ⟨o, some (GoError.unmarshalTypeError "string" "success"), none⟩ := by
  simp only [Envelope.field, hk, if_true, decodeBool, typeError, Decoded.map, JSON.kindName]
  rfl

/-- An envelope whose `success` member is a string, and which is in order apart
from that, decodes with the type error of that member. -/
theorem unmarshal_success_string {R : Type}
    (field : List String → List Char → JSON → R → Decoded R) (zero : R)
    (pre post : List (List Char × JSON)) (k raw : List Char)
    (hk : keyIs k "success" = true)
    (hrest : (unmarshal (Envelope.decoder field) (JSON.object (pre ++ post))
      (Envelope.zero zero)).2 = none) :
    (unmarshal (Envelope.decoder field) (JSON.object (pre ++ (k, JSON.string raw) :: post))
      (Envelope.zero zero)).2 = some (GoError.unmarshalTypeError "string" "success") := by
  simp only [unmarshal, Envelope.decoder, decodeStruct] at hrest ⊢
  rw [decodeMembers_append] at hrest ⊢
  simp only [decodeMembers]
  generalize hd : decodeMembers (Envelope.field (decodeStruct field) []) pre
    (Decoded.ok (Envelope.zero zero)) = d at hrest ⊢
  have herr : (decodeMembers (Envelope.field (decodeStruct field) []) post d).err = none := by
    cases h : (decodeMembers (Envelope.field (decodeStruct field) []) post d).err with
    | none => rfl
    | some e => simp [h] at hrest
  have hsav : (decodeMembers (Envelope.field (decodeStruct field) []) post d).savedError = none := by
    simpa [herr] using hrest
  have hd_err := decodeMembers_err_none _ _ _ herr
  have hd_sav := decodeMembers_saved_none _ _ _ hsav
  obtain ⟨a, s, e⟩ := d
  simp only at hd_err hd_sav
  subst hd_err hd_sav
  simp only [Decoded.andThen, Envelope_field_success_string _ k raw a hk, saveError]
  rw [decodeMembers_saved_first _ post a _ none none]
  simp only [herr]

/-! ### The record of a successful envelope -/

theorem Envelope_field_other {R : Type} (resp : Decoder R) (fs : List String) (k : List Char)
    (v : JSON) (o : Envelope R) (hk : keyIs k "response" = false) :
    (Envelope.field resp fs k v o).val.Response = o.Response := by
  unfold Envelope.field
  split
  · rfl
  · simp only [hk, Bool.false_eq_true, if_false]
    split <;> rfl

theorem andThen_frame {R : Type} (resp : Decoder R) (fs : List String) (k : List Char) (v : JSON)
    (d : Decoded (Envelope R)) (hk : keyIs k "response" = false) :
    (d.andThen (Envelope.field resp fs k v)).val.Response = d.val.Response := by
  unfold Decoded.andThen
  split
  · rfl
  · exact Envelope_field_other resp fs k v d.val hk

theorem decodeMembers_frame {R : Type} (resp : Decoder R) (fs : List String)
    (ms : List (List Char × JSON)) (d : Decoded (Envelope R))
    (h : ∀ kv ∈ ms, keyIs kv.1 "response" = false) :
    (decodeMembers (Envelope.field resp fs) ms d).val.Response = d.val.Response := by
  induction ms generalizing d with
  | nil => rfl
  | cons kv rest ih =>
    simp only [decodeMembers]
    rw [ih _ (fun x hx => h x (List.mem_cons_of_mem _ hx))]
    exact andThen_frame resp fs kv.1 kv.2 d (h kv (List.mem_cons_self _ _))

theorem Envelope_field_response {R : Type} (resp : Decoder R) (k : List Char) (v : JSON)
    (o : Envelope R) (hk : keyIs k "response" = true) :
    (Envelope.field resp [] k v o).val.Response = (resp ["response"] v o.Response).val := by
  simp only [Envelope.field, keyIs_response_not_success k hk, hk, Bool.false_eq_true, if_false,
    if_true, Decoded.map]
  rfl

/-- The record of an envelope that decodes without error is the record decoded
from its `response` member. -/
theorem unmarshal_response {R : Type} (resp : Decoder R) (zero : R)
    (pre post : List (List Char × JSON)) (k : List Char) (v : JSON)
    (hk : keyIs k "response" = true)
    (hpre : ∀ kv ∈ pre, keyIs kv.1 "response" = false)
    (hpost : ∀ kv ∈ post, keyIs kv.1 "response" = false)
    (herr : (unmarshal (decodeStruct (Envelope.field resp)) (JSON.object (pre ++ (k, v) :: post))
      (Envelope.zero zero)).2 = none) :
    (unmarshal (decodeStruct (Envelope.field resp)) (JSON.object (pre ++ (k, v) :: post))
      (Envelope.zero zero)).1.Response = (resp ["response"] v zero).val := by
  simp only [unmarshal, decodeStruct] at herr ⊢
  rw [decodeMembers_append] at herr ⊢
  simp only [decodeMembers] at herr ⊢
  have hd := decodeMembers_frame resp [] pre (Decoded.ok (Envelope.zero zero)) hpre
  generalize decodeMembers (Envelope.field resp []) pre (Decoded.ok (Envelope.zero zero)) = d
    at herr hd ⊢
  have hfin : (decodeMembers (Envelope.field resp []) post
      (d.andThen (Envelope.field resp [] k v))).err = none := by
    cases h : (decodeMembers (Envelope.field resp []) post
      (d.andThen (Envelope.field resp [] k v))).err with
    | none => rfl
    | some e => simp [h] at herr
  have hstep := decodeMembers_err_none _ _ _ hfin
  have hderr := andThen_err_none _ _ hstep
  rw [decodeMembers_frame resp [] post _ hpost]
  simp only [Decoded.andThen, hderr]
  rw [Envelope_field_response resp k v d.val hk, hd]
  rfl

/-! ### The `errors` member does not reach the caller -/

theorem decodeString_indep (fs : List String) : ErrorsIndependent (decodeString fs) := by
  intro j c c'
  cases j <;> exact ⟨rfl, rfl⟩

theorem Error_field_indep (fs : List String) (k : List Char) :
    ErrorsIndependent (Error.field fs k) := by
  intro j c c'
  unfold Error.field
  split
  · exact decodeString_indep _ j _ _
  · split
    · exact decodeString_indep _ j _ _
    · exact ⟨rfl, rfl⟩

theorem decodeMembers_indep {α : Type} (field : List Char → JSON → α → Decoded α)
    (hf : ∀ k, ErrorsIndependent (field k)) (ms : List (List Char × JSON)) (d d' : Decoded α)
    (hs : d.savedError = d'.savedError) (he : d.err = d'.err) :
    (decodeMembers field ms d).savedError = (decodeMembers field ms d').savedError ∧
    (decodeMembers field ms d).err = (decodeMembers field ms d').err := by
  induction ms generalizing d d' with
  | nil => exact ⟨hs, he⟩
  | cons kv rest ih =>
    simp only [decodeMembers]
    apply ih
    · simp only [Decoded.andThen, ← he]
      split
      · exact hs
      · simp only [hs, (hf kv.1 kv.2 d.val d'.val).1]
    · simp only [Decoded.andThen, ← he]
      split
      · exact he
      · exact (hf kv.1 kv.2 d.val d'.val).2

theorem decodeStruct_indep {α : Type} (field : List String → List Char → JSON → α → Decoded α)
    (hf : ∀ fs k, ErrorsIndependent (field fs k)) (fs : List String) :
    ErrorsIndependent (decodeStruct field fs) := by
  intro j c c'
  cases j with
  | object ms => exact decodeMembers_indep (field fs) (hf fs) ms _ _ rfl rfl
  | _ => exact ⟨rfl, rfl⟩

theorem decodeElems_indep {α : Type} (dec : Decoder α) (zero : α)
    (hd : ∀ fs, ErrorsIndependent (dec fs)) (fs : List String) (js : List JSON) (cur cur' : List α) :
    (decodeElems dec zero fs js cur).savedError = (decodeElems dec zero fs js cur').savedError ∧
    (decodeElems dec zero fs js cur).err = (decodeElems dec zero fs js cur').err := by
  induction js generalizing cur cur' with
  | nil => exact ⟨rfl, rfl⟩
  | cons j js ih =>
    have h := hd fs j (cur.headD zero) (cur'.headD zero)
    simp only [decodeElems, ← h.2]
    split
    · exact ⟨h.1, rfl⟩
    · exact ⟨by rw [h.1, (ih cur.tail cur'.tail).1], (ih cur.tail cur'.tail).2⟩

theorem decodeSlice_indep {α : Type} (dec : Decoder α) (zero : α)
    (hd : ∀ fs, ErrorsIndependent (dec fs)) (fs : List String) :
    ErrorsIndependent (decodeSlice dec zero fs) := by
  intro j c c'
  cases j with
  | array elems => exact decodeElems_indep dec zero hd fs elems _ _
  | _ => exact ⟨rfl, rfl⟩

theorem errors_decoder_indep (fs : List String) :
    ErrorsIndependent (decodeSlice (decodeStruct Error.field) Error.zero fs) :=
  decodeSlice_indep _ _ (decodeStruct_indep Error.field Error_field_indep) fs

theorem Envelope_field_same {R : Type} (resp : Decoder R) (fs : List String) (k : List Char)
    (v : JSON) (o o' : Envelope R) (hS : o.Success = o'.Success) (hR : o.Response = o'.Response) :
    SameOutcome (Envelope.field resp fs k v o) (Envelope.field resp fs k v o') := by
  unfold Envelope.field
  split
  · simp only [SameOutcome, Decoded.map, hS, hR, and_self]
  · split
    · simp only [SameOutcome, Decoded.map, hS, hR, and_self]
    · split
      · have h := errors_decoder_indep (fs ++ ["errors"]) v o.Errors o'.Errors
        exact ⟨hS, hR, h.1, h.2⟩
      · exact ⟨hS, hR, rfl, rfl⟩

theorem andThen_same {R : Type} (d d' : Decoded (Envelope R)) (f f' : Envelope R → Decoded (Envelope R))
    (h : SameOutcome d d') (hf : SameOutcome (f d.val) (f' d'.val)) :
    SameOutcome (d.andThen f) (d'.andThen f') := by
  obtain ⟨hS, hR, hs, he⟩ := h
  unfold Decoded.andThen
  rw [← he]
  split
  · exact ⟨hS, hR, hs, he⟩
  · refine ⟨hf.1, hf.2.1, ?_, hf.2.2.2⟩
    show saveError d.savedError (f d.val).savedError = saveError d'.savedError (f' d'.val).savedError
    rw [hs, hf.2.2.1]

theorem decodeMembers_same {R : Type} (resp : Decoder R) (fs : List String)
    (ms : List (List Char × JSON)) (d d' : Decoded (Envelope R)) (h : SameOutcome d d') :
    SameOutcome (decodeMembers (Envelope.field resp fs) ms d)
      (decodeMembers (Envelope.field resp fs) ms d') := by
  induction ms generalizing d d' with
  | nil => exact h
  | cons kv rest ih =>
    simp only [decodeMembers]
    exact ih _ _ (andThen_same d d' _ _ h (Envelope_field_same resp fs kv.1 kv.2 _ _ h.1 h.2.1))

theorem Envelope_field_errors {R : Type} (resp : Decoder R) (k : List Char) (e : JSON)
    (o : Envelope R) (hk : keyIs k "errors" = true) (he : IsErrorList e) :
    (Envelope.field resp [] k e o).val.Success = o.Success ∧
    (Envelope.field resp [] k e o).val.Response = o.Response ∧
    (Envelope.field resp [] k e o).savedError = none ∧
    (Envelope.field resp [] k e o).err = none := by
  have h := errors_decoder_indep ["errors"] e o.Errors none
  have hf : Envelope.field resp [] k e o =
      (decodeSlice (decodeStruct Error.field) Error.zero ["errors"] e o.Errors).map
        (fun x => { o with Errors := x }) := by
    simp only [Envelope.field, keyIs_errors_not_success k hk, keyIs_errors_not_response k hk, hk,
      Bool.false_eq_true, if_false, if_true, List.nil_append]
  rw [hf]
  exact ⟨rfl, rfl, h.1.trans he.1, h.2.trans he.2⟩

/-- What a decoder reads of an envelope is the same for two envelopes that differ
in the list of their `errors` member only. -/
theorem unmarshal_errors_irrelevant {R : Type}
    (field : List String → List Char → JSON → R → Decoded R) (zero : R)
    (pre post : List (List Char × JSON)) (k : List Char) (e1 e2 : JSON)
    (hk : keyIs k "errors" = true) (h1 : IsErrorList e1) (h2 : IsErrorList e2) :
    (unmarshal (Envelope.decoder field) (JSON.object (pre ++ (k, e1) :: post))
        (Envelope.zero zero)).1.Success =
      (unmarshal (Envelope.decoder field) (JSON.object (pre ++ (k, e2) :: post))
        (Envelope.zero zero)).1.Success ∧
    (unmarshal (Envelope.decoder field) (JSON.object (pre ++ (k, e1) :: post))
        (Envelope.zero zero)).1.Response =
      (unmarshal (Envelope.decoder field) (JSON.object (pre ++ (k, e2) :: post))
        (Envelope.zero zero)).1.Response ∧
    (unmarshal (Envelope.decoder field) (JSON.object (pre ++ (k, e1) :: post))
        (Envelope.zero zero)).2 =
      (unmarshal (Envelope.decoder field) (JSON.object (pre ++ (k, e2) :: post))
        (Envelope.zero zero)).2 := by
  simp only [unmarshal, Envelope.decoder, decodeStruct]
  rw [decodeMembers_append, decodeMembers_append]
  simp only [decodeMembers]
  generalize decodeMembers (Envelope.field (decodeStruct field) []) pre
    (Decoded.ok (Envelope.zero zero)) = d
  have hstep : SameOutcome (d.andThen (Envelope.field (decodeStruct field) [] k e1))
      (d.andThen (Envelope.field (decodeStruct field) [] k e2)) := by
    apply andThen_same d d _ _ ⟨rfl, rfl, rfl, rfl⟩
    have a1 := Envelope_field_errors (decodeStruct field) k e1 d.val hk h1
    have a2 := Envelope_field_errors (decodeStruct field) k e2 d.val hk h2
    exact ⟨a1.1.trans a2.1.symm, a1.2.1.trans a2.2.1.symm, a1.2.2.1.trans a2.2.2.1.symm,
      a1.2.2.2.trans a2.2.2.2.symm⟩
  have hfin := decodeMembers_same (decodeStruct field) [] post _ _ hstep
  obtain ⟨hS, hR, hs, he⟩ := hfin
  exact ⟨hS, hR, by rw [hs, he]⟩

/-! ### Escaping and decimal digits -/

theorem toNat_ofNat_small (n : Nat) (h : n < 55296) : (Char.ofNat n).toNat = n := by
  have hv : n.isValidChar := Or.inl h
  simp [Char.ofNat, hv, Char.toNat, Char.ofNatAux]
  rfl

theorem toUInt8_toNat_ascii (c : Char) (h : c.toNat ≤ 127) : (c.val.toUInt8).toNat = c.toNat := by
  simp [UInt32.toUInt8, Nat.toUInt8, UInt8.toNat, UInt8.ofNat, Char.toNat, Fin.ofNat] at *
  omega

theorem utf8EncodeChar_ascii (c : Char) (h : c.toNat ≤ 127) :
    String.utf8EncodeChar c = [c.val.toUInt8] := by
  have : c.val ≤ 0x7f := by
    show c.val.toNat ≤ 127
    exact h
  simp [String.utf8EncodeChar, this]

theorem escapeByte_unreserved (c : Char) (h : isUnreserved c = true) :
    (String.utf8EncodeChar c).flatMap escapeByte = [c] := by
  have hle : c.toNat ≤ 127 := by
    simp [isUnreserved] at h; omega
  rw [utf8EncodeChar_ascii c hle]
  have hn := toUInt8_toNat_ascii c hle
  simp only [List.flatMap_cons, List.flatMap_nil, List.append_nil, escapeByte, shouldEscape, hn]
  simp [isUnreserved] at h
  have h32 : c.toNat ≠ 32 := by omega
  simp [h32]
  omega

theorem flatMap_escape_unreserved (l : List Char) (h : ∀ c ∈ l, isUnreserved c = true) :
    (l.flatMap String.utf8EncodeChar).flatMap escapeByte = l := by
  induction l with
  | nil => rfl
  | cons a l ih =>
    simp only [List.flatMap_cons, List.flatMap_append]
    rw [escapeByte_unreserved a (h a (List.mem_cons_self _ _)),
      ih (fun c hc => h c (List.mem_cons_of_mem _ hc))]
    rfl

theorem QueryEscape_unreserved (s : String) (h : ∀ c ∈ s.data, isUnreserved c = true) :
    QueryEscape s = s := by
  unfold QueryEscape goBytes
  rw [flatMap_escape_unreserved s.data h]

theorem isUnreserved_of_digit (c : Char) (h : isDigitChar c = true) : isUnreserved c = true := by
  simp [isDigitChar] at h
  simp [isUnreserved, h]

theorem isDigitChar_digitChar (n : Nat) : isDigitChar (digitChar n) = true := by
  have h10 : n % 10 < 10 := Nat.mod_lt _ (by decide)
  have := toNat_ofNat_small (48 + n % 10) (by omega)
  simp only [isDigitChar, digitChar, this, Bool.and_eq_true, decide_eq_true_eq]
  omega

theorem natDigits_digits (fuel n : Nat) (acc : List Char)
    (h : ∀ c ∈ acc, isDigitChar c = true) : ∀ c ∈ natDigits fuel n acc, isDigitChar c = true := by
  induction fuel generalizing n acc with
  | zero => simpa [natDigits] using h
  | succ k ih =>
    have hacc : ∀ c ∈ digitChar n :: acc, isDigitChar c = true := by
      intro c hc
      rcases List.mem_cons.mp hc with rfl | hc
      · exact isDigitChar_digitChar n
      · exact h c hc
    unfold natDigits
    split
    · exact hacc
    · exact ih _ _ hacc

theorem natDecimal_digits (n : Nat) : ∀ c ∈ natDecimal n, isDigitChar c = true :=
  natDigits_digits _ _ _ (by simp)

theorem formatInt_unreserved (x : Int) : ∀ c ∈ (formatInt x).data, isUnreserved c = true := by
  intro c hc
  cases x with
  | ofNat n => exact isUnreserved_of_digit c (natDecimal_digits n c hc)
  | negSucc n =>
    rcases List.mem_cons.mp hc with rfl | hc
    · decide
    · exact isUnreserved_of_digit c (natDecimal_digits _ c hc)

theorem QueryEscape_formatInt (x : Int) : QueryEscape (formatInt x) = formatInt x :=
  QueryEscape_unreserved _ (formatInt_unreserved x)

theorem appendInt_unreserved (x : Int) (w : Nat) : ∀ c ∈ appendInt x w, isUnreserved c = true := by
  intro c hc
  simp only [appendInt, List.mem_append] at hc
  rcases hc with (hc | hc) | hc
  · split at hc
    · rcases List.mem_singleton.mp hc with rfl
      decide
    · cases hc
  · rcases List.eq_of_mem_replicate hc with rfl
    decide
  · exact isUnreserved_of_digit c (natDecimal_digits _ c hc)

theorem Format_DateFormat_unreserved (t : Time) :
    ∀ c ∈ (t.Format DateFormat).data, isUnreserved c = true := by
  intro c hc
  simp only [Time.Format, DateFormat, List.flatMap_cons, List.flatMap_nil, formatChunk,
    List.mem_append, List.append_nil] at hc
  rcases hc with hc | hc | hc | hc | hc | hc <;> exact appendInt_unreserved _ _ c hc

theorem QueryEscape_Format (t : Time) :
    QueryEscape (t.Format DateFormat) = t.Format DateFormat :=
  QueryEscape_unreserved _ (Format_DateFormat_unreserved t)

/-! ### Fixed-width decimal fields -/

theorem natDigits_small (k n : Nat) (acc : List Char) (h : n < 10) :
    natDigits (k + 1) n acc = digitChar n :: acc := by
  simp [natDigits, Nat.div_eq_of_lt h]

theorem natDigits_large (k n : Nat) (acc : List Char) (h : 10 ≤ n) :
    natDigits (k + 1) n acc = natDigits k (n / 10) (digitChar n :: acc) := by
  have : n / 10 ≠ 0 := by omega
  simp [natDigits, this]

theorem natDecimal_lt_10 (n : Nat) (h : n < 10) : natDecimal n = [digitChar n] :=
  natDigits_small n n [] h

theorem natDecimal_lt_100 (n : Nat) (h1 : 10 ≤ n) (h : n < 100) :
    natDecimal n = [digitChar (n / 10), digitChar n] := by
  obtain ⟨k, rfl⟩ : ∃ k, n = k + 1 := ⟨n - 1, by omega⟩
  unfold natDecimal
  rw [natDigits_large _ _ _ h1, natDigits_small _ _ _ (by omega)]

theorem natDecimal_lt_1000 (n : Nat) (h1 : 100 ≤ n) (h : n < 1000) :
    natDecimal n = [digitChar (n / 100), digitChar (n / 10), digitChar n] := by
  obtain ⟨k, rfl⟩ : ∃ k, n = k + 2 := ⟨n - 2, by omega⟩
  unfold natDecimal
  rw [natDigits_large _ _ _ (by omega), natDigits_large _ _ _ (by omega),
    natDigits_small _ _ _ (by omega)]
  simp [Nat.div_div_eq_div_mul]

theorem natDecimal_lt_10000 (n : Nat) (h1 : 1000 ≤ n) (h : n < 10000) :
    natDecimal n = [digitChar (n / 1000), digitChar (n / 100), digitChar (n / 10), digitChar n] := by
  obtain ⟨k, rfl⟩ : ∃ k, n = k + 3 := ⟨n - 3, by omega⟩
  unfold natDecimal
  rw [natDigits_large _ _ _ (by omega), natDigits_large _ _ _ (by omega),
    natDigits_large _ _ _ (by omega), natDigits_small _ _ _ (by omega)]
  simp [Nat.div_div_eq_div_mul]

theorem digitChar_zero_of_lt (n d : Nat) (h : n < d) : digitChar (n / d) = '0' := by
  rw [Nat.div_eq_of_lt h]; rfl

theorem appendInt_two (n : Nat) (h : n < 100) : appendInt (n : Int) 2 = twoDigits n := by
  have hneg : ¬ ((n : Int) < 0) := by omega
  by_cases h10 : n < 10
  · simp [appendInt, hneg, natDecimal_lt_10 n h10, twoDigits, digitChar_zero_of_lt n 10 h10]
  · simp [appendInt, hneg, natDecimal_lt_100 n (by omega) h, twoDigits]

theorem appendInt_four (n : Nat) (h : n < 10000) : appendInt (n : Int) 4 = fourDigits n := by
  have hneg : ¬ ((n : Int) < 0) := by omega
  by_cases h10 : n < 10
  · simp [appendInt, hneg, natDecimal_lt_10 n h10, fourDigits, digitChar_zero_of_lt n 10 h10,
      digitChar_zero_of_lt n 100 (by omega), digitChar_zero_of_lt n 1000 (by omega),
      List.replicate]
  · by_cases h100 : n < 100
    · simp [appendInt, hneg, natDecimal_lt_100 n (by omega) h100, fourDigits,
        digitChar_zero_of_lt n 100 h100, digitChar_zero_of_lt n 1000 (by omega), List.replicate]
    · by_cases h1000 : n < 1000
      · simp [appendInt, hneg, natDecimal_lt_1000 n (by omega) h1000, fourDigits,
          digitChar_zero_of_lt n 1000 h1000, List.replicate]
      · simp [appendInt, hneg, natDecimal_lt_10000 n (by omega) h, fourDigits]

theorem daysIn_le (m : Nat) (y : Int) : daysIn m y ≤ 31 := by
  unfold daysIn
  split
  · split <;> omega
  · split <;> omega

theorem Format_DateFormat_eq (t : Time) (hv : t.IsValid) (h0 : 0 ≤ t.year) (h1 : t.year ≤ 9999) :
    t.Format DateFormat = YYYYMMDDHHMMSS t := by
  obtain ⟨_, hm, _, hd, hh, hmi, hs, _⟩ := hv
  have hd' := daysIn_le t.month t.year
  obtain ⟨y, hy⟩ : ∃ y : Nat, t.year = (y : Int) := ⟨t.year.toNat, by omega⟩
  simp only [Time.Format, DateFormat, List.flatMap_cons, List.flatMap_nil, formatChunk,
    List.append_nil, YYYYMMDDHHMMSS, hy, Int.toNat_ofNat]
  rw [appendInt_four y (by omega), appendInt_two _ (by omega : t.month < 100),
    appendInt_two _ (by omega : t.day < 100), appendInt_two _ (by omega : t.hour < 100),
    appendInt_two _ (by omega : t.min < 100), appendInt_two _ (by omega : t.sec < 100)]
  simp

/-! ### `url.Values` with the keys of the package -/

theorem append_ne_empty (a b : String) (h : a ≠ "") : a ++ b ≠ "" := by
  intro hab
  apply h
  have := congrArg String.length hab
  simp at this
  exact String.ext (by simpa using List.length_eq_zero.mp (by simpa using this.1))

theorem Encode_token (t : String) : Values.Encode [("token", [t])] = "token=" ++ QueryEscape t := rfl

theorem Encode_start (s : String) :
    Values.Encode [("start_date", [s])] = "start_date=" ++ QueryEscape s := rfl

theorem Encode_end (e : String) : Values.Encode [("end_date", [e])] = "end_date=" ++ QueryEscape e := rfl

theorem Encode_token_start (t s : String) :
    Values.Encode [("token", [t]), ("start_date", [s])] =
      "start_date=" ++ QueryEscape s ++ "&token=" ++ QueryEscape t := by
  have h : Values.Encode [("token", [t]), ("start_date", [s])] =
      ("start_date" ++ "=" ++ QueryEscape s) ++ "&" ++ ("token" ++ "=" ++ QueryEscape t) := rfl
  rw [h]; apply String.ext; simp [String.data_append]

theorem Encode_token_end (t e : String) :
    Values.Encode [("token", [t]), ("end_date", [e])] =
      "end_date=" ++ QueryEscape e ++ "&token=" ++ QueryEscape t := by
  have h : Values.Encode [("token", [t]), ("end_date", [e])] =
      ("end_date" ++ "=" ++ QueryEscape e) ++ "&" ++ ("token" ++ "=" ++ QueryEscape t) := rfl
  rw [h]; apply String.ext; simp [String.data_append]

theorem Encode_start_end (s e : String) :
    Values.Encode [("start_date", [s]), ("end_date", [e])] =
      "end_date=" ++ QueryEscape e ++ "&start_date=" ++ QueryEscape s := by
  have h : Values.Encode [("start_date", [s]), ("end_date", [e])] =
      ("end_date" ++ "=" ++ QueryEscape e) ++ "&" ++ ("start_date" ++ "=" ++ QueryEscape s) := rfl
  rw [h]; apply String.ext; simp [String.data_append]

theorem Encode_token_start_end (t s e : String) :
    Values.Encode [("token", [t]), ("start_date", [s]), ("end_date", [e])] =
      "end_date=" ++ QueryEscape e ++ "&start_date=" ++ QueryEscape s ++ "&token=" ++
        QueryEscape t := by
  have h : Values.Encode [("token", [t]), ("start_date", [s]), ("end_date", [e])] =
      (("end_date" ++ "=" ++ QueryEscape e) ++ "&" ++ ("start_date" ++ "=" ++ QueryEscape s)) ++
        "&" ++ ("token" ++ "=" ++ QueryEscape t) := rfl
  rw [h]; apply String.ext; simp [String.data_append]

theorem Encode_token_target_page (t g p : String) :
    Values.Encode [("token", [t]), ("target", [g]), ("page", [p])] =
      "page=" ++ QueryEscape p ++ "&target=" ++ QueryEscape g ++ "&token=" ++ QueryEscape t := by
  have h : Values.Encode [("token", [t]), ("target", [g]), ("page", [p])] =
      (("page" ++ "=" ++ QueryEscape p) ++ "&" ++ ("target" ++ "=" ++ QueryEscape g)) ++ "&" ++
        ("token" ++ "=" ++ QueryEscape t) := rfl
  rw [h]; apply String.ext; simp [String.data_append]

theorem query_suffix (path q : String) (hq : q ≠ "") :
    (if q ≠ "" then path ++ ("?" ++ q) else path) = path ++ "?" ++ q := by
  simp [hq, String.append_assoc]

theorem stamp_date_text (d : Time) (h : d.IsValid ∧ 0 ≤ d.year ∧ d.year ≤ 9999) :
    QueryEscape (d.Format DateFormat) = YYYYMMDDHHMMSS d := by
  rw [QueryEscape_Format, Format_DateFormat_eq d h.1 h.2.1 h.2.2]

/-! ### Decimal rendering denotes the number -/

theorem digitsValue_append (l1 l2 : List Char) (a b : Nat) (h : digitsValue l1 a = some b) :
    digitsValue (l1 ++ l2) a = digitsValue l2 b := by
  induction l1 generalizing a with
  | nil => simp only [digitsValue, Option.some.injEq] at h; subst h; rfl
  | cons c cs ih =>
    simp only [List.cons_append, digitsValue] at h ⊢
    split at h
    · rename_i hc; simp only [hc, if_true]; exact ih _ h
    · cases h

theorem digitsValue_digitChar (n a : Nat) : digitsValue [digitChar n] a = some (a * 10 + n % 10) := by
  have h10 : n % 10 < 10 := Nat.mod_lt _ (by decide)
  have hv := toNat_ofNat_small (48 + n % 10) (by omega)
  simp only [digitsValue, isDigitChar_digitChar, if_true]
  simp only [digitChar, hv]
  congr 1
  omega

/-- The fuel of `natDigits` is enough: the digits written denote the number. -/
theorem natDigits_value (fuel n : Nat) (acc : List Char) (h : n < fuel) :
    ∃ ds, natDigits fuel n acc = ds ++ acc ∧
      ∀ a, digitsValue ds a = some (a * 10 ^ ds.length + n) := by
  induction fuel generalizing n acc with
  | zero => omega
  | succ k ih =>
    by_cases hn : n < 10
    · refine ⟨[digitChar n], natDigits_small k n acc hn, ?_⟩
      intro a
      rw [digitsValue_digitChar, Nat.mod_eq_of_lt hn]
      simp
    · obtain ⟨ds, hds, hv⟩ := ih (n / 10) (digitChar n :: acc) (by omega)
      refine ⟨ds ++ [digitChar n], ?_, ?_⟩
      · rw [natDigits_large k n acc (by omega), hds]
        simp
      · intro a
        rw [digitsValue_append ds [digitChar n] a _ (hv a), digitsValue_digitChar]
        simp only [List.length_append, List.length_singleton, Nat.pow_succ]
        congr 1
        have := Nat.div_add_mod n 10
        rw [Nat.add_mul, Nat.mul_assoc]
        omega

theorem natDecimal_value (n : Nat) : digitsValue (natDecimal n) 0 = some n := by
  obtain ⟨ds, hds, hv⟩ := natDigits_value (n + 1) n [] (by omega)
  unfold natDecimal
  rw [hds, List.append_nil, hv 0]
  simp

/-! ### Reading the inbound form -/

theorem digitChar_toNat (n : Nat) : (digitChar n).toNat = 48 + n % 10 := by
  have h10 : n % 10 < 10 := Nat.mod_lt _ (by decide)
  exact toNat_ofNat_small (48 + n % 10) (by omega)

theorem digitChar_ne_of_not_digit (n : Nat) (c : Char) (hc : isDigitChar c = false) :
    digitChar n ≠ c := by
  intro h
  rw [← h, isDigitChar_digitChar] at hc
  cases hc

theorem getnum_twoDigits (n : Nat) (rest : List Char) (fixed : Bool) (h : n < 100) :
    getnum (digitChar (n / 10) :: digitChar n :: rest) fixed = some (n, rest) := by
  simp only [getnum, isDigitChar_digitChar, Bool.not_true, Bool.false_eq_true, if_false, if_true,
    digitChar_toNat]
  congr 2
  omega

theorem digitsValue_fourDigits (n : Nat) (h : n < 10000) :
    digitsValue [digitChar (n / 1000), digitChar (n / 100), digitChar (n / 10), digitChar n] 0
      = some n := by
  simp only [digitsValue, isDigitChar_digitChar, if_true, digitChar_toNat]
  congr 1
  omega

theorem skip_char (c : Char) (rest : List Char) (hc : c ≠ ' ') :
    skip false (c :: rest) [c] = some rest := by
  simp [skip, hc]

theorem cutspace_digit (n : Nat) (rest : List Char) :
    cutspace (digitChar n :: rest) = digitChar n :: rest := by
  have h : digitChar n ≠ ' ' := digitChar_ne_of_not_digit n ' ' (by decide)
  simp only [cutspace, h, if_false]

theorem parseChunk_lit_char (c : Char) (rest : List Char) (p : Parsing) (hc : c ≠ ' ') :
    parseChunk (Chunk.lit [c]) (c :: rest) p = some (rest, p) := by
  simp only [parseChunk, skip_char c rest hc, Option.map_some']

theorem parseChunk_blank_digit (n : Nat) (rest : List Char) (p : Parsing) :
    parseChunk (Chunk.lit [' ']) (' ' :: digitChar n :: rest) p = some (digitChar n :: rest, p) := by
  have h : digitChar n ≠ ' ' := digitChar_ne_of_not_digit n ' ' (by decide)
  simp only [parseChunk, skip, if_true, ne_eq, not_true_eq_false, if_false, cutspace, h,
    Bool.false_eq_true, Option.map_some']

theorem parseChunk_year (y : Nat) (rest : List Char) (p : Parsing) (h : y < 10000) :
    parseChunk Chunk.stdLongYear
        (digitChar (y / 1000) :: digitChar (y / 100) :: digitChar (y / 10) :: digitChar y :: rest) p
      = some (rest, { p with year := (y : Int) }) := by
  simp only [parseChunk, digitsValue_fourDigits y h]

theorem parseChunk_month (m : Nat) (rest : List Char) (p : Parsing) (h1 : 1 ≤ m) (h : m ≤ 12) :
    parseChunk Chunk.stdZeroMonth (digitChar (m / 10) :: digitChar m :: rest) p
      = some (rest, { p with month := some m }) := by
  have e : ¬ (m = 0 ∨ 12 < m) := by omega
  simp only [parseChunk, getnum_twoDigits m rest true (by omega), e, if_false]

theorem parseChunk_day (d : Nat) (rest : List Char) (p : Parsing) (h : d < 100) :
    parseChunk Chunk.stdZeroDay (digitChar (d / 10) :: digitChar d :: rest) p
      = some (rest, { p with day := some d }) := by
  simp only [parseChunk, getnum_twoDigits d rest true h]

theorem parseChunk_hour (n : Nat) (rest : List Char) (p : Parsing) (h : n < 24) :
    parseChunk Chunk.stdHour (digitChar (n / 10) :: digitChar n :: rest) p
      = some (rest, { p with hour := n }) := by
  have e : ¬ (24 ≤ n) := by omega
  simp only [parseChunk, getnum_twoDigits n rest false (by omega), e, if_false]

theorem parseChunk_minute (n : Nat) (rest : List Char) (p : Parsing) (h : n < 60) :
    parseChunk Chunk.stdZeroMinute (digitChar (n / 10) :: digitChar n :: rest) p
      = some (rest, { p with min := n }) := by
  have e : ¬ (60 ≤ n) := by omega
  simp only [parseChunk, getnum_twoDigits n rest true (by omega), e, if_false]

theorem parseChunk_second_last (n : Nat) (c : Char) (p : Parsing) (h : n < 60) :
    parseChunk Chunk.stdZeroSecond [digitChar (n / 10), digitChar n, c] p
      = some ([c], { p with sec := n }) := by
  have e : ¬ (60 ≤ n) := by omega
  simp only [parseChunk, getnum_twoDigits n [c] true (by omega), e, if_false]

/-- The strict inbound literal of a valid time with whole seconds is read back as
that time. -/
theorem Parse_inboundLiteral (t : Time) (hv : t.IsValid) (h0 : 0 ≤ t.year) (h1 : t.year ≤ 9999)
    (hn : t.nsec = 0) :
    time.Parse (Chunk.lit ['"'] :: ReturnDateFormat ++ [Chunk.lit ['"']]) (inboundLiteral t)
      = (t, none) := by
  obtain ⟨hm1, hm, hd1, hd, hh, hmi, hs, _⟩ := hv
  have hd' := daysIn_le t.month t.year
  obtain ⟨y, hy⟩ : ∃ y : Nat, t.year = (y : Int) := ⟨t.year.toNat, by omega⟩
  have hy4 : y < 10000 := by omega
  have hloop : parseLoop (Chunk.lit ['"'] :: ReturnDateFormat ++ [Chunk.lit ['"']])
      (inboundLiteral t) ⟨0, none, none, 0, 0, 0, 0⟩ =
      some ⟨(y : Int), some t.month, some t.day, t.hour, t.min, t.sec, 0⟩ := by
    simp only [inboundLiteral, ReturnDateFormat, List.cons_append, List.nil_append, fourDigits,
      twoDigits, hy, Int.toNat_ofNat, parseLoop,
      parseChunk_lit_char '"' _ _ (by decide), parseChunk_lit_char '/' _ _ (by decide),
      parseChunk_lit_char ':' _ _ (by decide), parseChunk_blank_digit,
      parseChunk_year y _ _ hy4, parseChunk_month t.month _ _ hm1 hm,
      parseChunk_day t.day _ _ (by omega), parseChunk_hour t.hour _ _ hh,
      parseChunk_minute t.min _ _ hmi, parseChunk_second_last t.sec _ _ hs,
      List.isEmpty_nil, if_true]
  have hday : ¬ (t.day < 1 ∨ daysIn t.month (y : Int) < t.day) := by
    rw [← hy]; omega
  simp only [time.Parse, hloop, Option.getD_some, hday, if_false]
  cases t
  simp only [Time.mk.injEq, Prod.mk.injEq, and_true] at *
  simp [hy, hn]

/-! ### What `time.Parse` accepts for the inbound layout -/

theorem digitsValue_digits (l : List Char) (a v : Nat) (h : digitsValue l a = some v) :
    ∀ c ∈ l, isDigitChar c = true := by
  induction l generalizing a with
  | nil => intro c hc; cases hc
  | cons x xs ih =>
    simp only [digitsValue] at h
    split at h
    · rename_i hx
      intro c hc
      rcases List.mem_cons.mp hc with rfl | hc
      · exact hx
      · exact ih _ h c hc
    · cases h

theorem numberOf_two (a b : Char) (ha : isDigitChar a = true) (hb : isDigitChar b = true) :
    numberOf [a, b] = (a.toNat - 48) * 10 + (b.toNat - 48) := by
  simp [numberOf, digitsValue, ha, hb]

theorem numberOf_one (a : Char) (ha : isDigitChar a = true) : numberOf [a] = a.toNat - 48 := by
  simp [numberOf, digitsValue, ha]

theorem getnum_inv_fixed (s rest : List Char) (n : Nat) (h : getnum s true = some (n, rest)) :
    ∃ a b, s = a :: b :: rest ∧ isDigitChar a = true ∧ isDigitChar b = true ∧
      n = numberOf [a, b] := by
  unfold getnum at h
  split at h
  · cases h
  · rename_i a r
    by_cases ha : isDigitChar a = true
    · simp only [ha, Bool.not_true, Bool.false_eq_true, if_false] at h
      split at h
      · rename_i b r2
        by_cases hb : isDigitChar b = true
        · simp only [hb, if_true, Option.some.injEq, Prod.mk.injEq] at h
          exact ⟨a, b, by rw [h.2], ha, hb, by rw [numberOf_two a b ha hb, h.1]⟩
        · simp [hb] at h
      · simp at h
    · simp [ha] at h

theorem getnum_inv_free (s rest : List Char) (n : Nat) (h : getnum s false = some (n, rest)) :
    (∃ a b, s = a :: b :: rest ∧ isDigitChar a = true ∧ isDigitChar b = true ∧
      n = numberOf [a, b]) ∨
    (∃ a, s = a :: rest ∧ isDigitChar a = true ∧ n = numberOf [a]) := by
  unfold getnum at h
  split at h
  · cases h
  · rename_i a r
    by_cases ha : isDigitChar a = true
    · simp only [ha, Bool.not_true, Bool.false_eq_true, if_false] at h
      split at h
      · rename_i b r2
        by_cases hb : isDigitChar b = true
        · simp only [hb, if_true, Option.some.injEq, Prod.mk.injEq] at h
          exact Or.inl ⟨a, b, by rw [h.2], ha, hb, by rw [numberOf_two a b ha hb, h.1]⟩
        · simp only [hb, Bool.false_eq_true, if_false, Option.some.injEq, Prod.mk.injEq] at h
          exact Or.inr ⟨a, by rw [h.2], ha, by rw [numberOf_one a ha, h.1]⟩
      · simp only [Bool.false_eq_true, if_false, Option.some.injEq, Prod.mk.injEq] at h
        exact Or.inr ⟨a, by rw [h.2], ha, by rw [numberOf_one a ha, h.1]⟩
    · simp [ha] at h

theorem skip_char_inv (c : Char) (value rest : List Char) (hc : c ≠ ' ')
    (h : skip false value [c] = some rest) : value = c :: rest := by
  cases value with
  | nil => simp [skip, hc] at h
  | cons v vs =>
    simp only [skip, hc, if_false] at h
    by_cases hv : v = c
    · simp only [hv, if_true, Option.some.injEq] at h
      rw [hv, h]
    · simp [hv] at h

theorem cutspace_spec (l : List Char) :
    ∃ k, l = List.replicate k ' ' ++ cutspace l := by
  induction l with
  | nil => exact ⟨0, rfl⟩
  | cons c cs ih =>
    by_cases hc : c = ' '
    · obtain ⟨k, hk⟩ := ih
      refine ⟨k + 1, ?_⟩
      simp only [cutspace, hc, if_true, List.replicate_succ, List.cons_append]
      rw [← hk]
    · exact ⟨0, by simp [cutspace, hc]⟩

theorem skip_blank_inv (value rest : List Char) (h : skip false value [' '] = some rest) :
    (value = [] ∧ rest = []) ∨ ∃ k, value = ' ' :: (List.replicate k ' ' ++ rest) := by
  cases value with
  | nil =>
    simp only [skip, if_true, Bool.false_eq_true, if_false, Option.some.injEq] at h
    exact Or.inl ⟨rfl, h.symm⟩
  | cons v vs =>
    simp only [skip, if_true, Bool.false_eq_true, if_false, ne_eq] at h
    by_cases hv : v = ' '
    · simp only [hv, not_true_eq_false, if_false, cutspace, if_true, Option.some.injEq] at h
      obtain ⟨k, hk⟩ := cutspace_spec vs
      exact Or.inr ⟨k, by rw [hv, ← h, ← hk]⟩
    · simp [hv] at h

theorem spanDigits_spec (l : List Char) :
    l = (spanDigits l).1 ++ (spanDigits l).2 ∧ ∀ c ∈ (spanDigits l).1, isDigitChar c = true := by
  induction l with
  | nil => exact ⟨rfl, by intro c hc; cases hc⟩
  | cons x xs ih =>
    by_cases hx : isDigitChar x = true
    · simp only [spanDigits, hx, if_true, List.cons_append]
      refine ⟨by rw [← ih.1], ?_⟩
      intro c hc
      rcases List.mem_cons.mp hc with rfl | hc
      · exact hx
      · exact ih.2 c hc
    · have e : spanDigits (x :: xs) = ([], x :: xs) := by
        simp only [spanDigits, hx, Bool.false_eq_true, if_false]
      rw [e]
      exact ⟨rfl, by intro c hc; cases hc⟩

theorem parseLoop_cons_inv (c : Chunk) (layout : List Chunk) (value : List Char) (p q : Parsing)
    (h : parseLoop (c :: layout) value p = some q) :
    ∃ rest p', parseChunk c value p = some (rest, p') ∧ parseLoop layout rest p' = some q := by
  simp only [parseLoop] at h
  split at h
  · rename_i rest p' hc
    exact ⟨rest, p', hc, h⟩
  · cases h

theorem parseLoop_nil_inv (value : List Char) (p q : Parsing)
    (h : parseLoop [] value p = some q) : value = [] ∧ q = p := by
  simp only [parseLoop] at h
  cases value with
  | nil => simp at h; exact ⟨rfl, h.symm⟩
  | cons v vs => simp at h

theorem parseChunk_lit_inv (c : Char) (value rest : List Char) (p p' : Parsing) (hc : c ≠ ' ')
    (h : parseChunk (Chunk.lit [c]) value p = some (rest, p')) : value = c :: rest ∧ p' = p := by
  simp only [parseChunk, Option.map_eq_some', Prod.mk.injEq] at h
  obtain ⟨v, hv, h1, h2⟩ := h
  subst h1
  exact ⟨skip_char_inv c value v hc hv, h2.symm⟩

theorem parseChunk_blank_inv (value rest : List Char) (p p' : Parsing)
    (h : parseChunk (Chunk.lit [' ']) value p = some (rest, p')) :
    p' = p ∧ ((value = [] ∧ rest = []) ∨ ∃ k, value = ' ' :: (List.replicate k ' ' ++ rest)) := by
  simp only [parseChunk, Option.map_eq_some', Prod.mk.injEq] at h
  obtain ⟨v, hv, h1, h2⟩ := h
  subst h1
  exact ⟨h2.symm, skip_blank_inv value v hv⟩

theorem isDigits_two (a b : Char) (ha : isDigitChar a = true) (hb : isDigitChar b = true) :
    IsDigits 2 [a, b] := by
  refine ⟨rfl, ?_⟩
  intro c hc
  simp only [List.mem_cons, List.mem_singleton, List.not_mem_nil, or_false] at hc
  rcases hc with rfl | rfl
  · exact ha
  · exact hb

theorem isDigits_one (a : Char) (ha : isDigitChar a = true) : IsDigits 1 [a] := by
  refine ⟨rfl, ?_⟩
  intro c hc
  simp only [List.mem_singleton] at hc
  rw [hc]; exact ha

theorem parseChunk_year_inv (value rest : List Char) (p p' : Parsing)
    (h : parseChunk Chunk.stdLongYear value p = some (rest, p')) :
    ∃ y, IsDigits 4 y ∧ value = y ++ rest ∧ p' = { p with year := (numberOf y : Int) } := by
  simp only [parseChunk] at h
  split at h
  · rename_i a b c d r
    split at h
    · rename_i y hy
      simp only [Option.some.injEq, Prod.mk.injEq] at h
      refine ⟨[a, b, c, d], ⟨rfl, digitsValue_digits _ _ _ hy⟩, by rw [h.1]; rfl, ?_⟩
      rw [← h.2]
      simp [numberOf, hy]
    · cases h
  · cases h

theorem parseChunk_month_inv (value rest : List Char) (p p' : Parsing)
    (h : parseChunk Chunk.stdZeroMonth value p = some (rest, p')) :
    ∃ m, IsDigits 2 m ∧ value = m ++ rest ∧ 1 ≤ numberOf m ∧ numberOf m ≤ 12 ∧
      p' = { p with month := some (numberOf m) } := by
  simp only [parseChunk] at h
  split at h
  · rename_i n r hg
    obtain ⟨a, b, hs, ha, hb, hn⟩ := getnum_inv_fixed _ _ _ hg
    split at h
    · cases h
    · rename_i hr
      simp only [Option.some.injEq, Prod.mk.injEq] at h
      refine ⟨[a, b], isDigits_two a b ha hb, by rw [hs, h.1]; rfl, ?_, ?_, ?_⟩
      · rw [← hn]; omega
      · rw [← hn]; omega
      · rw [← h.2, hn]
  · cases h

theorem parseChunk_day_inv (value rest : List Char) (p p' : Parsing)
    (h : parseChunk Chunk.stdZeroDay value p = some (rest, p')) :
    ∃ d, IsDigits 2 d ∧ value = d ++ rest ∧ p' = { p with day := some (numberOf d) } := by
  simp only [parseChunk] at h
  split at h
  · rename_i n r hg
    obtain ⟨a, b, hs, ha, hb, hn⟩ := getnum_inv_fixed _ _ _ hg
    simp only [Option.some.injEq, Prod.mk.injEq] at h
    exact ⟨[a, b], isDigits_two a b ha hb, by rw [hs, h.1]; rfl, by rw [← h.2, hn]⟩
  · cases h

theorem parseChunk_hour_inv (value rest : List Char) (p p' : Parsing)
    (h : parseChunk Chunk.stdHour value p = some (rest, p')) :
    ∃ hr, (IsDigits 1 hr ∨ IsDigits 2 hr) ∧ value = hr ++ rest ∧ numberOf hr < 24 ∧
      p' = { p with hour := numberOf hr } := by
  simp only [parseChunk] at h
  split at h
  · rename_i n r hg
    split at h
    · cases h
    · rename_i hr
      simp only [Option.some.injEq, Prod.mk.injEq] at h
      rcases getnum_inv_free _ _ _ hg with ⟨a, b, hs, ha, hb, hn⟩ | ⟨a, hs, ha, hn⟩
      · exact ⟨[a, b], Or.inr (isDigits_two a b ha hb), by rw [hs, h.1]; rfl,
          by rw [← hn]; omega, by rw [← h.2, hn]⟩
      · exact ⟨[a], Or.inl (isDigits_one a ha), by rw [hs, h.1]; rfl,
          by rw [← hn]; omega, by rw [← h.2, hn]⟩
  · cases h

theorem parseChunk_minute_inv (value rest : List Char) (p p' : Parsing)
    (h : parseChunk Chunk.stdZeroMinute value p = some (rest, p')) :
    ∃ m, IsDigits 2 m ∧ value = m ++ rest ∧ numberOf m < 60 ∧
      p' = { p with min := numberOf m } := by
  simp only [parseChunk] at h
  split at h
  · rename_i n r hg
    obtain ⟨a, b, hs, ha, hb, hn⟩ := getnum_inv_fixed _ _ _ hg
    split at h
    · cases h
    · rename_i hr
      simp only [Option.some.injEq, Prod.mk.injEq] at h
      exact ⟨[a, b], isDigits_two a b ha hb, by rw [hs, h.1]; rfl, by rw [← hn]; omega,
        by rw [← h.2, hn]⟩
  · cases h

theorem parseChunk_second_inv (value rest : List Char) (p p' : Parsing)
    (h : parseChunk Chunk.stdZeroSecond value p = some (rest, p')) :
    ∃ s frac nsec, IsDigits 2 s ∧ value = s ++ (frac ++ rest) ∧ numberOf s < 60 ∧
      (frac = [] ∨ ∃ sep ds, frac = sep :: ds ∧ (sep = '.' ∨ sep = ',') ∧ ds ≠ [] ∧
        ∀ c ∈ ds, isDigitChar c = true) ∧
      p' = { p with sec := numberOf s, nsec := nsec } := by
  simp only [parseChunk] at h
  split at h
  · rename_i n r hg
    obtain ⟨a, b, hs, ha, hb, hn⟩ := getnum_inv_fixed _ _ _ hg
    split at h
    · cases h
    · rename_i hr
      split at h
      · rename_i x y more
        split at h
        · rename_i hxy
          simp only [Option.some.injEq, Prod.mk.injEq] at h
          have hsp := spanDigits_spec (y :: more)
          have hne : (spanDigits (y :: more)).1 ≠ [] := by
            simp [spanDigits, hxy.2]
          refine ⟨[a, b], x :: (spanDigits (y :: more)).1,
            parseNanoseconds (spanDigits (y :: more)).1, isDigits_two a b ha hb, ?_,
            by rw [← hn]; omega, Or.inr ⟨x, _, rfl, hxy.1, hne, hsp.2⟩, ?_⟩
          · rw [hs, ← h.1]
            simp only [List.cons_append, List.nil_append, List.cons.injEq, true_and]
            exact hsp.1
          · rw [← h.2, hn]
        · simp only [Option.some.injEq, Prod.mk.injEq] at h
          exact ⟨[a, b], [], p.nsec, isDigits_two a b ha hb, by rw [hs, h.1]; rfl,
            by rw [← hn]; omega, Or.inl rfl, by rw [← h.2, hn]⟩
      · simp only [Option.some.injEq, Prod.mk.injEq] at h
        exact ⟨[a, b], [], p.nsec, isDigits_two a b ha hb, by rw [hs, h.1]; rfl,
          by rw [← hn]; omega, Or.inl rfl, by rw [← h.2, hn]⟩
  · cases h

/-- Whatever `time.Parse` accepts for the inbound layout has the accepted shape. -/
theorem Parse_inbound_inv (data : List Char)
    (h : (time.Parse (Chunk.lit ['"'] :: ReturnDateFormat ++ [Chunk.lit ['"']]) data).2 = none) :
    AcceptedInbound data := by
  unfold time.Parse at h
  split at h
  · cases h
  · rename_i q hq
    by_cases hday : q.day.getD 1 < 1 ∨ daysIn (q.month.getD 1) q.year < q.day.getD 1
    · simp only [hday, if_true] at h
      cases h
    · simp only [ReturnDateFormat, List.cons_append, List.nil_append] at hq
      obtain ⟨r1, p1, hc1, hq⟩ := parseLoop_cons_inv _ _ _ _ _ hq
      obtain ⟨hv1, hp1⟩ := parseChunk_lit_inv '"' _ _ _ _ (by decide) hc1
      obtain ⟨r2, p2, hc2, hq⟩ := parseLoop_cons_inv _ _ _ _ _ hq
      obtain ⟨y, hy, hv2, hp2⟩ := parseChunk_year_inv _ _ _ _ hc2
      obtain ⟨r3, p3, hc3, hq⟩ := parseLoop_cons_inv _ _ _ _ _ hq
      obtain ⟨hv3, hp3⟩ := parseChunk_lit_inv '/' _ _ _ _ (by decide) hc3
      obtain ⟨r4, p4, hc4, hq⟩ := parseLoop_cons_inv _ _ _ _ _ hq
      obtain ⟨m, hm, hv4, hm1, hm12, hp4⟩ := parseChunk_month_inv _ _ _ _ hc4
      obtain ⟨r5, p5, hc5, hq⟩ := parseLoop_cons_inv _ _ _ _ _ hq
      obtain ⟨hv5, hp5⟩ := parseChunk_lit_inv '/' _ _ _ _ (by decide) hc5
      obtain ⟨r6, p6, hc6, hq⟩ := parseLoop_cons_inv _ _ _ _ _ hq
      obtain ⟨d, hd, hv6, hp6⟩ := parseChunk_day_inv _ _ _ _ hc6
      obtain ⟨r7, p7, hc7, hq⟩ := parseLoop_cons_inv _ _ _ _ _ hq
      obtain ⟨hp7, hv7⟩ := parseChunk_blank_inv _ _ _ _ hc7
      obtain ⟨r8, p8, hc8, hq⟩ := parseLoop_cons_inv _ _ _ _ _ hq
      obtain ⟨hr, hhr, hv8, hh24, hp8⟩ := parseChunk_hour_inv _ _ _ _ hc8
      obtain ⟨r9, p9, hc9, hq⟩ := parseLoop_cons_inv _ _ _ _ _ hq
      obtain ⟨hv9, hp9⟩ := parseChunk_lit_inv ':' _ _ _ _ (by decide) hc9
      obtain ⟨r10, p10, hc10, hq⟩ := parseLoop_cons_inv _ _ _ _ _ hq
      obtain ⟨mi, hmi, hv10, hmi60, hp10⟩ := parseChunk_minute_inv _ _ _ _ hc10
      obtain ⟨r11, p11, hc11, hq⟩ := parseLoop_cons_inv _ _ _ _ _ hq
      obtain ⟨hv11, hp11⟩ := parseChunk_lit_inv ':' _ _ _ _ (by decide) hc11
      obtain ⟨r12, p12, hc12, hq⟩ := parseLoop_cons_inv _ _ _ _ _ hq
      obtain ⟨s, frac, nsec, hs, hv12, hs60, hfrac, hp12⟩ := parseChunk_second_inv _ _ _ _ hc12
      obtain ⟨r13, p13, hc13, hq⟩ := parseLoop_cons_inv _ _ _ _ _ hq
      obtain ⟨hv13, hp13⟩ := parseChunk_lit_inv '"' _ _ _ _ (by decide) hc13
      obtain ⟨hv14, hq⟩ := parseLoop_nil_inv _ _ _ hq
      have hk : ∃ k, r6 = ' ' :: (List.replicate k ' ' ++ r7) := by
        rcases hv7 with ⟨_, h7⟩ | hk
        · rw [h7] at hv8
          have : hr = [] := by
            cases hr with
            | nil => rfl
            | cons c cs => cases hv8
          rcases hhr with hh | hh <;> rw [this] at hh <;> cases hh.1
        · exact hk
      obtain ⟨k, hk⟩ := hk
      have hqv : q = ⟨(numberOf y : Int), some (numberOf m), some (numberOf d), numberOf hr,
          numberOf mi, numberOf s, nsec⟩ := by
        rw [hq, hp13, hp12, hp11, hp10, hp9, hp8, hp7, hp6, hp5, hp4, hp3, hp2, hp1]
      rw [hqv] at hday
      simp only [Option.getD_some, not_or, Nat.not_lt] at hday
      refine ⟨⟨y, m, d, k, hr, mi, s, frac⟩, ⟨hy, hm, hd, hhr, hmi, hs, hfrac, hm1, hm12, hday.1,
        hday.2, hh24, hmi60, hs60⟩, ?_⟩
      rw [InboundParts.text, hv1, hv2, hv3, hv4, hv5, hv6, hk, hv8, hv9, hv10, hv11, hv12, hv13,
        hv14]

theorem getnum_two (a b : Char) (rest : List Char) (fixed : Bool) (ha : isDigitChar a = true)
    (hb : isDigitChar b = true) : getnum (a :: b :: rest) fixed = some (numberOf [a, b], rest) := by
  simp only [getnum, ha, hb, Bool.not_true, Bool.false_eq_true, if_false, if_true,
    numberOf_two a b ha hb]

theorem getnum_one (a c : Char) (rest : List Char) (ha : isDigitChar a = true)
    (hc : isDigitChar c = false) :
    getnum (a :: c :: rest) false = some (numberOf [a], c :: rest) := by
  simp only [getnum, ha, hc, Bool.not_true, Bool.false_eq_true, if_false, numberOf_one a ha]

theorem isDigits_one_inv (l : List Char) (h : IsDigits 1 l) :
    ∃ a, l = [a] ∧ isDigitChar a = true := by
  obtain ⟨hl, hd⟩ := h
  match l, hl with
  | [a], _ => exact ⟨a, rfl, hd a (by simp)⟩

theorem isDigits_two_inv (l : List Char) (h : IsDigits 2 l) :
    ∃ a b, l = [a, b] ∧ isDigitChar a = true ∧ isDigitChar b = true := by
  obtain ⟨hl, hd⟩ := h
  match l, hl with
  | [a, b], _ => exact ⟨a, b, rfl, hd a (by simp), hd b (by simp)⟩

theorem isDigits_four_inv (l : List Char) (h : IsDigits 4 l) :
    ∃ a b c d, l = [a, b, c, d] ∧ digitsValue [a, b, c, d] 0 = some (numberOf [a, b, c, d]) := by
  obtain ⟨hl, hd⟩ := h
  match l, hl with
  | [a, b, c, d], _ =>
    refine ⟨a, b, c, d, rfl, ?_⟩
    simp [numberOf, digitsValue, hd a (by simp), hd b (by simp), hd c (by simp), hd d (by simp)]

theorem cutspace_replicate (k : Nat) (c : Char) (rest : List Char) (hc : c ≠ ' ') :
    cutspace (List.replicate k ' ' ++ c :: rest) = c :: rest := by
  induction k with
  | zero => simp only [List.replicate_zero, List.nil_append, cutspace, hc, if_false]
  | succ k ih =>
    simp only [List.replicate_succ, List.cons_append, cutspace, if_true]
    exact ih

theorem spanDigits_append (l : List Char) (c : Char) (rest : List Char)
    (hl : ∀ x ∈ l, isDigitChar x = true) (hc : isDigitChar c = false) :
    spanDigits (l ++ c :: rest) = (l, c :: rest) := by
  induction l with
  | nil => simp only [List.nil_append, spanDigits, hc, Bool.false_eq_true, if_false]
  | cons x xs ih =>
    have hx := hl x (List.mem_cons_self _ _)
    have ih' := ih (fun y hy => hl y (List.mem_cons_of_mem _ hy))
    simp only [List.cons_append, spanDigits, hx, if_true]
    exact congrArg₂ Prod.mk (congrArg (List.cons x) (congrArg Prod.fst ih')) (congrArg Prod.snd ih')

theorem parseChunk_year_digits (a b c d : Char) (rest : List Char) (q : Parsing)
    (h : IsDigits 4 [a, b, c, d]) :
    parseChunk Chunk.stdLongYear (a :: b :: c :: d :: rest) q
      = some (rest, { q with year := (numberOf [a, b, c, d] : Int) }) := by
  have hv : digitsValue [a, b, c, d] 0 = some (numberOf [a, b, c, d]) := by
    simp [numberOf, digitsValue, h.2 a (by simp), h.2 b (by simp), h.2 c (by simp),
      h.2 d (by simp)]
  simp only [parseChunk, hv]

theorem parseChunk_month_digits (a b : Char) (rest : List Char) (q : Parsing)
    (h : IsDigits 2 [a, b]) (h1 : 1 ≤ numberOf [a, b]) (h12 : numberOf [a, b] ≤ 12) :
    parseChunk Chunk.stdZeroMonth (a :: b :: rest) q
      = some (rest, { q with month := some (numberOf [a, b]) }) := by
  have e : ¬ (numberOf [a, b] = 0 ∨ 12 < numberOf [a, b]) := by omega
  simp only [parseChunk, getnum_two a b rest true (h.2 a (by simp)) (h.2 b (by simp)), e, if_false]

theorem parseChunk_day_digits (a b : Char) (rest : List Char) (q : Parsing)
    (h : IsDigits 2 [a, b]) :
    parseChunk Chunk.stdZeroDay (a :: b :: rest) q
      = some (rest, { q with day := some (numberOf [a, b]) }) := by
  simp only [parseChunk, getnum_two a b rest true (h.2 a (by simp)) (h.2 b (by simp))]

theorem parseChunk_minute_digits (a b : Char) (rest : List Char) (q : Parsing)
    (h : IsDigits 2 [a, b]) (h60 : numberOf [a, b] < 60) :
    parseChunk Chunk.stdZeroMinute (a :: b :: rest) q
      = some (rest, { q with min := numberOf [a, b] }) := by
  have e : ¬ (60 ≤ numberOf [a, b]) := by omega
  simp only [parseChunk, getnum_two a b rest true (h.2 a (by simp)) (h.2 b (by simp)), e, if_false]

theorem parseChunk_hour_digits (hour rest : List Char) (q : Parsing)
    (h : IsDigits 1 hour ∨ IsDigits 2 hour) (h24 : numberOf hour < 24) :
    parseChunk Chunk.stdHour (hour ++ ':' :: rest) q
      = some (':' :: rest, { q with hour := numberOf hour }) := by
  have hcolon : isDigitChar ':' = false := by decide
  have e24 : ¬ (24 ≤ numberOf hour) := by omega
  rcases h with h1 | h2
  · obtain ⟨a, ea, haa⟩ := isDigits_one_inv _ h1
    subst ea
    simp only [List.cons_append, List.nil_append, parseChunk, getnum_one a ':' rest haa hcolon,
      e24, if_false]
  · obtain ⟨a, b, eab, haa, hbb⟩ := isDigits_two_inv _ h2
    subst eab
    simp only [List.cons_append, List.nil_append, parseChunk, getnum_two a b _ false haa hbb,
      e24, if_false]

theorem parseChunk_blanks (blanks : Nat) (hour rest : List Char) (q : Parsing)
    (h : IsDigits 1 hour ∨ IsDigits 2 hour) :
    parseChunk (Chunk.lit [' ']) (' ' :: (List.replicate blanks ' ' ++ (hour ++ rest))) q
      = some (hour ++ rest, q) := by
  obtain ⟨c, r, ehc, hcd⟩ : ∃ c r, hour = c :: r ∧ isDigitChar c = true := by
    rcases h with h1 | h2
    · obtain ⟨a, ea, haa⟩ := isDigits_one_inv _ h1
      exact ⟨a, [], ea, haa⟩
    · obtain ⟨a, b, eab, haa, _⟩ := isDigits_two_inv _ h2
      exact ⟨a, [b], eab, haa⟩
  have hcne : c ≠ ' ' := by
    intro h; rw [h] at hcd; exact absurd hcd (by decide)
  have hcut := cutspace_replicate blanks c (r ++ rest) hcne
  simp only [parseChunk, skip, if_true, Bool.false_eq_true, if_false, ne_eq, not_true_eq_false,
    cutspace, ehc, List.cons_append, hcut, Option.map_some']

theorem parseChunk_second_digits (a b : Char) (frac : List Char) (q : Parsing)
    (h : IsDigits 2 [a, b]) (h60 : numberOf [a, b] < 60)
    (hfrac : frac = [] ∨ ∃ sep ds, frac = sep :: ds ∧ (sep = '.' ∨ sep = ',') ∧ ds ≠ [] ∧
      ∀ c ∈ ds, isDigitChar c = true) :
    ∃ nsec, parseChunk Chunk.stdZeroSecond (a :: b :: (frac ++ ['"'])) q
      = some (['"'], { q with sec := numberOf [a, b], nsec := nsec }) := by
  have hquote : isDigitChar '"' = false := by decide
  have e60 : ¬ (60 ≤ numberOf [a, b]) := by omega
  have hg := getnum_two a b (frac ++ ['"']) true (h.2 a (by simp)) (h.2 b (by simp))
  rcases hfrac with h0 | ⟨sep, ds, hf, hsep, hne, hds⟩
  · subst h0
    simp only [List.nil_append] at hg
    exact ⟨q.nsec, by simp only [List.nil_append, parseChunk, hg, e60, if_false]⟩
  · obtain ⟨x, xs, hx⟩ : ∃ x xs, ds = x :: xs := by
      cases ds with
      | nil => exact absurd rfl hne
      | cons x xs => exact ⟨x, xs, rfl⟩
    have hxd : isDigitChar x = true := hds x (by rw [hx]; exact List.mem_cons_self _ _)
    have hsp := spanDigits_append ds '"' [] hds hquote
    subst hf hx
    refine ⟨parseNanoseconds (x :: xs), ?_⟩
    simp only [List.cons_append] at hsp hg
    simp only [parseChunk, List.cons_append, hg, e60, if_false, hsep, hxd, and_self, if_true, hsp]

/-- Every text of the accepted shape is read by `time.Parse` without error. -/
theorem Parse_inbound_accepts (p : InboundParts) (hv : p.Valid) :
    (time.Parse (Chunk.lit ['"'] :: ReturnDateFormat ++ [Chunk.lit ['"']]) p.text).2 = none := by
  obtain ⟨year, month, day, blanks, hour, min, sec, frac⟩ := p
  obtain ⟨hy, hm, hd, hh, hmi, hs, hfrac, hm1, hm12, hd1, hdn, hh24, hmi60, hs60⟩ := hv
  simp only at hy hm hd hh hmi hs hfrac hm1 hm12 hd1 hdn hh24 hmi60 hs60
  obtain ⟨y1, y2, y3, y4, ey, _⟩ := isDigits_four_inv _ hy
  obtain ⟨m1, m2, em, _, _⟩ := isDigits_two_inv _ hm
  obtain ⟨d1, d2, ed, _, _⟩ := isDigits_two_inv _ hd
  obtain ⟨n1, n2, emi, _, _⟩ := isDigits_two_inv _ hmi
  obtain ⟨s1, s2, es, _, _⟩ := isDigits_two_inv _ hs
  subst ey em ed emi es
  obtain ⟨nsec, hsec⟩ := parseChunk_second_digits s1 s2 frac
    ⟨(numberOf [y1, y2, y3, y4] : Int), some (numberOf [m1, m2]), some (numberOf [d1, d2]),
      numberOf hour, numberOf [n1, n2], 0, 0⟩ hs hs60 hfrac
  have hloop : parseLoop (Chunk.lit ['"'] :: ReturnDateFormat ++ [Chunk.lit ['"']])
      (InboundParts.text ⟨[y1, y2, y3, y4], [m1, m2], [d1, d2], blanks, hour, [n1, n2], [s1, s2],
        frac⟩) ⟨0, none, none, 0, 0, 0, 0⟩ =
      some ⟨(numberOf [y1, y2, y3, y4] : Int), some (numberOf [m1, m2]),
        some (numberOf [d1, d2]), numberOf hour, numberOf [n1, n2], numberOf [s1, s2], nsec⟩ := by
    simp only [InboundParts.text, ReturnDateFormat, List.cons_append, List.nil_append, parseLoop,
      parseChunk_lit_char '"' _ _ (by decide), parseChunk_lit_char '/' _ _ (by decide),
      parseChunk_lit_char ':' _ _ (by decide), parseChunk_year_digits _ _ _ _ _ _ hy,
      parseChunk_month_digits _ _ _ _ hm hm1 hm12, parseChunk_day_digits _ _ _ _ hd,
      parseChunk_blanks _ _ _ _ hh, parseChunk_hour_digits _ _ _ hh hh24,
      parseChunk_minute_digits _ _ _ _ hmi hmi60, hsec, List.isEmpty_nil, if_true]
  have hday : ¬ (numberOf [d1, d2] < 1 ∨
      daysIn (numberOf [m1, m2]) (numberOf [y1, y2, y3, y4] : Int) < numberOf [d1, d2]) := by
    omega
  simp only [time.Parse, hloop, Option.getD_some, hday, if_false]

theorem Parse_error (layout : List Chunk) (value : List Char)
    (h : (time.Parse layout value).2 ≠ none) :
    time.Parse layout value = (Time.zero, some GoError.timeParseError) := by
  unfold time.Parse at h ⊢
  cases hq : parseLoop layout value ⟨0, none, none, 0, 0, 0, 0⟩ with
  | none => rfl
  | some q =>
    simp only [hq] at h ⊢
    by_cases hday : q.day.getD 1 < 1 ∨ daysIn (q.month.getD 1) q.year < q.day.getD 1
    · simp only [hday, if_true]
    · simp only [hday, if_false, ne_eq, not_true_eq_false] at h

theorem StrictInbound_length (data : List Char) (h : StrictInbound data) : data.length = 21 := by
  obtain ⟨p, ⟨hy, hm, hd, _, hmi, hs, _⟩, ⟨hb, hh, hf⟩, rfl⟩ := h
  simp only [InboundParts.text, List.length_cons, List.length_append, List.length_replicate,
    List.length_nil, hy.1, hm.1, hd.1, hmi.1, hs.1, hb, hh, hf]

/-! ### The shape of the URLs of the GET requests -/

theorem staff_url_shape (g : GetStaffParam) (url : String)
    (h : g.EncodeURL = Run.ret (url, none)) :
    ∃ q, url = "/" ++ g.LoginCompanyCode ++ "/staffs" ++ idSuffix g.StaffID ++ q ∧
      (q = "" ∨ ∃ q', q = "?" ++ q') := by
  obtain ⟨c, t, tg, sid, pg⟩ := g
  by_cases hc : c = ""
  · simp [GetStaffParam.EncodeURL, errors.New, hc, pure] at h
  by_cases ht : t = ""
  · simp [GetStaffParam.EncodeURL, errors.New, hc, ht, pure] at h
  have hpanic : ∀ v : String, tg = some v → pg = none → False := by
    intro v h1 h2
    subst h1 h2
    simp [GetStaffParam.EncodeURL, GetStaffParam.queryValues, deref, bind, Run.bind, pure,
      hc, ht] at h
  have hurl : ∃ enc : String,
      (if enc ≠ "" then
          "/" ++ c ++ "/staffs" ++ idSuffix sid ++ ("?" ++ enc)
        else "/" ++ c ++ "/staffs" ++ idSuffix sid) = url := by
    cases sid <;> cases tg <;> cases pg <;>
      first
      | exact absurd rfl (fun e => hpanic _ rfl e)
      | (simp only [GetStaffParam.EncodeURL, GetStaffParam.queryValues, deref, bind, Run.bind,
          pure, hc, ht, if_false, ne_eq, not_true_eq_false, reduceCtorEq, not_false_eq_true,
          if_true, Run.ret.injEq, Prod.mk.injEq, and_true] at h
         rw [← h]
         generalize Values.Encode _ = enc
         refine ⟨enc, ?_⟩
         by_cases hq : enc = "" <;> simp only [hq, idSuffix, ne_eq, not_true_eq_false,
           not_false_eq_true, if_true, if_false] <;> apply String.ext <;>
           simp [String.data_append])
  obtain ⟨enc, henc⟩ := hurl
  rw [← henc]
  by_cases hq : enc = ""
  · exact ⟨"", by simp [hq], Or.inl rfl⟩
  · exact ⟨"?" ++ enc, by simp [hq, String.append_assoc], Or.inr ⟨_, rfl⟩⟩

theorem stamp_url_shape (g : GetStampParam) :
    ∃ q, g.EncodeURL = "/" ++ g.LoginCompanyCode ++ "/stamps" ++
        (if g.StaffID ≠ 0 then "/" ++ formatInt g.StaffID else "") ++ q ∧
      (q = "" ∨ ∃ q', q = "?" ++ q') := by
  obtain ⟨c, t, sd, ed, sid⟩ := g
  simp only [GetStampParam.EncodeURL]
  generalize Values.Encode _ = enc
  by_cases hq : enc = ""
  · refine ⟨"", ?_, Or.inl rfl⟩
    by_cases hs : sid = 0 <;> simp only [hq, hs, ne_eq, not_true_eq_false,
      not_false_eq_true, if_true, if_false] <;> apply String.ext <;> simp [String.data_append]
  · refine ⟨"?" ++ enc, ?_, Or.inr ⟨_, rfl⟩⟩
    by_cases hs : sid = 0 <;> simp only [hq, hs, ne_eq, not_true_eq_false,
      not_false_eq_true, if_true, if_false] <;> apply String.ext <;> simp [String.data_append]

/-! ### The decoders read the wire form of the records -/

theorem saveError_none (s : error) : saveError s none = s := by
  cases s <;> rfl

theorem andThen_ok {α : Type} (a : α) (f : α → Decoded α) : (Decoded.ok a).andThen f = f a := by
  simp [Decoded.andThen, Decoded.ok, saveError]

theorem map_ok {α β : Type} (a : α) (g : α → β) : (Decoded.ok a).map g = Decoded.ok (g a) := rfl

theorem memberOf_cons_self (tag : String) (v : JSON) (rest : List (List Char × JSON)) :
    memberOf tag ((tag.data, v) :: rest) = some v := by
  simp [memberOf]

theorem memberOf_cons_ne (tag : String) (k : List Char) (v : JSON)
    (rest : List (List Char × JSON)) (h : k ≠ tag.data) :
    memberOf tag ((k, v) :: rest) = memberOf tag rest := by
  simp [memberOf, h]

theorem memberOf_none_of_all (tag : String) (rest : List (List Char × JSON))
    (h : rest.all (fun kv => decide (kv.1 ≠ tag.data)) = true) : memberOf tag rest = none := by
  induction rest with
  | nil => rfl
  | cons kv rest ih =>
    simp only [List.all_cons, Bool.and_eq_true, decide_eq_true_eq] at h
    simp only [memberOf, h.1, if_false]
    exact ih h.2

theorem keyIs_self_of_unknown (tag : String) (k : List Char) (hself : keyIs tag.data tag = true)
    (h : keyIs k tag = false) : k ≠ tag.data := by
  intro hk
  rw [hk, hself] at h
  cases h

theorem FieldIs_step {α : Type} (P : JSON → α → Prop) (dec : JSON → α → Decoded α) (zero : α)
    (oj : Option JSON) (x : α) (hP : ∀ j a, P j a → dec j zero = Decoded.ok a)
    (h : FieldIs P zero oj x) : FieldStep dec oj zero x := by
  cases oj with
  | none => exact h
  | some j => exact hP j x h

theorem unquoteFrom_plain (l : List Char) (h : '\\' ∉ l) : unquoteFrom none l = l := by
  induction l with
  | nil => rfl
  | cons c rest ih =>
    simp only [List.mem_cons, not_or] at h
    have hc : c ≠ '\\' := fun e => h.1 e.symm
    unfold unquoteFrom
    simp only [hc, if_false, flushSurrogate, List.nil_append, ih h.2]

theorem natDecimal_ne_nil (n : Nat) : natDecimal n ≠ [] := by
  unfold natDecimal
  unfold natDigits
  split
  · simp
  · rename_i hn
    obtain ⟨ds, hds, _⟩ := natDigits_value n (n / 10) [digitChar n] (by omega)
    rw [hds]
    simp

theorem parseInt64_digits (c : Char) (cs : List Char) (hc : isDigitChar c = true) :
    parseInt64 (c :: cs) =
      match digitsValue (c :: cs) 0 with
      | some n => if n < 2 ^ 63 then some (n : Int) else none
      | none => none := by
  have hne : c ≠ '-' := by
    intro h
    rw [h] at hc
    exact absurd hc (by decide)
  unfold parseInt64
  split
  · rename_i h; cases h
  · rename_i ds h
    simp only [List.cons.injEq] at h
    exact absurd h.1 hne
  · rfl

theorem parseInt64_neg (ds : List Char) (n : Nat) (hne : ds ≠ []) (h : digitsValue ds 0 = some n)
    (hn : n ≤ 2 ^ 63) : parseInt64 ('-' :: ds) = some (-(n : Int)) := by
  cases ds with
  | nil => exact absurd rfl hne
  | cons d rest =>
    unfold parseInt64
    simp only [h, hn, if_true]

theorem parseInt64_formatInt (n : Int) (h0 : -(2 ^ 63 : Int) ≤ n) (h1 : n < 2 ^ 63) :
    parseInt64 (formatInt n).data = some n := by
  cases n with
  | ofNat m =>
    have hm : m < 2 ^ 63 := by
      have : (m : Int) < 2 ^ 63 := h1
      exact_mod_cast this
    simp only [formatInt]
    cases hd : natDecimal m with
    | nil => exact absurd hd (natDecimal_ne_nil m)
    | cons c cs =>
      have hc : isDigitChar c = true := natDecimal_digits m c (by rw [hd]; simp)
      rw [parseInt64_digits c cs hc, ← hd, natDecimal_value]
      simp only [hm, if_true]
      rfl
  | negSucc m =>
    have hm : m + 1 ≤ 2 ^ 63 := by
      have : -(2 ^ 63 : Int) ≤ Int.negSucc m := h0
      rw [Int.negSucc_eq] at this
      have h2 : ((m : Int) + 1) ≤ 2 ^ 63 := by omega
      exact_mod_cast h2
    simp only [formatInt]
    rw [parseInt64_neg (natDecimal (m + 1)) (m + 1) (natDecimal_ne_nil _) (natDecimal_value _) hm]
    rfl

theorem decodeInt_IsInt (fs : List String) (j : JSON) (n cur : Int) (h : IsInt j n) :
    decodeInt fs j cur = Decoded.ok n := by
  obtain ⟨rfl, h0, h1⟩ := h
  simp only [decodeInt, parseInt64_formatInt n h0 h1]

theorem decodeString_IsString (fs : List String) (j : JSON) (s cur : String) (h : IsString j s) :
    decodeString fs j cur = Decoded.ok s := by
  obtain ⟨rfl, hs⟩ := h
  simp only [decodeString, unquote, unquoteFrom_plain _ hs]

theorem inboundLiteral_text (t : Time) : inboundLiteral t = '"' :: inboundText t ++ ['"'] := by
  simp [inboundLiteral, inboundText]

theorem decodeAkTimePtr_IsTime (fs : List String) (j : JSON) (a cur : Option AkTime)
    (h : IsTime j a) : decodeAkTimePtr fs j cur = Decoded.ok a := by
  rcases h with ⟨rfl, rfl⟩ | ⟨t, hv, h0, h1, hn, rfl, rfl⟩
  · rfl
  · have hnull : inboundLiteral t ≠ ['n', 'u', 'l', 'l'] := by
      intro h
      have := congrArg List.head? h
      simp [inboundLiteral] at this
    simp only [decodeAkTimePtr, JSON.text, ← inboundLiteral_text, AkTime.UnmarshalJSON, hnull,
      if_false, Parse_inboundLiteral t hv h0 h1 hn, Decoded.ok]

theorem decodeFloat32_IsFloat (f : Float32Impl) (fs : List String) (j : JSON) (x cur : f.T)
    (h : IsFloat f j x) : decodeFloat32 f fs j cur = Decoded.ok x := by
  obtain ⟨lit, rfl, hl⟩ := h
  simp only [decodeFloat32, hl]

theorem decodeElems_fit {α : Type} (P : JSON → α → Prop) (dec : Decoder α) (zero : α)
    (fs : List String) (hP : ∀ j a, P j a → dec fs j zero = Decoded.ok a)
    (elems : List JSON) (xs : List α) (h : List.Forall₂ P elems xs) :
    decodeElems dec zero fs elems [] = Decoded.ok xs := by
  induction h with
  | nil => rfl
  | cons hx _ ih =>
    simp only [decodeElems, List.headD_nil, hP _ _ hx, Decoded.ok, List.tail_nil] at ih ⊢
    simp only [ih, saveError]

theorem decodeSlice_IsSlice {α : Type} (P : JSON → α → Prop) (dec : Decoder α) (zero : α)
    (fs : List String) (hP : ∀ j a, P j a → dec fs j zero = Decoded.ok a)
    (j : JSON) (l : Option (List α)) (h : IsSlice P j l) :
    decodeSlice dec zero fs j none = Decoded.ok l := by
  rcases h with ⟨rfl, rfl⟩ | ⟨elems, xs, rfl, rfl, hall⟩
  · rfl
  · simp only [decodeSlice, Option.getD_none, decodeElems_fit P dec zero fs hP elems xs hall]
    rfl

theorem FieldIs_some {α : Type} (P : JSON → α → Prop) (zero : α) (oj : Option JSON) (x : α)
    (j : JSON) (h : oj = some j) (hp : P j x) : FieldIs P zero oj x := by
  subst h; exact hp

theorem FieldIs_none {α : Type} (P : JSON → α → Prop) (zero : α) (oj : Option JSON) (x : α)
    (h : oj = none) (hx : x = zero) : FieldIs P zero oj x := by
  subst h; exact hx

/-! ### The decoder of each record -/

theorem Error_field_code (fs : List String) (v : JSON) (o : Error) :
    Error.field fs "code".data v o =
      (decodeString (fs ++ ["code"]) v o.Code).map
        (fun x => { o with Code := x }) := rfl

theorem Error_field_message (fs : List String) (v : JSON) (o : Error) :
    Error.field fs "message".data v o =
      (decodeString (fs ++ ["message"]) v o.Message).map
        (fun x => { o with Message := x }) := rfl

theorem Error_field_unknown (fs : List String) (k : List Char) (v : JSON)
    (o : Error)
    (h : (["code", "message"].all (fun t => !keyIs k t)) = true) :
    Error.field fs k v o = Decoded.ok o := by
  simp only [List.all_cons, List.all_nil, Bool.and_true, Bool.and_eq_true,
    Bool.not_eq_true'] at h
  obtain ⟨u1, u2⟩ := h
  simp only [Error.field, u1, u2, Bool.false_eq_true, if_false]

theorem Error_members (fs : List String) (ms : List (List Char × JSON)) :
    ∀ cur x : Error, shapeOK ["code", "message"] ms = true →
    FieldStep (decodeString (fs ++ ["code"])) (memberOf "code" ms)
      cur.Code x.Code →
    FieldStep (decodeString (fs ++ ["message"])) (memberOf "message" ms)
      cur.Message x.Message →
    decodeMembers (Error.field fs) ms (Decoded.ok cur) = Decoded.ok x := by
  induction ms with
  | nil =>
    intro cur x _ h1 h2
    obtain ⟨a1, a2⟩ := cur
    obtain ⟨b1, b2⟩ := x
    simp only [FieldStep, memberOf] at h1 h2
    simp only [decodeMembers, h1, h2]
  | cons kv rest ih =>
    intro cur x hs h1 h2
    obtain ⟨k, v⟩ := kv
    simp only [shapeOK, Bool.and_eq_true, Bool.or_eq_true] at hs
    obtain ⟨hkv, hrest⟩ := hs
    simp only [decodeMembers, andThen_ok]
    rcases hkv with ⟨hk, hlater⟩ | hunk
    · simp only [List.any_cons, List.any_nil, Bool.or_false, Bool.or_eq_true,
        decide_eq_true_eq] at hk
      rcases hk with hk | hk
      · have e : k = "code".data := hk
        subst e
        rw [memberOf_cons_self] at h1
        rw [memberOf_cons_ne _ _ _ _ (by decide)] at h2
        rw [Error_field_code, show _ = _ from h1, map_ok]
        exact ih _ x hrest (by rw [memberOf_none_of_all _ _ hlater]; rfl) h2
      · have e : k = "message".data := hk
        subst e
        rw [memberOf_cons_ne _ _ _ _ (by decide)] at h1
        rw [memberOf_cons_self] at h2
        rw [Error_field_message, show _ = _ from h2, map_ok]
        exact ih _ x hrest h1 (by rw [memberOf_none_of_all _ _ hlater]; rfl)
    · rw [Error_field_unknown fs k v cur hunk]
      simp only [List.all_cons, List.all_nil, Bool.and_true, Bool.and_eq_true,
        Bool.not_eq_true'] at hunk
      obtain ⟨u1, u2⟩ := hunk
      rw [memberOf_cons_ne _ _ _ _ (keyIs_self_of_unknown _ _ (by decide) u1)] at h1
      rw [memberOf_cons_ne _ _ _ _ (keyIs_self_of_unknown _ _ (by decide) u2)] at h2
      exact ih cur x hrest h1 h2

theorem decode_IsError (fs : List String) (j : JSON) (o : Error)
    (h : IsError j o) :
    decodeStruct Error.field fs j Error.zero = Decoded.ok o := by
  obtain ⟨ms, rfl, hs, h1, h2⟩ := h
  exact Error_members fs ms Error.zero o hs
    (FieldIs_step _ _ _ _ _ (fun j a => decodeString_IsString _ j a _) h1)
    (FieldIs_step _ _ _ _ _ (fun j a => decodeString_IsString _ j a _) h2)

theorem Organization_field_organizationId (fs : List String) (v : JSON) (o : Organization) :
    Organization.field fs "organizationId".data v o =
      (decodeInt (fs ++ ["organizationId"]) v o.ID).map
        (fun x => { o with ID := x }) := rfl

theorem Organization_field_name (fs : List String) (v : JSON) (o : Organization) :
    Organization.field fs "name".data v o =
      (decodeString (fs ++ ["name"]) v o.Name).map
        (fun x => { o with Name := x }) := rfl

theorem Organization_field_unknown (fs : List String) (k : List Char) (v : JSON)
    (o : Organization)
    (h : (["organizationId", "name"].all (fun t => !keyIs k t)) = true) :
    Organization.field fs k v o = Decoded.ok o := by
  simp only [List.all_cons, List.all_nil, Bool.and_true, Bool.and_eq_true,
    Bool.not_eq_true'] at h
  obtain ⟨u1, u2⟩ := h
  simp only [Organization.field, u1, u2, Bool.false_eq_true, if_false]

theorem Organization_members (fs : List String) (ms : List (List Char × JSON)) :
    ∀ cur x : Organization, shapeOK ["organizationId", "name"] ms = true →
    FieldStep (decodeInt (fs ++ ["organizationId"])) (memberOf "organizationId" ms)
      cur.ID x.ID →
    FieldStep (decodeString (fs ++ ["name"])) (memberOf "name" ms)
      cur.Name x.Name →
    decodeMembers (Organization.field fs) ms (Decoded.ok cur) = Decoded.ok x := by
  induction ms with
  | nil =>
    intro cur x _ h1 h2
    obtain ⟨a1, a2⟩ := cur
    obtain ⟨b1, b2⟩ := x
    simp only [FieldStep, memberOf] at h1 h2
    simp only [decodeMembers, h1, h2]
  | cons kv rest ih =>
    intro cur x hs h1 h2
    obtain ⟨k, v⟩ := kv
    simp only [shapeOK, Bool.and_eq_true, Bool.or_eq_true] at hs
    obtain ⟨hkv, hrest⟩ := hs
    simp only [decodeMembers, andThen_ok]
    rcases hkv with ⟨hk, hlater⟩ | hunk
    · simp only [List.any_cons, List.any_nil, Bool.or_false, Bool.or_eq_true,
        decide_eq_true_eq] at hk
      rcases hk with hk | hk
      · have e : k = "organizationId".data := hk
        subst e
        rw [memberOf_cons_self] at h1
        rw [memberOf_cons_ne _ _ _ _ (by decide)] at h2
        rw [Organization_field_organizationId, show _ = _ from h1, map_ok]
        exact ih _ x hrest (by rw [memberOf_none_of_all _ _ hlater]; rfl) h2
      · have e : k = "name".data := hk
        subst e
        rw [memberOf_cons_ne _ _ _ _ (by decide)] at h1
        rw [memberOf_cons_self] at h2
        rw [Organization_field_name, show _ = _ from h2, map_ok]
        exact ih _ x hrest h1 (by rw [memberOf_none_of_all _ _ hlater]; rfl)
    · rw [Organization_field_unknown fs k v cur hunk]
      simp only [List.all_cons, List.all_nil, Bool.and_true, Bool.and_eq_true,
        Bool.not_eq_true'] at hunk
      obtain ⟨u1, u2⟩ := hunk
      rw [memberOf_cons_ne _ _ _ _ (keyIs_self_of_unknown _ _ (by decide) u1)] at h1
      rw [memberOf_cons_ne _ _ _ _ (keyIs_self_of_unknown _ _ (by decide) u2)] at h2
      exact ih cur x hrest h1 h2

theorem decode_IsOrganization (fs : List String) (j : JSON) (o : Organization)
    (h : IsOrganization j o) :
    decodeStruct Organization.field fs j Organization.zero = Decoded.ok o := by
  obtain ⟨ms, rfl, hs, h1, h2⟩ := h
  exact Organization_members fs ms Organization.zero o hs
    (FieldIs_step _ _ _ _ _ (fun j a => decodeInt_IsInt _ j a _) h1)
    (FieldIs_step _ _ _ _ _ (fun j a => decodeString_IsString _ j a _) h2)

theorem EmploymentCategory_field_employmentCategoryId (fs : List String) (v : JSON) (o : EmploymentCategory) :
    EmploymentCategory.field fs "employmentCategoryId".data v o =
      (decodeInt (fs ++ ["employmentCategoryId"]) v o.ID).map
        (fun x => { o with ID := x }) := rfl

theorem EmploymentCategory_field_Name (fs : List String) (v : JSON) (o : EmploymentCategory) :
    EmploymentCategory.field fs "Name".data v o =
      (decodeString (fs ++ ["Name"]) v o.Name).map
        (fun x => { o with Name := x }) := rfl

theorem EmploymentCategory_field_unknown (fs : List String) (k : List Char) (v : JSON)
    (o : EmploymentCategory)
    (h : (["employmentCategoryId", "Name"].all (fun t => !keyIs k t)) = true) :
    EmploymentCategory.field fs k v o = Decoded.ok o := by
  simp only [List.all_cons, List.all_nil, Bool.and_true, Bool.and_eq_true,
    Bool.not_eq_true'] at h
  obtain ⟨u1, u2⟩ := h
  simp only [EmploymentCategory.field, u1, u2, Bool.false_eq_true, if_false]

theorem EmploymentCategory_members (fs : List String) (ms : List (List Char × JSON)) :
    ∀ cur x : EmploymentCategory, shapeOK ["employmentCategoryId", "Name"] ms = true →
    FieldStep (decodeInt (fs ++ ["employmentCategoryId"])) (memberOf "employmentCategoryId" ms)
      cur.ID x.ID →
    FieldStep (decodeString (fs ++ ["Name"])) (memberOf "Name" ms)
      cur.Name x.Name →
    decodeMembers (EmploymentCategory.field fs) ms (Decoded.ok cur) = Decoded.ok x := by
  induction ms with
  | nil =>
    intro cur x _ h1 h2
    obtain ⟨a1, a2⟩ := cur
    obtain ⟨b1, b2⟩ := x
    simp only [FieldStep, memberOf] at h1 h2
    simp only [decodeMembers, h1, h2]
  | cons kv rest ih =>
    intro cur x hs h1 h2
    obtain ⟨k, v⟩ := kv
    simp only [shapeOK, Bool.and_eq_true, Bool.or_eq_true] at hs
    obtain ⟨hkv, hrest⟩ := hs
    simp only [decodeMembers, andThen_ok]
    rcases hkv with ⟨hk, hlater⟩ | hunk
    · simp only [List.any_cons, List.any_nil, Bool.or_false, Bool.or_eq_true,
        decide_eq_true_eq] at hk
      rcases hk with hk | hk
      · have e : k = "employmentCategoryId".data := hk
        subst e
        rw [memberOf_cons_self] at h1
        rw [memberOf_cons_ne _ _ _ _ (by decide)] at h2
        rw [EmploymentCategory_field_employmentCategoryId, show _ = _ from h1, map_ok]
        exact ih _ x hrest (by rw [memberOf_none_of_all _ _ hlater]; rfl) h2
      · have e : k = "Name".data := hk
        subst e
        rw [memberOf_cons_ne _ _ _ _ (by decide)] at h1
        rw [memberOf_cons_self] at h2
        rw [EmploymentCategory_field_Name, show _ = _ from h2, map_ok]
        exact ih _ x hrest h1 (by rw [memberOf_none_of_all _ _ hlater]; rfl)
    · rw [EmploymentCategory_field_unknown fs k v cur hunk]
      simp only [List.all_cons, List.all_nil, Bool.and_true, Bool.and_eq_true,
        Bool.not_eq_true'] at hunk
      obtain ⟨u1, u2⟩ := hunk
      rw [memberOf_cons_ne _ _ _ _ (keyIs_self_of_unknown _ _ (by decide) u1)] at h1
      rw [memberOf_cons_ne _ _ _ _ (keyIs_self_of_unknown _ _ (by decide) u2)] at h2
      exact ih cur x hrest h1 h2

theorem decode_IsEmploymentCategory (fs : List String) (j : JSON) (o : EmploymentCategory)
    (h : IsEmploymentCategory j o) :
    decodeStruct EmploymentCategory.field fs j EmploymentCategory.zero = Decoded.ok o := by
  obtain ⟨ms, rfl, hs, h1, h2⟩ := h
  exact EmploymentCategory_members fs ms EmploymentCategory.zero o hs
    (FieldIs_step _ _ _ _ _ (fun j a => decodeInt_IsInt _ j a _) h1)
    (FieldIs_step _ _ _ _ _ (fun j a => decodeString_IsString _ j a _) h2)

theorem PermissionGroup_field_permissionGroupId (fs : List String) (v : JSON) (o : PermissionGroup) :
    PermissionGroup.field fs "permissionGroupId".data v o =
      (decodeInt (fs ++ ["permissionGroupId"]) v o.ID).map
        (fun x => { o with ID := x }) := rfl

theorem PermissionGroup_field_permissionType (fs : List String) (v : JSON) (o : PermissionGroup) :
    PermissionGroup.field fs "permissionType".data v o =
      (decodeInt (fs ++ ["permissionType"]) v o.Type').map
        (fun x => { o with Type' := x }) := rfl

theorem PermissionGroup_field_name (fs : List String) (v : JSON) (o : PermissionGroup) :
    PermissionGroup.field fs "name".data v o =
      (decodeString (fs ++ ["name"]) v o.Name).map
        (fun x => { o with Name := x }) := rfl

theorem PermissionGroup_field_unknown (fs : List String) (k : List Char) (v : JSON)
    (o : PermissionGroup)
    (h : (["permissionGroupId", "permissionType", "name"].all (fun t => !keyIs k t)) = true) :
    PermissionGroup.field fs k v o = Decoded.ok o := by
  simp only [List.all_cons, List.all_nil, Bool.and_true, Bool.and_eq_true,
    Bool.not_eq_true'] at h
  obtain ⟨u1, u2, u3⟩ := h
  simp only [PermissionGroup.field, u1, u2, u3, Bool.false_eq_true, if_false]

theorem PermissionGroup_members (fs : List String) (ms : List (List Char × JSON)) :
    ∀ cur x : PermissionGroup, shapeOK ["permissionGroupId", "permissionType", "name"] ms = true →
    FieldStep (decodeInt (fs ++ ["permissionGroupId"])) (memberOf "permissionGroupId" ms)
      cur.ID x.ID →
    FieldStep (decodeInt (fs ++ ["permissionType"])) (memberOf "permissionType" ms)
      cur.Type' x.Type' →
    FieldStep (decodeString (fs ++ ["name"])) (memberOf "name" ms)
      cur.Name x.Name →
    decodeMembers (PermissionGroup.field fs) ms (Decoded.ok cur) = Decoded.ok x := by
  induction ms with
  | nil =>
    intro cur x _ h1 h2 h3
    obtain ⟨a1, a2, a3⟩ := cur
    obtain ⟨b1, b2, b3⟩ := x
    simp only [FieldStep, memberOf] at h1 h2 h3
    simp only [decodeMembers, h1, h2, h3]
  | cons kv rest ih =>
    intro cur x hs h1 h2 h3
    obtain ⟨k, v⟩ := kv
    simp only [shapeOK, Bool.and_eq_true, Bool.or_eq_true] at hs
    obtain ⟨hkv, hrest⟩ := hs
    simp only [decodeMembers, andThen_ok]
    rcases hkv with ⟨hk, hlater⟩ | hunk
    · simp only [List.any_cons, List.any_nil, Bool.or_false, Bool.or_eq_true,
        decide_eq_true_eq] at hk
      rcases hk with hk | hk | hk
      · have e : k = "permissionGroupId".data := hk
        subst e
        rw [memberOf_cons_self] at h1
        rw [memberOf_cons_ne _ _ _ _ (by decide)] at h2
        rw [memberOf_cons_ne _ _ _ _ (by decide)] at h3
        rw [PermissionGroup_field_permissionGroupId, show _ = _ from h1, map_ok]
        exact ih _ x hrest (by rw [memberOf_none_of_all _ _ hlater]; rfl) h2 h3
      · have e : k = "permissionType".data := hk
        subst e
        rw [memberOf_cons_ne _ _ _ _ (by decide)] at h1
        rw [memberOf_cons_self] at h2
        rw [memberOf_cons_ne _ _ _ _ (by decide)] at h3
        rw [PermissionGroup_field_permissionType, show _ = _ from h2, map_ok]
        exact ih _ x hrest h1 (by rw [memberOf_none_of_all _ _ hlater]; rfl) h3
      · have e : k = "name".data := hk
        subst e
        rw [memberOf_cons_ne _ _ _ _ (by decide)] at h1
        rw [memberOf_cons_ne _ _ _ _ (by decide)] at h2
        rw [memberOf_cons_self] at h3
        rw [PermissionGroup_field_name, show _ = _ from h3, map_ok]
        exact ih _ x hrest h1 h2 (by rw [memberOf_none_of_all _ _ hlater]; rfl)
    · rw [PermissionGroup_field_unknown fs k v cur hunk]
      simp only [List.all_cons, List.all_nil, Bool.and_true, Bool.and_eq_true,
        Bool.not_eq_true'] at hunk
      obtain ⟨u1, u2, u3⟩ := hunk
      rw [memberOf_cons_ne _ _ _ _ (keyIs_self_of_unknown _ _ (by decide) u1)] at h1
      rw [memberOf_cons_ne _ _ _ _ (keyIs_self_of_unknown _ _ (by decide) u2)] at h2
      rw [memberOf_cons_ne _ _ _ _ (keyIs_self_of_unknown _ _ (by decide) u3)] at h3
      exact ih cur x hrest h1 h2 h3

theorem decode_IsPermissionGroup (fs : List String) (j : JSON) (o : PermissionGroup)
    (h : IsPermissionGroup j o) :
    decodeStruct PermissionGroup.field fs j PermissionGroup.zero = Decoded.ok o := by
  obtain ⟨ms, rfl, hs, h1, h2, h3⟩ := h
  exact PermissionGroup_members fs ms PermissionGroup.zero o hs
    (FieldIs_step _ _ _ _ _ (fun j a => decodeInt_IsInt _ j a _) h1)
    (FieldIs_step _ _ _ _ _ (fun j a => decodeInt_IsInt _ j a _) h2)
    (FieldIs_step _ _ _ _ _ (fun j a => decodeString_IsString _ j a _) h3)

theorem Staff_field_staffId (fs : List String) (v : JSON) (o : Staff) :
    Staff.field fs "staffId".data v o =
      (decodeInt (fs ++ ["staffId"]) v o.ID).map
        (fun x => { o with ID := x }) := rfl

theorem Staff_field_lastName (fs : List String) (v : JSON) (o : Staff) :
    Staff.field fs "lastName".data v o =
      (decodeString (fs ++ ["lastName"]) v o.LastName).map
        (fun x => { o with LastName := x }) := rfl

theorem Staff_field_firstName (fs : List String) (v : JSON) (o : Staff) :
    Staff.field fs "firstName".data v o =
      (decodeString (fs ++ ["firstName"]) v o.FirstName).map
        (fun x => { o with FirstName := x }) := rfl

theorem Staff_field_lastNameKana (fs : List String) (v : JSON) (o : Staff) :
    Staff.field fs "lastNameKana".data v o =
      (decodeString (fs ++ ["lastNameKana"]) v o.LastNameKana).map
        (fun x => { o with LastNameKana := x }) := rfl

theorem Staff_field_firstNameKana (fs : List String) (v : JSON) (o : Staff) :
    Staff.field fs "firstNameKana".data v o =
      (decodeString (fs ++ ["firstNameKana"]) v o.FirstNameKana).map
        (fun x => { o with FirstNameKana := x }) := rfl

theorem Staff_field_organization (fs : List String) (v : JSON) (o : Staff) :
    Staff.field fs "organization".data v o =
      (decodeStruct Organization.field (fs ++ ["organization"]) v o.Organization).map
        (fun x => { o with Organization := x }) := rfl

theorem Staff_field_subgroups (fs : List String) (v : JSON) (o : Staff) :
    Staff.field fs "subgroups".data v o =
      (decodeSlice (decodeStruct Organization.field) Organization.zero (fs ++ ["subgroups"]) v o.SubGroups).map
        (fun x => { o with SubGroups := x }) := rfl

theorem Staff_field_employmentCategory (fs : List String) (v : JSON) (o : Staff) :
    Staff.field fs "employmentCategory".data v o =
      (decodeStruct EmploymentCategory.field (fs ++ ["employmentCategory"]) v o.EmploymentCategory).map
        (fun x => { o with EmploymentCategory := x }) := rfl

theorem Staff_field_tag (fs : List String) (v : JSON) (o : Staff) :
    Staff.field fs "tag".data v o =
      (decodeString (fs ++ ["tag"]) v o.Tag).map
        (fun x => { o with Tag := x }) := rfl

theorem Staff_field_staffNum (fs : List String) (v : JSON) (o : Staff) :
    Staff.field fs "staffNum".data v o =
      (decodeString (fs ++ ["staffNum"]) v o.StaffNum).map
        (fun x => { o with StaffNum := x }) := rfl

theorem Staff_field_idmNum (fs : List String) (v : JSON) (o : Staff) :
    Staff.field fs "idmNum".data v o =
      (decodeString (fs ++ ["idmNum"]) v o.IDmNum).map
        (fun x => { o with IDmNum := x }) := rfl

theorem Staff_field_cardTypeId (fs : List String) (v : JSON) (o : Staff) :
    Staff.field fs "cardTypeId".data v o =
      (decodeInt (fs ++ ["cardTypeId"]) v o.CardTypeID).map
        (fun x => { o with CardTypeID := x }) := rfl

theorem Staff_field_remarks (fs : List String) (v : JSON) (o : Staff) :
    Staff.field fs "remarks".data v o =
      (decodeString (fs ++ ["remarks"]) v o.Remarks).map
        (fun x => { o with Remarks := x }) := rfl

theorem Staff_field_permissionGroup (fs : List String) (v : JSON) (o : Staff) :
    Staff.field fs "permissionGroup".data v o =
      (decodeStruct PermissionGroup.field (fs ++ ["permissionGroup"]) v o.PermissionGroup).map
        (fun x => { o with PermissionGroup := x }) := rfl

theorem Staff_field_managedOrganizations (fs : List String) (v : JSON) (o : Staff) :
    Staff.field fs "managedOrganizations".data v o =
      (decodeSlice (decodeStruct Organization.field) Organization.zero (fs ++ ["managedOrganizations"]) v o.ManagedOrganizations).map
        (fun x => { o with ManagedOrganizations := x }) := rfl

theorem Staff_field_unknown (fs : List String) (k : List Char) (v : JSON)
    (o : Staff)
    (h : (["staffId", "lastName", "firstName", "lastNameKana", "firstNameKana", "organization", "subgroups", "employmentCategory", "tag", "staffNum", "idmNum", "cardTypeId", "remarks", "permissionGroup", "managedOrganizations"].all (fun t => !keyIs k t)) = true) :
    Staff.field fs k v o = Decoded.ok o := by
  simp only [List.all_cons, List.all_nil, Bool.and_true, Bool.and_eq_true,
    Bool.not_eq_true'] at h
  obtain ⟨u1, u2, u3, u4, u5, u6, u7, u8, u9, u10, u11, u12, u13, u14, u15⟩ := h
  simp only [Staff.field, u1, u2, u3, u4, u5, u6, u7, u8, u9, u10, u11, u12, u13, u14, u15, Bool.false_eq_true, if_false]

theorem Staff_members (fs : List String) (ms : List (List Char × JSON)) :
    ∀ cur x : Staff, shapeOK ["staffId", "lastName", "firstName", "lastNameKana", "firstNameKana", "organization", "subgroups", "employmentCategory", "tag", "staffNum", "idmNum", "cardTypeId", "remarks", "permissionGroup", "managedOrganizations"] ms = true →
    FieldStep (decodeInt (fs ++ ["staffId"])) (memberOf "staffId" ms)
      cur.ID x.ID →
    FieldStep (decodeString (fs ++ ["lastName"])) (memberOf "lastName" ms)
      cur.LastName x.LastName →
    FieldStep (decodeString (fs ++ ["firstName"])) (memberOf "firstName" ms)
      cur.FirstName x.FirstName →
    FieldStep (decodeString (fs ++ ["lastNameKana"])) (memberOf "lastNameKana" ms)
      cur.LastNameKana x.LastNameKana →
    FieldStep (decodeString (fs ++ ["firstNameKana"])) (memberOf "firstNameKana" ms)
      cur.FirstNameKana x.FirstNameKana →
    FieldStep (decodeStruct Organization.field (fs ++ ["organization"])) (memberOf "organization" ms)
      cur.Organization x.Organization →
    FieldStep (decodeSlice (decodeStruct Organization.field) Organization.zero (fs ++ ["subgroups"])) (memberOf "subgroups" ms)
      cur.SubGroups x.SubGroups →
    FieldStep (decodeStruct EmploymentCategory.field (fs ++ ["employmentCategory"])) (memberOf "employmentCategory" ms)
      cur.EmploymentCategory x.EmploymentCategory →
    FieldStep (decodeString (fs ++ ["tag"])) (memberOf "tag" ms)
      cur.Tag x.Tag →
    FieldStep (decodeString (fs ++ ["staffNum"])) (memberOf "staffNum" ms)
      cur.StaffNum x.StaffNum →
    FieldStep (decodeString (fs ++ ["idmNum"])) (memberOf "idmNum" ms)
      cur.IDmNum x.IDmNum →
    FieldStep (decodeInt (fs ++ ["cardTypeId"])) (memberOf "cardTypeId" ms)
      cur.CardTypeID x.CardTypeID →
    FieldStep (decodeString (fs ++ ["remarks"])) (memberOf "remarks" ms)
      cur.Remarks x.Remarks →
    FieldStep (decodeStruct PermissionGroup.field (fs ++ ["permissionGroup"])) (memberOf "permissionGroup" ms)
      cur.PermissionGroup x.PermissionGroup →
    FieldStep (decodeSlice (decodeStruct Organization.field) Organization.zero (fs ++ ["managedOrganizations"])) (memberOf "managedOrganizations" ms)
      cur.ManagedOrganizations x.ManagedOrganizations →
    decodeMembers (Staff.field fs) ms (Decoded.ok cur) = Decoded.ok x := by
  induction ms with
  | nil =>
    intro cur x _ h1 h2 h3 h4 h5 h6 h7 h8 h9 h10 h11 h12 h13 h14 h15
    obtain ⟨a1, a2, a3, a4, a5, a6, a7, a8, a9, a10, a11, a12, a13, a14, a15⟩ := cur
    obtain ⟨b1, b2, b3, b4, b5, b6, b7, b8, b9, b10, b11, b12, b13, b14, b15⟩ := x
    simp only [FieldStep, memberOf] at h1 h2 h3 h4 h5 h6 h7 h8 h9 h10 h11 h12 h13 h14 h15
    simp only [decodeMembers, h1, h2, h3, h4, h5, h6, h7, h8, h9, h10, h11, h12, h13, h14, h15]
  | cons kv rest ih =>
    intro cur x hs h1 h2 h3 h4 h5 h6 h7 h8 h9 h10 h11 h12 h13 h14 h15
    obtain ⟨k, v⟩ := kv
    simp only [shapeOK, Bool.and_eq_true, Bool.or_eq_true] at hs
    obtain ⟨hkv, hrest⟩ := hs
    simp only [decodeMembers, andThen_ok]
    rcases hkv with ⟨hk, hlater⟩ | hunk
    · simp only [List.any_cons, List.any_nil, Bool.or_false, Bool.or_eq_true,
        decide_eq_true_eq] at hk
      rcases hk with hk | hk | hk | hk | hk | hk | hk | hk | hk | hk | hk | hk | hk | hk | hk
      · have e : k = "staffId".data := hk
        subst e
        rw [memberOf_cons_self] at h1
        rw [memberOf_cons_ne _ _ _ _ (by decide)] at h2
        rw [memberOf_cons_ne _ _ _ _ (by decide)] at h3
        rw [memberOf_cons_ne _ _ _ _ (by decide)] at h4
        rw [memberOf_cons_ne _ _ _ _ (by decide)] at h5
        rw [memberOf_cons_ne _ _ _ _ (by decide)] at h6
        rw [memberOf_cons_ne _ _ _ _ (by decide)] at h7
        rw [memberOf_cons_ne _ _ _ _ (by decide)] at h8
        rw [memberOf_cons_ne _ _ _ _ (by decide)] at h9
        rw [memberOf_cons_ne _ _ _ _ (by decide)] at h10
        rw [memberOf_cons_ne _ _ _ _ (by decide)] at h11
        rw [memberOf_cons_ne _ _ _ _ (by decide)] at h12
        rw [memberOf_cons_ne _ _ _ _ (by decide)] at h13
        rw [memberOf_cons_ne _ _ _ _ (by decide)] at h14
        rw [memberOf_cons_ne _ _ _ _ (by decide)] at h15
        rw [Staff_field_staffId, show _ = _ from h1, map_ok]
        exact ih _ x hrest (by rw [memberOf_none_of_all _ _ hlater]; rfl) h2 h3 h4 h5 h6 h7 h8
          h9 h10 h11 h12 h13 h14 h15
      · have e : k = "lastName".data := hk
        subst e
        rw [memberOf_cons_ne _ _ _ _ (by decide)] at h1
        rw [memberOf_cons_self] at h2
        rw [memberOf_cons_ne _ _ _ _ (by decide)] at h3
        rw [memberOf_cons_ne _ _ _ _ (by decide)] at h4
        rw [memberOf_cons_ne _ _ _ _ (by decide)] at h5
        rw [memberOf_cons_ne _ _ _ _ (by decide)] at h6
        rw [memberOf_cons_ne _ _ _ _ (by decide)] at h7
        rw [memberOf_cons_ne _ _ _ _ (by decide)] at h8
        rw [memberOf_cons_ne _ _ _ _ (by decide)] at h9
        rw [memberOf_cons_ne _ _ _ _ (by decide)] at h10
        rw [memberOf_cons_ne _ _ _ _ (by decide)] at h11
        rw [memberOf_cons_ne _ _ _ _ (by decide)] at h12
        rw [memberOf_cons_ne _ _ _ _ (by decide)] at h13
        rw [memberOf_cons_ne _ _ _ _ (by decide)] at h14
        rw [memberOf_cons_ne _ _ _ _ (by decide)] at h15
        rw [Staff_field_lastName, show _ = _ from h2, map_ok]
        exact ih _ x hrest h1 (by rw [memberOf_none_of_all _ _ hlater]; rfl) h3 h4 h5 h6 h7 h8
          h9 h10 h11 h12 h13 h14 h15
      · have e : k = "firstName".data := hk
        subst e
        rw [memberOf_cons_ne _ _ _ _ (by decide)] at h1
        rw [memberOf_cons_ne _ _ _ _ (by decide)] at h2
        rw [memberOf_cons_self] at h3
        rw [memberOf_cons_ne _ _ _ _ (by decide)] at h4
        rw [memberOf_cons_ne _ _ _ _ (by decide)] at h5
        rw [memberOf_cons_ne _ _ _ _ (by decide)] at h6
        rw [memberOf_cons_ne _ _ _ _ (by decide)] at h7
        rw [memberOf_cons_ne _ _ _ _ (by decide)] at h8
        rw [memberOf_cons_ne _ _ _ _ (by decide)] at h9
        rw [memberOf_cons_ne _ _ _ _ (by decide)] at h10
        rw [memberOf_cons_ne _ _ _ _ (by decide)] at h11
        rw [memberOf_cons_ne _ _ _ _ (by decide)] at h12
        rw [memberOf_cons_ne _ _ _ _ (by decide)] at h13
        rw [memberOf_cons_ne _ _ _ _ (by decide)] at h14
        rw [memberOf_cons_ne _ _ _ _ (by decide)] at h15
        rw [Staff_field_firstName, show _ = _ from h3, map_ok]
        exact ih _ x hrest h1 h2 (by rw [memberOf_none_of_all _ _ hlater]; rfl) h4 h5 h6 h7 h8
          h9 h10 h11 h12 h13 h14 h15
      · have e : k = "lastNameKana".data := hk
        subst e
        rw [memberOf_cons_ne _ _ _ _ (by decide)] at h1
        rw [memberOf_cons_ne _ _ _ _ (by decide)] at h2
        rw [memberOf_cons_ne _ _ _ _ (by decide)] at h3
        rw [memberOf_cons_self] at h4
        rw [memberOf_cons_ne _ _ _ _ (by decide)] at h5
        rw [memberOf_cons_ne _ _ _ _ (by decide)] at h6
        rw [memberOf_cons_ne _ _ _ _ (by decide)] at h7
        rw [memberOf_cons_ne _ _ _ _ (by decide)] at h8
        rw [memberOf_cons_ne _ _ _ _ (by decide)] at h9
        rw [memberOf_cons_ne _ _ _ _ (by decide)] at h10
        rw [memberOf_cons_ne _ _ _ _ (by decide)] at h11
        rw [memberOf_cons_ne _ _ _ _ (by decide)] at h12
        rw [memberOf_cons_ne _ _ _ _ (by decide)] at h13
        rw [memberOf_cons_ne _ _ _ _ (by decide)] at h14
        rw [memberOf_cons_ne _ _ _ _ (by decide)] at h15
        rw [Staff_field_lastNameKana, show _ = _ from h4, map_ok]
        exact ih _ x hrest h1 h2 h3 (by rw [memberOf_none_of_all _ _ hlater]; rfl) h5 h6 h7 h8
          h9 h10 h11 h12 h13 h14 h15
      · have e : k = "firstNameKana".data := hk
        subst e
        rw [memberOf_cons_ne _ _ _ _ (by decide)] at h1
        rw [memberOf_cons_ne _ _ _ _ (by decide)] at h2
        rw [memberOf_cons_ne _ _ _ _ (by decide)] at h3
        rw [memberOf_cons_ne _ _ _ _ (by decide)] at h4
        rw [memberOf_cons_self] at h5
        rw [memberOf_cons_ne _ _ _ _ (by decide)] at h6
        rw [memberOf_cons_ne _ _ _ _ (by decide)] at h7
        rw [memberOf_cons_ne _ _ _ _ (by decide)] at h8
        rw [memberOf_cons_ne _ _ _ _ (by decide)] at h9
        rw [memberOf_cons_ne _ _ _ _ (by decide)] at h10
        rw [memberOf_cons_ne _ _ _ _ (by decide)] at h11
        rw [memberOf_cons_ne _ _ _ _ (by decide)] at h12
        rw [memberOf_cons_ne _ _ _ _ (by decide)] at h13
        rw [memberOf_cons_ne _ _ _ _ (by decide)] at h14
        rw [memberOf_cons_ne _ _ _ _ (by decide)] at h15
        rw [Staff_field_firstNameKana, show _ = _ from h5, map_ok]
        exact ih _ x hrest h1 h2 h3 h4 (by rw [memberOf_none_of_all _ _ hlater]; rfl) h6 h7 h8
          h9 h10 h11 h12 h13 h14 h15
      · have e : k = "organization".data := hk
        subst e
        rw [memberOf_cons_ne _ _ _ _ (by decide)] at h1
        rw [memberOf_cons_ne _ _ _ _ (by decide)] at h2
        rw [memberOf_cons_ne _ _ _ _ (by decide)] at h3
        rw [memberOf_cons_ne _ _ _ _ (by decide)] at h4
        rw [memberOf_cons_ne _ _ _ _ (by decide)] at h5
        rw [memberOf_cons_self] at h6
        rw [memberOf_cons_ne _ _ _ _ (by decide)] at h7
        rw [memberOf_cons_ne _ _ _ _ (by decide)] at h8
        rw [memberOf_cons_ne _ _ _ _ (by decide)] at h9
        rw [memberOf_cons_ne _ _ _ _ (by decide)] at h10
        rw [memberOf_cons_ne _ _ _ _ (by decide)] at h11
        rw [memberOf_cons_ne _ _ _ _ (by decide)] at h12
        rw [memberOf_cons_ne _ _ _ _ (by decide)] at h13
        rw [memberOf_cons_ne _ _ _ _ (by decide)] at h14
        rw [memberOf_cons_ne _ _ _ _ (by decide)] at h15
        rw [Staff_field_organization, show _ = _ from h6, map_ok]
        exact ih _ x hrest h1 h2 h3 h4 h5 (by rw [memberOf_none_of_all _ _ hlater]; rfl) h7 h8
          h9 h10 h11 h12 h13 h14 h15
      · have e : k = "subgroups".data := hk
        subst e
        rw [memberOf_cons_ne _ _ _ _ (by decide)] at h1
        rw [memberOf_cons_ne _ _ _ _ (by decide)] at h2
        rw [memberOf_cons_ne _ _ _ _ (by decide)] at h3
        rw [memberOf_cons_ne _ _ _ _ (by decide)] at h4
        rw [memberOf_cons_ne _ _ _ _ (by decide)] at h5
        rw [memberOf_cons_ne _ _ _ _ (by decide)] at h6
        rw [memberOf_cons_self] at h7
        rw [memberOf_cons_ne _ _ _ _ (by decide)] at h8
        rw [memberOf_cons_ne _ _ _ _ (by decide)] at h9
        rw [memberOf_cons_ne _ _ _ _ (by decide)] at h10
        rw [memberOf_cons_ne _ _ _ _ (by decide)] at h11
        rw [memberOf_cons_ne _ _ _ _ (by decide)] at h12
        rw [memberOf_cons_ne _ _ _ _ (by decide)] at h13
        rw [memberOf_cons_ne _ _ _ _ (by decide)] at h14
        rw [memberOf_cons_ne _ _ _ _ (by decide)] at h15
        rw [Staff_field_subgroups, show _ = _ from h7, map_ok]
        exact ih _ x hrest h1 h2 h3 h4 h5 h6 (by rw [memberOf_none_of_all _ _ hlater]; rfl) h8
          h9 h10 h11 h12 h13 h14 h15
      · have e : k = "employmentCategory".data := hk
        subst e
        rw [memberOf_cons_ne _ _ _ _ (by decide)] at h1
        rw [memberOf_cons_ne _ _ _ _ (by decide)] at h2
        rw [memberOf_cons_ne _ _ _ _ (by decide)] at h3
        rw [memberOf_cons_ne _ _ _ _ (by decide)] at h4
        rw [memberOf_cons_ne _ _ _ _ (by decide)] at h5
        rw [memberOf_cons_ne _ _ _ _ (by decide)] at h6
        rw [memberOf_cons_ne _ _ _ _ (by decide)] at h7
        rw [memberOf_cons_self] at h8
        rw [memberOf_cons_ne _ _ _ _ (by decide)] at h9
        rw [memberOf_cons_ne _ _ _ _ (by decide)] at h10
        rw [memberOf_cons_ne _ _ _ _ (by decide)] at h11
        rw [memberOf_cons_ne _ _ _ _ (by decide)] at h12
        rw [memberOf_cons_ne _ _ _ _ (by decide)] at h13
        rw [memberOf_cons_ne _ _ _ _ (by decide)] at h14
        rw [memberOf_cons_ne _ _ _ _ (by decide)] at h15
        rw [Staff_field_employmentCategory, show _ = _ from h8, map_ok]
        exact ih _ x hrest h1 h2 h3 h4 h5 h6 h7 (by rw [memberOf_none_of_all _ _ hlater]; rfl)
          h9 h10 h11 h12 h13 h14 h15
      · have e : k = "tag".data := hk
        subst e
        rw [memberOf_cons_ne _ _ _ _ (by decide)] at h1
        rw [memberOf_cons_ne _ _ _ _ (by decide)] at h2
        rw [memberOf_cons_ne _ _ _ _ (by decide)] at h3
        rw [memberOf_cons_ne _ _ _ _ (by decide)] at h4
        rw [memberOf_cons_ne _ _ _ _ (by decide)] at h5
        rw [memberOf_cons_ne _ _ _ _ (by decide)] at h6
        rw [memberOf_cons_ne _ _ _ _ (by decide)] at h7
        rw [memberOf_cons_ne _ _ _ _ (by decide)] at h8
        rw [memberOf_cons_self] at h9
        rw [memberOf_cons_ne _ _ _ _ (by decide)] at h10
        rw [memberOf_cons_ne _ _ _ _ (by decide)] at h11
        rw [memberOf_cons_ne _ _ _ _ (by decide)] at h12
        rw [memberOf_cons_ne _ _ _ _ (by decide)] at h13
        rw [memberOf_cons_ne _ _ _ _ (by decide)] at h14
        rw [memberOf_cons_ne _ _ _ _ (by decide)] at h15
        rw [Staff_field_tag, show _ = _ from h9, map_ok]
        exact ih _ x hrest h1 h2 h3 h4 h5 h6 h7 h8
          (by rw [memberOf_none_of_all _ _ hlater]; rfl) h10 h11 h12 h13 h14 h15
      · have e : k = "staffNum".data := hk
        subst e
        rw [memberOf_cons_ne _ _ _ _ (by decide)] at h1
        rw [memberOf_cons_ne _ _ _ _ (by decide)] at h2
        rw [memberOf_cons_ne _ _ _ _ (by decide)] at h3
        rw [memberOf_cons_ne _ _ _ _ (by decide)] at h4
        rw [memberOf_cons_ne _ _ _ _ (by decide)] at h5
        rw [memberOf_cons_ne _ _ _ _ (by decide)] at h6
        rw [memberOf_cons_ne _ _ _ _ (by decide)] at h7
        rw [memberOf_cons_ne _ _ _ _ (by decide)] at h8
        rw [memberOf_cons_ne _ _ _ _ (by decide)] at h9
        rw [memberOf_cons_self] at h10
        rw [memberOf_cons_ne _ _ _ _ (by decide)] at h11
        rw [memberOf_cons_ne _ _ _ _ (by decide)] at h12
        rw [memberOf_cons_ne _ _ _ _ (by decide)] at h13
        rw [memberOf_cons_ne _ _ _ _ (by decide)] at h14
        rw [memberOf_cons_ne _ _ _ _ (by decide)] at h15
        rw [Staff_field_staffNum, show _ = _ from h10, map_ok]
        exact ih _ x hrest h1 h2 h3 h4 h5 h6 h7 h8 h9
          (by rw [memberOf_none_of_all _ _ hlater]; rfl) h11 h12 h13 h14 h15
      · have e : k = "idmNum".data := hk
        subst e
        rw [memberOf_cons_ne _ _ _ _ (by decide)] at h1
        rw [memberOf_cons_ne _ _ _ _ (by decide)] at h2
        rw [memberOf_cons_ne _ _ _ _ (by decide)] at h3
        rw [memberOf_cons_ne _ _ _ _ (by decide)] at h4
        rw [memberOf_cons_ne _ _ _ _ (by decide)] at h5
        rw [memberOf_cons_ne _ _ _ _ (by decide)] at h6
        rw [memberOf_cons_ne _ _ _ _ (by decide)] at h7
        rw [memberOf_cons_ne _ _ _ _ (by decide)] at h8
        rw [memberOf_cons_ne _ _ _ _ (by decide)] at h9
        rw [memberOf_cons_ne _ _ _ _ (by decide)] at h10
        rw [memberOf_cons_self] at h11
        rw [memberOf_cons_ne _ _ _ _ (by decide)] at h12
        rw [memberOf_cons_ne _ _ _ _ (by decide)] at h13
        rw [memberOf_cons_ne _ _ _ _ (by decide)] at h14
        rw [memberOf_cons_ne _ _ _ _ (by decide)] at h15
        rw [Staff_field_idmNum, show _ = _ from h11, map_ok]
        exact ih _ x hrest h1 h2 h3 h4 h5 h6 h7 h8 h9 h10
          (by rw [memberOf_none_of_all _ _ hlater]; rfl) h12 h13 h14 h15
      · have e : k = "cardTypeId".data := hk
        subst e
        rw [memberOf_cons_ne _ _ _ _ (by decide)] at h1
        rw [memberOf_cons_ne _ _ _ _ (by decide)] at h2
        rw [memberOf_cons_ne _ _ _ _ (by decide)] at h3
        rw [memberOf_cons_ne _ _ _ _ (by decide)] at h4
        rw [memberOf_cons_ne _ _ _ _ (by decide)] at h5
        rw [memberOf_cons_ne _ _ _ _ (by decide)] at h6
        rw [memberOf_cons_ne _ _ _ _ (by decide)] at h7
        rw [memberOf_cons_ne _ _ _ _ (by decide)] at h8
        rw [memberOf_cons_ne _ _ _ _ (by decide)] at h9
        rw [memberOf_cons_ne _ _ _ _ (by decide)] at h10
        rw [memberOf_cons_ne _ _ _ _ (by decide)] at h11
        rw [memberOf_cons_self] at h12
        rw [memberOf_cons_ne _ _ _ _ (by decide)] at h13
        rw [memberOf_cons_ne _ _ _ _ (by decide)] at h14
        rw [memberOf_cons_ne _ _ _ _ (by decide)] at h15
        rw [Staff_field_cardTypeId, show _ = _ from h12, map_ok]
        exact ih _ x hrest h1 h2 h3 h4 h5 h6 h7 h8 h9 h10 h11
          (by rw [memberOf_none_of_all _ _ hlater]; rfl) h13 h14 h15
      · have e : k = "remarks".data := hk
        subst e
        rw [memberOf_cons_ne _ _ _ _ (by decide)] at h1
        rw [memberOf_cons_ne _ _ _ _ (by decide)] at h2
        rw [memberOf_cons_ne _ _ _ _ (by decide)] at h3
        rw [memberOf_cons_ne _ _ _ _ (by decide)] at h4
        rw [memberOf_cons_ne _ _ _ _ (by decide)] at h5
        rw [memberOf_cons_ne _ _ _ _ (by decide)] at h6
        rw [memberOf_cons_ne _ _ _ _ (by decide)] at h7
        rw [memberOf_cons_ne _ _ _ _ (by decide)] at h8
        rw [memberOf_cons_ne _ _ _ _ (by decide)] at h9
        rw [memberOf_cons_ne _ _ _ _ (by decide)] at h10
        rw [memberOf_cons_ne _ _ _ _ (by decide)] at h11
        rw [memberOf_cons_ne _ _ _ _ (by decide)] at h12
        rw [memberOf_cons_self] at h13
        rw [memberOf_cons_ne _ _ _ _ (by decide)] at h14
        rw [memberOf_cons_ne _ _ _ _ (by decide)] at h15
        rw [Staff_field_remarks, show _ = _ from h13, map_ok]
        exact ih _ x hrest h1 h2 h3 h4 h5 h6 h7 h8 h9 h10 h11 h12
          (by rw [memberOf_none_of_all _ _ hlater]; rfl) h14 h15
      · have e : k = "permissionGroup".data := hk
        subst e
        rw [memberOf_cons_ne _ _ _ _ (by decide)] at h1
        rw [memberOf_cons_ne _ _ _ _ (by decide)] at h2
        rw [memberOf_cons_ne _ _ _ _ (by decide)] at h3
        rw [memberOf_cons_ne _ _ _ _ (by decide)] at h4
        rw [memberOf_cons_ne _ _ _ _ (by decide)] at h5
        rw [memberOf_cons_ne _ _ _ _ (by decide)] at h6
        rw [memberOf_cons_ne _ _ _ _ (by decide)] at h7
        rw [memberOf_cons_ne _ _ _ _ (by decide)] at h8
        rw [memberOf_cons_ne _ _ _ _ (by decide)] at h9
        rw [memberOf_cons_ne _ _ _ _ (by decide)] at h10
        rw [memberOf_cons_ne _ _ _ _ (by decide)] at h11
        rw [memberOf_cons_ne _ _ _ _ (by decide)] at h12
        rw [memberOf_cons_ne _ _ _ _ (by decide)] at h13
        rw [memberOf_cons_self] at h14
        rw [memberOf_cons_ne _ _ _ _ (by decide)] at h15
        rw [Staff_field_permissionGroup, show _ = _ from h14, map_ok]
        exact ih _ x hrest h1 h2 h3 h4 h5 h6 h7 h8 h9 h10 h11 h12 h13
          (by rw [memberOf_none_of_all _ _ hlater]; rfl) h15
      · have e : k = "managedOrganizations".data := hk
        subst e
        rw [memberOf_cons_ne _ _ _ _ (by decide)] at h1
        rw [memberOf_cons_ne _ _ _ _ (by decide)] at h2
        rw [memberOf_cons_ne _ _ _ _ (by decide)] at h3
        rw [memberOf_cons_ne _ _ _ _ (by decide)] at h4
        rw [memberOf_cons_ne _ _ _ _ (by decide)] at h5
        rw [memberOf_cons_ne _ _ _ _ (by decide)] at h6
        rw [memberOf_cons_ne _ _ _ _ (by decide)] at h7
        rw [memberOf_cons_ne _ _ _ _ (by decide)] at h8
        rw [memberOf_cons_ne _ _ _ _ (by decide)] at h9
        rw [memberOf_cons_ne _ _ _ _ (by decide)] at h10
        rw [memberOf_cons_ne _ _ _ _ (by decide)] at h11
        rw [memberOf_cons_ne _ _ _ _ (by decide)] at h12
        rw [memberOf_cons_ne _ _ _ _ (by decide)] at h13
        rw [memberOf_cons_ne _ _ _ _ (by decide)] at h14
        rw [memberOf_cons_self] at h15
        rw [Staff_field_managedOrganizations, show _ = _ from h15, map_ok]
        exact ih _ x hrest h1 h2 h3 h4 h5 h6 h7 h8 h9 h10 h11 h12 h13 h14
          (by rw [memberOf_none_of_all _ _ hlater]; rfl)
    · rw [Staff_field_unknown fs k v cur hunk]
      simp only [List.all_cons, List.all_nil, Bool.and_true, Bool.and_eq_true,
        Bool.not_eq_true'] at hunk
      obtain ⟨u1, u2, u3, u4, u5, u6, u7, u8, u9, u10, u11, u12, u13, u14, u15⟩ := hunk
      rw [memberOf_cons_ne _ _ _ _ (keyIs_self_of_unknown _ _ (by decide) u1)] at h1
      rw [memberOf_cons_ne _ _ _ _ (keyIs_self_of_unknown _ _ (by decide) u2)] at h2
      rw [memberOf_cons_ne _ _ _ _ (keyIs_self_of_unknown _ _ (by decide) u3)] at h3
      rw [memberOf_cons_ne _ _ _ _ (keyIs_self_of_unknown _ _ (by decide) u4)] at h4
      rw [memberOf_cons_ne _ _ _ _ (keyIs_self_of_unknown _ _ (by decide) u5)] at h5
      rw [memberOf_cons_ne _ _ _ _ (keyIs_self_of_unknown _ _ (by decide) u6)] at h6
      rw [memberOf_cons_ne _ _ _ _ (keyIs_self_of_unknown _ _ (by decide) u7)] at h7
      rw [memberOf_cons_ne _ _ _ _ (keyIs_self_of_unknown _ _ (by decide) u8)] at h8
      rw [memberOf_cons_ne _ _ _ _ (keyIs_self_of_unknown _ _ (by decide) u9)] at h9
      rw [memberOf_cons_ne _ _ _ _ (keyIs_self_of_unknown _ _ (by decide) u10)] at h10
      rw [memberOf_cons_ne _ _ _ _ (keyIs_self_of_unknown _ _ (by decide) u11)] at h11
      rw [memberOf_cons_ne _ _ _ _ (keyIs_self_of_unknown _ _ (by decide) u12)] at h12
      rw [memberOf_cons_ne _ _ _ _ (keyIs_self_of_unknown _ _ (by decide) u13)] at h13
      rw [memberOf_cons_ne _ _ _ _ (keyIs_self_of_unknown _ _ (by decide) u14)] at h14
      rw [memberOf_cons_ne _ _ _ _ (keyIs_self_of_unknown _ _ (by decide) u15)] at h15
      exact ih cur x hrest h1 h2 h3 h4 h5 h6 h7 h8 h9 h10 h11 h12 h13 h14 h15

theorem decode_IsStaff (fs : List String) (j : JSON) (o : Staff)
    (h : IsStaff j o) :
    decodeStruct Staff.field fs j Staff.zero = Decoded.ok o := by
  obtain ⟨ms, rfl, hs, h1, h2, h3, h4, h5, h6, h7, h8, h9, h10, h11, h12, h13, h14, h15⟩ := h
  exact Staff_members fs ms Staff.zero o hs
    (FieldIs_step _ _ _ _ _ (fun j a => decodeInt_IsInt _ j a _) h1)
    (FieldIs_step _ _ _ _ _ (fun j a => decodeString_IsString _ j a _) h2)
    (FieldIs_step _ _ _ _ _ (fun j a => decodeString_IsString _ j a _) h3)
    (FieldIs_step _ _ _ _ _ (fun j a => decodeString_IsString _ j a _) h4)
    (FieldIs_step _ _ _ _ _ (fun j a => decodeString_IsString _ j a _) h5)
    (FieldIs_step _ _ _ _ _ (fun j a => decode_IsOrganization _ j a) h6)
    (FieldIs_step _ _ _ _ _ (fun j a => decodeSlice_IsSlice IsOrganization (decodeStruct Organization.field) Organization.zero _
      (fun j a => decode_IsOrganization _ j a) j a) h7)
    (FieldIs_step _ _ _ _ _ (fun j a => decode_IsEmploymentCategory _ j a) h8)
    (FieldIs_step _ _ _ _ _ (fun j a => decodeString_IsString _ j a _) h9)
    (FieldIs_step _ _ _ _ _ (fun j a => decodeString_IsString _ j a _) h10)
    (FieldIs_step _ _ _ _ _ (fun j a => decodeString_IsString _ j a _) h11)
    (FieldIs_step _ _ _ _ _ (fun j a => decodeInt_IsInt _ j a _) h12)
    (FieldIs_step _ _ _ _ _ (fun j a => decodeString_IsString _ j a _) h13)
    (FieldIs_step _ _ _ _ _ (fun j a => decode_IsPermissionGroup _ j a) h14)
    (FieldIs_step _ _ _ _ _ (fun j a => decodeSlice_IsSlice IsOrganization (decodeStruct Organization.field) Organization.zero _
      (fun j a => decode_IsOrganization _ j a) j a) h15)

theorem GetStaffResponse_field_login_company_code (fs : List String) (v : JSON) (o : GetStaffResponse) :
    GetStaffResponse.field fs "login_company_code".data v o =
      (decodeString (fs ++ ["login_company_code"]) v o.LoginCompanyCode).map
        (fun x => { o with LoginCompanyCode := x }) := rfl

theorem GetStaffResponse_field_Count (fs : List String) (v : JSON) (o : GetStaffResponse) :
    GetStaffResponse.field fs "Count".data v o =
      (decodeInt (fs ++ ["Count"]) v o.Count).map
        (fun x => { o with Count := x }) := rfl

theorem GetStaffResponse_field_TotalCount (fs : List String) (v : JSON) (o : GetStaffResponse) :
    GetStaffResponse.field fs "TotalCount".data v o =
      (decodeInt (fs ++ ["TotalCount"]) v o.TotalCount).map
        (fun x => { o with TotalCount := x }) := rfl

theorem GetStaffResponse_field_staffs (fs : List String) (v : JSON) (o : GetStaffResponse) :
    GetStaffResponse.field fs "staffs".data v o =
      (decodeSlice (decodeStruct Staff.field) Staff.zero (fs ++ ["staffs"]) v o.Staffs).map
        (fun x => { o with Staffs := x }) := rfl

theorem GetStaffResponse_field_unknown (fs : List String) (k : List Char) (v : JSON)
    (o : GetStaffResponse)
    (h : (["login_company_code", "Count", "TotalCount", "staffs"].all (fun t => !keyIs k t)) = true) :
    GetStaffResponse.field fs k v o = Decoded.ok o := by
  simp only [List.all_cons, List.all_nil, Bool.and_true, Bool.and_eq_true,
    Bool.not_eq_true'] at h
  obtain ⟨u1, u2, u3, u4⟩ := h
  simp only [GetStaffResponse.field, u1, u2, u3, u4, Bool.false_eq_true, if_false]

theorem GetStaffResponse_members (fs : List String) (ms : List (List Char × JSON)) :
    ∀ cur x : GetStaffResponse, shapeOK ["login_company_code", "Count", "TotalCount", "staffs"] ms = true →
    FieldStep (decodeString (fs ++ ["login_company_code"])) (memberOf "login_company_code" ms)
      cur.LoginCompanyCode x.LoginCompanyCode →
    FieldStep (decodeInt (fs ++ ["Count"])) (memberOf "Count" ms)
      cur.Count x.Count →
    FieldStep (decodeInt (fs ++ ["TotalCount"])) (memberOf "TotalCount" ms)
      cur.TotalCount x.TotalCount →
    FieldStep (decodeSlice (decodeStruct Staff.field) Staff.zero (fs ++ ["staffs"])) (memberOf "staffs" ms)
      cur.Staffs x.Staffs →
    decodeMembers (GetStaffResponse.field fs) ms (Decoded.ok cur) = Decoded.ok x := by
  induction ms with
  | nil =>
    intro cur x _ h1 h2 h3 h4
    obtain ⟨a1, a2, a3, a4⟩ := cur
    obtain ⟨b1, b2, b3, b4⟩ := x
    simp only [FieldStep, memberOf] at h1 h2 h3 h4
    simp only [decodeMembers, h1, h2, h3, h4]
  | cons kv rest ih =>
    intro cur x hs h1 h2 h3 h4
    obtain ⟨k, v⟩ := kv
    simp only [shapeOK, Bool.and_eq_true, Bool.or_eq_true] at hs
    obtain ⟨hkv, hrest⟩ := hs
    simp only [decodeMembers, andThen_ok]
    rcases hkv with ⟨hk, hlater⟩ | hunk
    · simp only [List.any_cons, List.any_nil, Bool.or_false, Bool.or_eq_true,
        decide_eq_true_eq] at hk
      rcases hk with hk | hk | hk | hk
      · have e : k = "login_company_code".data := hk
        subst e
        rw [memberOf_cons_self] at h1
        rw [memberOf_cons_ne _ _ _ _ (by decide)] at h2
        rw [memberOf_cons_ne _ _ _ _ (by decide)] at h3
        rw [memberOf_cons_ne _ _ _ _ (by decide)] at h4
        rw [GetStaffResponse_field_login_company_code, show _ = _ from h1, map_ok]
        exact ih _ x hrest (by rw [memberOf_none_of_all _ _ hlater]; rfl) h2 h3 h4
      · have e : k = "Count".data := hk
        subst e
        rw [memberOf_cons_ne _ _ _ _ (by decide)] at h1
        rw [memberOf_cons_self] at h2
        rw [memberOf_cons_ne _ _ _ _ (by decide)] at h3
        rw [memberOf_cons_ne _ _ _ _ (by decide)] at h4
        rw [GetStaffResponse_field_Count, show _ = _ from h2, map_ok]
        exact ih _ x hrest h1 (by rw [memberOf_none_of_all _ _ hlater]; rfl) h3 h4
      · have e : k = "TotalCount".data := hk
        subst e
        rw [memberOf_cons_ne _ _ _ _ (by decide)] at h1
        rw [memberOf_cons_ne _ _ _ _ (by decide)] at h2
        rw [memberOf_cons_self] at h3
        rw [memberOf_cons_ne _ _ _ _ (by decide)] at h4
        rw [GetStaffResponse_field_TotalCount, show _ = _ from h3, map_ok]
        exact ih _ x hrest h1 h2 (by rw [memberOf_none_of_all _ _ hlater]; rfl) h4
      · have e : k = "staffs".data := hk
        subst e
        rw [memberOf_cons_ne _ _ _ _ (by decide)] at h1
        rw [memberOf_cons_ne _ _ _ _ (by decide)] at h2
        rw [memberOf_cons_ne _ _ _ _ (by decide)] at h3
        rw [memberOf_cons_self] at h4
        rw [GetStaffResponse_field_staffs, show _ = _ from h4, map_ok]
        exact ih _ x hrest h1 h2 h3 (by rw [memberOf_none_of_all _ _ hlater]; rfl)
    · rw [GetStaffResponse_field_unknown fs k v cur hunk]
      simp only [List.all_cons, List.all_nil, Bool.and_true, Bool.and_eq_true,
        Bool.not_eq_true'] at hunk
      obtain ⟨u1, u2, u3, u4⟩ := hunk
      rw [memberOf_cons_ne _ _ _ _ (keyIs_self_of_unknown _ _ (by decide) u1)] at h1
      rw [memberOf_cons_ne _ _ _ _ (keyIs_self_of_unknown _ _ (by decide) u2)] at h2
      rw [memberOf_cons_ne _ _ _ _ (keyIs_self_of_unknown _ _ (by decide) u3)] at h3
      rw [memberOf_cons_ne _ _ _ _ (keyIs_self_of_unknown _ _ (by decide) u4)] at h4
      exact ih cur x hrest h1 h2 h3 h4

theorem decode_IsGetStaffResponse (fs : List String) (j : JSON) (o : GetStaffResponse)
    (h : IsGetStaffResponse j o) :
    decodeStruct GetStaffResponse.field fs j GetStaffResponse.zero = Decoded.ok o := by
  obtain ⟨ms, rfl, hs, h1, h2, h3, h4⟩ := h
  exact GetStaffResponse_members fs ms GetStaffResponse.zero o hs
    (FieldIs_step _ _ _ _ _ (fun j a => decodeString_IsString _ j a _) h1)
    (FieldIs_step _ _ _ _ _ (fun j a => decodeInt_IsInt _ j a _) h2)
    (FieldIs_step _ _ _ _ _ (fun j a => decodeInt_IsInt _ j a _) h3)
    (FieldIs_step _ _ _ _ _ (fun j a => decodeSlice_IsSlice IsStaff (decodeStruct Staff.field) Staff.zero _
      (fun j a => decode_IsStaff _ j a) j a) h4)

theorem StampAttribute_field_method (f : Float32Impl) (fs : List String) (v : JSON) (o : StampAttribute f) :
    StampAttribute.field f fs "method".data v o =
      (decodeInt (fs ++ ["method"]) v o.Method).map
        (fun x => { o with Method := x }) := rfl

theorem StampAttribute_field_org_id (f : Float32Impl) (fs : List String) (v : JSON) (o : StampAttribute f) :
    StampAttribute.field f fs "org_id".data v o =
      (decodeInt (fs ++ ["org_id"]) v o.OrgID).map
        (fun x => { o with OrgID := x }) := rfl

theorem StampAttribute_field_workplace_id (f : Float32Impl) (fs : List String) (v : JSON) (o : StampAttribute f) :
    StampAttribute.field f fs "workplace_id".data v o =
      (decodeInt (fs ++ ["workplace_id"]) v o.WorkplaceID).map
        (fun x => { o with WorkplaceID := x }) := rfl

theorem StampAttribute_field_latitude (f : Float32Impl) (fs : List String) (v : JSON) (o : StampAttribute f) :
    StampAttribute.field f fs "latitude".data v o =
      (decodeFloat32 f (fs ++ ["latitude"]) v o.Latitude).map
        (fun x => { o with Latitude := x }) := rfl

theorem StampAttribute_field_longitude (f : Float32Impl) (fs : List String) (v : JSON) (o : StampAttribute f) :
    StampAttribute.field f fs "longitude".data v o =
      (decodeFloat32 f (fs ++ ["longitude"]) v o.Longitude).map
        (fun x => { o with Longitude := x }) := rfl

theorem StampAttribute_field_ip (f : Float32Impl) (fs : List String) (v : JSON) (o : StampAttribute f) :
    StampAttribute.field f fs "ip".data v o =
      (decodeString (fs ++ ["ip"]) v o.IP).map
        (fun x => { o with IP := x }) := rfl

theorem StampAttribute_field_unknown (f : Float32Impl) (fs : List String) (k : List Char) (v : JSON)
    (o : StampAttribute f)
    (h : (["method", "org_id", "workplace_id", "latitude", "longitude", "ip"].all (fun t => !keyIs k t)) = true) :
    StampAttribute.field f fs k v o = Decoded.ok o := by
  simp only [List.all_cons, List.all_nil, Bool.and_true, Bool.and_eq_true,
    Bool.not_eq_true'] at h
  obtain ⟨u1, u2, u3, u4, u5, u6⟩ := h
  simp only [StampAttribute.field, u1, u2, u3, u4, u5, u6, Bool.false_eq_true, if_false]

theorem StampAttribute_members (f : Float32Impl) (fs : List String) (ms : List (List Char × JSON)) :
    ∀ cur x : StampAttribute f, shapeOK ["method", "org_id", "workplace_id", "latitude", "longitude", "ip"] ms = true →
    FieldStep (decodeInt (fs ++ ["method"])) (memberOf "method" ms)
      cur.Method x.Method →
    FieldStep (decodeInt (fs ++ ["org_id"])) (memberOf "org_id" ms)
      cur.OrgID x.OrgID →
    FieldStep (decodeInt (fs ++ ["workplace_id"])) (memberOf "workplace_id" ms)
      cur.WorkplaceID x.WorkplaceID →
    FieldStep (decodeFloat32 f (fs ++ ["latitude"])) (memberOf "latitude" ms)
      cur.Latitude x.Latitude →
    FieldStep (decodeFloat32 f (fs ++ ["longitude"])) (memberOf "longitude" ms)
      cur.Longitude x.Longitude →
    FieldStep (decodeString (fs ++ ["ip"])) (memberOf "ip" ms)
      cur.IP x.IP →
    decodeMembers (StampAttribute.field f fs) ms (Decoded.ok cur) = Decoded.ok x := by
  induction ms with
  | nil =>
    intro cur x _ h1 h2 h3 h4 h5 h6
    obtain ⟨a1, a2, a3, a4, a5, a6⟩ := cur
    obtain ⟨b1, b2, b3, b4, b5, b6⟩ := x
    simp only [FieldStep, memberOf] at h1 h2 h3 h4 h5 h6
    simp only [decodeMembers, h1, h2, h3, h4, h5, h6]
  | cons kv rest ih =>
    intro cur x hs h1 h2 h3 h4 h5 h6
    obtain ⟨k, v⟩ := kv
    simp only [shapeOK, Bool.and_eq_true, Bool.or_eq_true] at hs
    obtain ⟨hkv, hrest⟩ := hs
    simp only [decodeMembers, andThen_ok]
    rcases hkv with ⟨hk, hlater⟩ | hunk
    · simp only [List.any_cons, List.any_nil, Bool.or_false, Bool.or_eq_true,
        decide_eq_true_eq] at hk
      rcases hk with hk | hk | hk | hk | hk | hk
      · have e : k = "method".data := hk
        subst e
        rw [memberOf_cons_self] at h1
        rw [memberOf_cons_ne _ _ _ _ (by decide)] at h2
        rw [memberOf_cons_ne _ _ _ _ (by decide)] at h3
        rw [memberOf_cons_ne _ _ _ _ (by decide)] at h4
        rw [memberOf_cons_ne _ _ _ _ (by decide)] at h5
        rw [memberOf_cons_ne _ _ _ _ (by decide)] at h6
        rw [StampAttribute_field_method, show _ = _ from h1, map_ok]
        exact ih _ x hrest (by rw [memberOf_none_of_all _ _ hlater]; rfl) h2 h3 h4 h5 h6
      · have e : k = "org_id".data := hk
        subst e
        rw [memberOf_cons_ne _ _ _ _ (by decide)] at h1
        rw [memberOf_cons_self] at h2
        rw [memberOf_cons_ne _ _ _ _ (by decide)] at h3
        rw [memberOf_cons_ne _ _ _ _ (by decide)] at h4
        rw [memberOf_cons_ne _ _ _ _ (by decide)] at h5
        rw [memberOf_cons_ne _ _ _ _ (by decide)] at h6
        rw [StampAttribute_field_org_id, show _ = _ from h2, map_ok]
        exact ih _ x hrest h1 (by rw [memberOf_none_of_all _ _ hlater]; rfl) h3 h4 h5 h6
      · have e : k = "workplace_id".data := hk
        subst e
        rw [memberOf_cons_ne _ _ _ _ (by decide)] at h1
        rw [memberOf_cons_ne _ _ _ _ (by decide)] at h2
        rw [memberOf_cons_self] at h3
        rw [memberOf_cons_ne _ _ _ _ (by decide)] at h4
        rw [memberOf_cons_ne _ _ _ _ (by decide)] at h5
        rw [memberOf_cons_ne _ _ _ _ (by decide)] at h6
        rw [StampAttribute_field_workplace_id, show _ = _ from h3, map_ok]
        exact ih _ x hrest h1 h2 (by rw [memberOf_none_of_all _ _ hlater]; rfl) h4 h5 h6
      · have e : k = "latitude".data := hk
        subst e
        rw [memberOf_cons_ne _ _ _ _ (by decide)] at h1
        rw [memberOf_cons_ne _ _ _ _ (by decide)] at h2
        rw [memberOf_cons_ne _ _ _ _ (by decide)] at h3
        rw [memberOf_cons_self] at h4
        rw [memberOf_cons_ne _ _ _ _ (by decide)] at h5
        rw [memberOf_cons_ne _ _ _ _ (by decide)] at h6
        rw [StampAttribute_field_latitude, show _ = _ from h4, map_ok]
        exact ih _ x hrest h1 h2 h3 (by rw [memberOf_none_of_all _ _ hlater]; rfl) h5 h6
      · have e : k = "longitude".data := hk
        subst e
        rw [memberOf_cons_ne _ _ _ _ (by decide)] at h1
        rw [memberOf_cons_ne _ _ _ _ (by decide)] at h2
        rw [memberOf_cons_ne _ _ _ _ (by decide)] at h3
        rw [memberOf_cons_ne _ _ _ _ (by decide)] at h4
        rw [memberOf_cons_self] at h5
        rw [memberOf_cons_ne _ _ _ _ (by decide)] at h6
        rw [StampAttribute_field_longitude, show _ = _ from h5, map_ok]
        exact ih _ x hrest h1 h2 h3 h4 (by rw [memberOf_none_of_all _ _ hlater]; rfl) h6
      · have e : k = "ip".data := hk
        subst e
        rw [memberOf_cons_ne _ _ _ _ (by decide)] at h1
        rw [memberOf_cons_ne _ _ _ _ (by decide)] at h2
        rw [memberOf_cons_ne _ _ _ _ (by decide)] at h3
        rw [memberOf_cons_ne _ _ _ _ (by decide)] at h4
        rw [memberOf_cons_ne _ _ _ _ (by decide)] at h5
        rw [memberOf_cons_self] at h6
        rw [StampAttribute_field_ip, show _ = _ from h6, map_ok]
        exact ih _ x hrest h1 h2 h3 h4 h5 (by rw [memberOf_none_of_all _ _ hlater]; rfl)
    · rw [StampAttribute_field_unknown f fs k v cur hunk]
      simp only [List.all_cons, List.all_nil, Bool.and_true, Bool.and_eq_true,
        Bool.not_eq_true'] at hunk
      obtain ⟨u1, u2, u3, u4, u5, u6⟩ := hunk
      rw [memberOf_cons_ne _ _ _ _ (keyIs_self_of_unknown _ _ (by decide) u1)] at h1
      rw [memberOf_cons_ne _ _ _ _ (keyIs_self_of_unknown _ _ (by decide) u2)] at h2
      rw [memberOf_cons_ne _ _ _ _ (keyIs_self_of_unknown _ _ (by decide) u3)] at h3
      rw [memberOf_cons_ne _ _ _ _ (keyIs_self_of_unknown _ _ (by decide) u4)] at h4
      rw [memberOf_cons_ne _ _ _ _ (keyIs_self_of_unknown _ _ (by decide) u5)] at h5
      rw [memberOf_cons_ne _ _ _ _ (keyIs_self_of_unknown _ _ (by decide) u6)] at h6
      exact ih cur x hrest h1 h2 h3 h4 h5 h6

theorem decode_IsStampAttribute (f : Float32Impl) (fs : List String) (j : JSON) (o : StampAttribute f)
    (h : IsStampAttribute f j o) :
    decodeStruct (StampAttribute.field f) fs j (StampAttribute.zero f) = Decoded.ok o := by
  obtain ⟨ms, rfl, hs, h1, h2, h3, h4, h5, h6⟩ := h
  exact StampAttribute_members f fs ms (StampAttribute.zero f) o hs
    (FieldIs_step _ _ _ _ _ (fun j a => decodeInt_IsInt _ j a _) h1)
    (FieldIs_step _ _ _ _ _ (fun j a => decodeInt_IsInt _ j a _) h2)
    (FieldIs_step _ _ _ _ _ (fun j a => decodeInt_IsInt _ j a _) h3)
    (FieldIs_step _ _ _ _ _ (fun j a => decodeFloat32_IsFloat f _ j a _) h4)
    (FieldIs_step _ _ _ _ _ (fun j a => decodeFloat32_IsFloat f _ j a _) h5)
    (FieldIs_step _ _ _ _ _ (fun j a => decodeString_IsString _ j a _) h6)

theorem Stamp_field_stamped_at (f : Float32Impl) (fs : List String) (v : JSON) (o : Stamp f) :
    Stamp.field f fs "stamped_at".data v o =
      (decodeAkTimePtr (fs ++ ["stamped_at"]) v o.StampedAt).map
        (fun x => { o with StampedAt := x }) := rfl

theorem Stamp_field_type (f : Float32Impl) (fs : List String) (v : JSON) (o : Stamp f) :
    Stamp.field f fs "type".data v o =
      (decodeInt (fs ++ ["type"]) v o.Type').map
        (fun x => { o with Type' := x }) := rfl

theorem Stamp_field_local_time (f : Float32Impl) (fs : List String) (v : JSON) (o : Stamp f) :
    Stamp.field f fs "local_time".data v o =
      (decodeAkTimePtr (fs ++ ["local_time"]) v o.LocalTime).map
        (fun x => { o with LocalTime := x }) := rfl

theorem Stamp_field_timezone (f : Float32Impl) (fs : List String) (v : JSON) (o : Stamp f) :
    Stamp.field f fs "timezone".data v o =
      (decodeString (fs ++ ["timezone"]) v o.Timezone).map
        (fun x => { o with Timezone := x }) := rfl

theorem Stamp_field_attributes (f : Float32Impl) (fs : List String) (v : JSON) (o : Stamp f) :
    Stamp.field f fs "attributes".data v o =
      (decodeStruct (StampAttribute.field f) (fs ++ ["attributes"]) v o.Attributes).map
        (fun x => { o with Attributes := x }) := rfl

theorem Stamp_field_unknown (f : Float32Impl) (fs : List String) (k : List Char) (v : JSON)
    (o : Stamp f)
    (h : (["stamped_at", "type", "local_time", "timezone", "attributes"].all (fun t => !keyIs k t)) = true) :
    Stamp.field f fs k v o = Decoded.ok o := by
  simp only [List.all_cons, List.all_nil, Bool.and_true, Bool.and_eq_true,
    Bool.not_eq_true'] at h
  obtain ⟨u1, u2, u3, u4, u5⟩ := h
  simp only [Stamp.field, u1, u2, u3, u4, u5, Bool.false_eq_true, if_false]

theorem Stamp_members (f : Float32Impl) (fs : List String) (ms : List (List Char × JSON)) :
    ∀ cur x : Stamp f, shapeOK ["stamped_at", "type", "local_time", "timezone", "attributes"] ms = true →
    FieldStep (decodeAkTimePtr (fs ++ ["stamped_at"])) (memberOf "stamped_at" ms)
      cur.StampedAt x.StampedAt →
    FieldStep (decodeInt (fs ++ ["type"])) (memberOf "type" ms)
      cur.Type' x.Type' →
    FieldStep (decodeAkTimePtr (fs ++ ["local_time"])) (memberOf "local_time" ms)
      cur.LocalTime x.LocalTime →
    FieldStep (decodeString (fs ++ ["timezone"])) (memberOf "timezone" ms)
      cur.Timezone x.Timezone →
    FieldStep (decodeStruct (StampAttribute.field f) (fs ++ ["attributes"])) (memberOf "attributes" ms)
      cur.Attributes x.Attributes →
    decodeMembers (Stamp.field f fs) ms (Decoded.ok cur) = Decoded.ok x := by
  induction ms with
  | nil =>
    intro cur x _ h1 h2 h3 h4 h5
    obtain ⟨a1, a2, a3, a4, a5⟩ := cur
    obtain ⟨b1, b2, b3, b4, b5⟩ := x
    simp only [FieldStep, memberOf] at h1 h2 h3 h4 h5
    simp only [decodeMembers, h1, h2, h3, h4, h5]
  | cons kv rest ih =>
    intro cur x hs h1 h2 h3 h4 h5
    obtain ⟨k, v⟩ := kv
    simp only [shapeOK, Bool.and_eq_true, Bool.or_eq_true] at hs
    obtain ⟨hkv, hrest⟩ := hs
    simp only [decodeMembers, andThen_ok]
    rcases hkv with ⟨hk, hlater⟩ | hunk
    · simp only [List.any_cons, List.any_nil, Bool.or_false, Bool.or_eq_true,
        decide_eq_true_eq] at hk
      rcases hk with hk | hk | hk | hk | hk
      · have e : k = "stamped_at".data := hk
        subst e
        rw [memberOf_cons_self] at h1
        rw [memberOf_cons_ne _ _ _ _ (by decide)] at h2
        rw [memberOf_cons_ne _ _ _ _ (by decide)] at h3
        rw [memberOf_cons_ne _ _ _ _ (by decide)] at h4
        rw [memberOf_cons_ne _ _ _ _ (by decide)] at h5
        rw [Stamp_field_stamped_at, show _ = _ from h1, map_ok]
        exact ih _ x hrest (by rw [memberOf_none_of_all _ _ hlater]; rfl) h2 h3 h4 h5
      · have e : k = "type".data := hk
        subst e
        rw [memberOf_cons_ne _ _ _ _ (by decide)] at h1
        rw [memberOf_cons_self] at h2
        rw [memberOf_cons_ne _ _ _ _ (by decide)] at h3
        rw [memberOf_cons_ne _ _ _ _ (by decide)] at h4
        rw [memberOf_cons_ne _ _ _ _ (by decide)] at h5
        rw [Stamp_field_type, show _ = _ from h2, map_ok]
        exact ih _ x hrest h1 (by rw [memberOf_none_of_all _ _ hlater]; rfl) h3 h4 h5
      · have e : k = "local_time".data := hk
        subst e
        rw [memberOf_cons_ne _ _ _ _ (by decide)] at h1
        rw [memberOf_cons_ne _ _ _ _ (by decide)] at h2
        rw [memberOf_cons_self] at h3
        rw [memberOf_cons_ne _ _ _ _ (by decide)] at h4
        rw [memberOf_cons_ne _ _ _ _ (by decide)] at h5
        rw [Stamp_field_local_time, show _ = _ from h3, map_ok]
        exact ih _ x hrest h1 h2 (by rw [memberOf_none_of_all _ _ hlater]; rfl) h4 h5
      · have e : k = "timezone".data := hk
        subst e
        rw [memberOf_cons_ne _ _ _ _ (by decide)] at h1
        rw [memberOf_cons_ne _ _ _ _ (by decide)] at h2
        rw [memberOf_cons_ne _ _ _ _ (by decide)] at h3
        rw [memberOf_cons_self] at h4
        rw [memberOf_cons_ne _ _ _ _ (by decide)] at h5
        rw [Stamp_field_timezone, show _ = _ from h4, map_ok]
        exact ih _ x hrest h1 h2 h3 (by rw [memberOf_none_of_all _ _ hlater]; rfl) h5
      · have e : k = "attributes".data := hk
        subst e
        rw [memberOf_cons_ne _ _ _ _ (by decide)] at h1
        rw [memberOf_cons_ne _ _ _ _ (by decide)] at h2
        rw [memberOf_cons_ne _ _ _ _ (by decide)] at h3
        rw [memberOf_cons_ne _ _ _ _ (by decide)] at h4
        rw [memberOf_cons_self] at h5
        rw [Stamp_field_attributes, show _ = _ from h5, map_ok]
        exact ih _ x hrest h1 h2 h3 h4 (by rw [memberOf_none_of_all _ _ hlater]; rfl)
    · rw [Stamp_field_unknown f fs k v cur hunk]
      simp only [List.all_cons, List.all_nil, Bool.and_true, Bool.and_eq_true,
        Bool.not_eq_true'] at hunk
      obtain ⟨u1, u2, u3, u4, u5⟩ := hunk
      rw [memberOf_cons_ne _ _ _ _ (keyIs_self_of_unknown _ _ (by decide) u1)] at h1
      rw [memberOf_cons_ne _ _ _ _ (keyIs_self_of_unknown _ _ (by decide) u2)] at h2
      rw [memberOf_cons_ne _ _ _ _ (keyIs_self_of_unknown _ _ (by decide) u3)] at h3
      rw [memberOf_cons_ne _ _ _ _ (keyIs_self_of_unknown _ _ (by decide) u4)] at h4
      rw [memberOf_cons_ne _ _ _ _ (keyIs_self_of_unknown _ _ (by decide) u5)] at h5
      exact ih cur x hrest h1 h2 h3 h4 h5

theorem decode_IsStamp (f : Float32Impl) (fs : List String) (j : JSON) (o : Stamp f)
    (h : IsStamp f j o) :
    decodeStruct (Stamp.field f) fs j (Stamp.zero f) = Decoded.ok o := by
  obtain ⟨ms, rfl, hs, h1, h2, h3, h4, h5⟩ := h
  exact Stamp_members f fs ms (Stamp.zero f) o hs
    (FieldIs_step _ _ _ _ _ (fun j a => decodeAkTimePtr_IsTime _ j a _) h1)
    (FieldIs_step _ _ _ _ _ (fun j a => decodeInt_IsInt _ j a _) h2)
    (FieldIs_step _ _ _ _ _ (fun j a => decodeAkTimePtr_IsTime _ j a _) h3)
    (FieldIs_step _ _ _ _ _ (fun j a => decodeString_IsString _ j a _) h4)
    (FieldIs_step _ _ _ _ _ (fun j a => decode_IsStampAttribute f _ j a) h5)

theorem GetStampResponse_field_login_company_code (f : Float32Impl) (fs : List String) (v : JSON) (o : GetStampResponse f) :
    GetStampResponse.field f fs "login_company_code".data v o =
      (decodeString (fs ++ ["login_company_code"]) v o.LoginCompanyCode).map
        (fun x => { o with LoginCompanyCode := x }) := rfl

theorem GetStampResponse_field_staff_id (f : Float32Impl) (fs : List String) (v : JSON) (o : GetStampResponse f) :
    GetStampResponse.field f fs "staff_id".data v o =
      (decodeInt (fs ++ ["staff_id"]) v o.StaffID).map
        (fun x => { o with StaffID := x }) := rfl

theorem GetStampResponse_field_count (f : Float32Impl) (fs : List String) (v : JSON) (o : GetStampResponse f) :
    GetStampResponse.field f fs "count".data v o =
      (decodeInt (fs ++ ["count"]) v o.Count).map
        (fun x => { o with Count := x }) := rfl

theorem GetStampResponse_field_stamps (f : Float32Impl) (fs : List String) (v : JSON) (o : GetStampResponse f) :
    GetStampResponse.field f fs "stamps".data v o =
      (decodeSlice (decodeStruct (Stamp.field f)) (Stamp.zero f) (fs ++ ["stamps"]) v o.Stamps).map
        (fun x => { o with Stamps := x }) := rfl

theorem GetStampResponse_field_unknown (f : Float32Impl) (fs : List String) (k : List Char) (v : JSON)
    (o : GetStampResponse f)
    (h : (["login_company_code", "staff_id", "count", "stamps"].all (fun t => !keyIs k t)) = true) :
    GetStampResponse.field f fs k v o = Decoded.ok o := by
  simp only [List.all_cons, List.all_nil, Bool.and_true, Bool.and_eq_true,
    Bool.not_eq_true'] at h
  obtain ⟨u1, u2, u3, u4⟩ := h
  simp only [GetStampResponse.field, u1, u2, u3, u4, Bool.false_eq_true, if_false]

theorem GetStampResponse_members (f : Float32Impl) (fs : List String) (ms : List (List Char × JSON)) :
    ∀ cur x : GetStampResponse f, shapeOK ["login_company_code", "staff_id", "count", "stamps"] ms = true →
    FieldStep (decodeString (fs ++ ["login_company_code"])) (memberOf "login_company_code" ms)
      cur.LoginCompanyCode x.LoginCompanyCode →
    FieldStep (decodeInt (fs ++ ["staff_id"])) (memberOf "staff_id" ms)
      cur.StaffID x.StaffID →
    FieldStep (decodeInt (fs ++ ["count"])) (memberOf "count" ms)
      cur.Count x.Count →
    FieldStep (decodeSlice (decodeStruct (Stamp.field f)) (Stamp.zero f) (fs ++ ["stamps"])) (memberOf "stamps" ms)
      cur.Stamps x.Stamps →
    decodeMembers (GetStampResponse.field f fs) ms (Decoded.ok cur) = Decoded.ok x := by
  induction ms with
  | nil =>
    intro cur x _ h1 h2 h3 h4
    obtain ⟨a1, a2, a3, a4⟩ := cur
    obtain ⟨b1, b2, b3, b4⟩ := x
    simp only [FieldStep, memberOf] at h1 h2 h3 h4
    simp only [decodeMembers, h1, h2, h3, h4]
  | cons kv rest ih =>
    intro cur x hs h1 h2 h3 h4
    obtain ⟨k, v⟩ := kv
    simp only [shapeOK, Bool.and_eq_true, Bool.or_eq_true] at hs
    obtain ⟨hkv, hrest⟩ := hs
    simp only [decodeMembers, andThen_ok]
    rcases hkv with ⟨hk, hlater⟩ | hunk
    · simp only [List.any_cons, List.any_nil, Bool.or_false, Bool.or_eq_true,
        decide_eq_true_eq] at hk
      rcases hk with hk | hk | hk | hk
      · have e : k = "login_company_code".data := hk
        subst e
        rw [memberOf_cons_self] at h1
        rw [memberOf_cons_ne _ _ _ _ (by decide)] at h2
        rw [memberOf_cons_ne _ _ _ _ (by decide)] at h3
        rw [memberOf_cons_ne _ _ _ _ (by decide)] at h4
        rw [GetStampResponse_field_login_company_code, show _ = _ from h1, map_ok]
        exact ih _ x hrest (by rw [memberOf_none_of_all _ _ hlater]; rfl) h2 h3 h4
      · have e : k = "staff_id".data := hk
        subst e
        rw [memberOf_cons_ne _ _ _ _ (by decide)] at h1
        rw [memberOf_cons_self] at h2
        rw [memberOf_cons_ne _ _ _ _ (by decide)] at h3
        rw [memberOf_cons_ne _ _ _ _ (by decide)] at h4
        rw [GetStampResponse_field_staff_id, show _ = _ from h2, map_ok]
        exact ih _ x hrest h1 (by rw [memberOf_none_of_all _ _ hlater]; rfl) h3 h4
      · have e : k = "count".data := hk
        subst e
        rw [memberOf_cons_ne _ _ _ _ (by decide)] at h1
        rw [memberOf_cons_ne _ _ _ _ (by decide)] at h2
        rw [memberOf_cons_self] at h3
        rw [memberOf_cons_ne _ _ _ _ (by decide)] at h4
        rw [GetStampResponse_field_count, show _ = _ from h3, map_ok]
        exact ih _ x hrest h1 h2 (by rw [memberOf_none_of_all _ _ hlater]; rfl) h4
      · have e : k = "stamps".data := hk
        subst e
        rw [memberOf_cons_ne _ _ _ _ (by decide)] at h1
        rw [memberOf_cons_ne _ _ _ _ (by decide)] at h2
        rw [memberOf_cons_ne _ _ _ _ (by decide)] at h3
        rw [memberOf_cons_self] at h4
        rw [GetStampResponse_field_stamps, show _ = _ from h4, map_ok]
        exact ih _ x hrest h1 h2 h3 (by rw [memberOf_none_of_all _ _ hlater]; rfl)
    · rw [GetStampResponse_field_unknown f fs k v cur hunk]
      simp only [List.all_cons, List.all_nil, Bool.and_true, Bool.and_eq_true,
        Bool.not_eq_true'] at hunk
      obtain ⟨u1, u2, u3, u4⟩ := hunk
      rw [memberOf_cons_ne _ _ _ _ (keyIs_self_of_unknown _ _ (by decide) u1)] at h1
      rw [memberOf_cons_ne _ _ _ _ (keyIs_self_of_unknown _ _ (by decide) u2)] at h2
      rw [memberOf_cons_ne _ _ _ _ (keyIs_self_of_unknown _ _ (by decide) u3)] at h3
      rw [memberOf_cons_ne _ _ _ _ (keyIs_self_of_unknown _ _ (by decide) u4)] at h4
      exact ih cur x hrest h1 h2 h3 h4

theorem decode_IsGetStampResponse (f : Float32Impl) (fs : List String) (j : JSON) (o : GetStampResponse f)
    (h : IsGetStampResponse f j o) :
    decodeStruct (GetStampResponse.field f) fs j (GetStampResponse.zero f) = Decoded.ok o := by
  obtain ⟨ms, rfl, hs, h1, h2, h3, h4⟩ := h
  exact GetStampResponse_members f fs ms (GetStampResponse.zero f) o hs
    (FieldIs_step _ _ _ _ _ (fun j a => decodeString_IsString _ j a _) h1)
    (FieldIs_step _ _ _ _ _ (fun j a => decodeInt_IsInt _ j a _) h2)
    (FieldIs_step _ _ _ _ _ (fun j a => decodeInt_IsInt _ j a _) h3)
    (FieldIs_step _ _ _ _ _ (fun j a => decodeSlice_IsSlice (IsStamp f) (decodeStruct (Stamp.field f)) (Stamp.zero f) _
      (fun j a => decode_IsStamp f _ j a) j a) h4)

theorem PostStampResponse_field_login_company_code (fs : List String) (v : JSON) (o : PostStampResponse) :
    PostStampResponse.field fs "login_company_code".data v o =
      (decodeString (fs ++ ["login_company_code"]) v o.LoginCompanyCode).map
        (fun x => { o with LoginCompanyCode := x }) := rfl

theorem PostStampResponse_field_staff_id (fs : List String) (v : JSON) (o : PostStampResponse) :
    PostStampResponse.field fs "staff_id".data v o =
      (decodeInt (fs ++ ["staff_id"]) v o.StaffID).map
        (fun x => { o with StaffID := x }) := rfl

theorem PostStampResponse_field_type (fs : List String) (v : JSON) (o : PostStampResponse) :
    PostStampResponse.field fs "type".data v o =
      (decodeInt (fs ++ ["type"]) v o.Type').map
        (fun x => { o with Type' := x }) := rfl

theorem PostStampResponse_field_stampedAt (fs : List String) (v : JSON) (o : PostStampResponse) :
    PostStampResponse.field fs "stampedAt".data v o =
      (decodeAkTimePtr (fs ++ ["stampedAt"]) v o.StampedAt).map
        (fun x => { o with StampedAt := x }) := rfl

theorem PostStampResponse_field_unknown (fs : List String) (k : List Char) (v : JSON)
    (o : PostStampResponse)
    (h : (["login_company_code", "staff_id", "type", "stampedAt"].all (fun t => !keyIs k t)) = true) :
    PostStampResponse.field fs k v o = Decoded.ok o := by
  simp only [List.all_cons, List.all_nil, Bool.and_true, Bool.and_eq_true,
    Bool.not_eq_true'] at h
  obtain ⟨u1, u2, u3, u4⟩ := h
  simp only [PostStampResponse.field, u1, u2, u3, u4, Bool.false_eq_true, if_false]

theorem PostStampResponse_members (fs : List String) (ms : List (List Char × JSON)) :
    ∀ cur x : PostStampResponse, shapeOK ["login_company_code", "staff_id", "type", "stampedAt"] ms = true →
    FieldStep (decodeString (fs ++ ["login_company_code"])) (memberOf "login_company_code" ms)
      cur.LoginCompanyCode x.LoginCompanyCode →
    FieldStep (decodeInt (fs ++ ["staff_id"])) (memberOf "staff_id" ms)
      cur.StaffID x.StaffID →
    FieldStep (decodeInt (fs ++ ["type"])) (memberOf "type" ms)
      cur.Type' x.Type' →
    FieldStep (decodeAkTimePtr (fs ++ ["stampedAt"])) (memberOf "stampedAt" ms)
      cur.StampedAt x.StampedAt →
    decodeMembers (PostStampResponse.field fs) ms (Decoded.ok cur) = Decoded.ok x := by
  induction ms with
  | nil =>
    intro cur x _ h1 h2 h3 h4
    obtain ⟨a1, a2, a3, a4⟩ := cur
    obtain ⟨b1, b2, b3, b4⟩ := x
    simp only [FieldStep, memberOf] at h1 h2 h3 h4
    simp only [decodeMembers, h1, h2, h3, h4]
  | cons kv rest ih =>
    intro cur x hs h1 h2 h3 h4
    obtain ⟨k, v⟩ := kv
    simp only [shapeOK, Bool.and_eq_true, Bool.or_eq_true] at hs
    obtain ⟨hkv, hrest⟩ := hs
    simp only [decodeMembers, andThen_ok]
    rcases hkv with ⟨hk, hlater⟩ | hunk
    · simp only [List.any_cons, List.any_nil, Bool.or_false, Bool.or_eq_true,
        decide_eq_true_eq] at hk
      rcases hk with hk | hk | hk | hk
      · have e : k = "login_company_code".data := hk
        subst e
        rw [memberOf_cons_self] at h1
        rw [memberOf_cons_ne _ _ _ _ (by decide)] at h2
        rw [memberOf_cons_ne _ _ _ _ (by decide)] at h3
        rw [memberOf_cons_ne _ _ _ _ (by decide)] at h4
        rw [PostStampResponse_field_login_company_code, show _ = _ from h1, map_ok]
        exact ih _ x hrest (by rw [memberOf_none_of_all _ _ hlater]; rfl) h2 h3 h4
      · have e : k = "staff_id".data := hk
        subst e
        rw [memberOf_cons_ne _ _ _ _ (by decide)] at h1
        rw [memberOf_cons_self] at h2
        rw [memberOf_cons_ne _ _ _ _ (by decide)] at h3
        rw [memberOf_cons_ne _ _ _ _ (by decide)] at h4
        rw [PostStampResponse_field_staff_id, show _ = _ from h2, map_ok]
        exact ih _ x hrest h1 (by rw [memberOf_none_of_all _ _ hlater]; rfl) h3 h4
      · have e : k = "type".data := hk
        subst e
        rw [memberOf_cons_ne _ _ _ _ (by decide)] at h1
        rw [memberOf_cons_ne _ _ _ _ (by decide)] at h2
        rw [memberOf_cons_self] at h3
        rw [memberOf_cons_ne _ _ _ _ (by decide)] at h4
        rw [PostStampResponse_field_type, show _ = _ from h3, map_ok]
        exact ih _ x hrest h1 h2 (by rw [memberOf_none_of_all _ _ hlater]; rfl) h4
      · have e : k = "stampedAt".data := hk
        subst e
        rw [memberOf_cons_ne _ _ _ _ (by decide)] at h1
        rw [memberOf_cons_ne _ _ _ _ (by decide)] at h2
        rw [memberOf_cons_ne _ _ _ _ (by decide)] at h3
        rw [memberOf_cons_self] at h4
        rw [PostStampResponse_field_stampedAt, show _ = _ from h4, map_ok]
        exact ih _ x hrest h1 h2 h3 (by rw [memberOf_none_of_all _ _ hlater]; rfl)
    · rw [PostStampResponse_field_unknown fs k v cur hunk]
      simp only [List.all_cons, List.all_nil, Bool.and_true, Bool.and_eq_true,
        Bool.not_eq_true'] at hunk
      obtain ⟨u1, u2, u3, u4⟩ := hunk
      rw [memberOf_cons_ne _ _ _ _ (keyIs_self_of_unknown _ _ (by decide) u1)] at h1
      rw [memberOf_cons_ne _ _ _ _ (keyIs_self_of_unknown _ _ (by decide) u2)] at h2
      rw [memberOf_cons_ne _ _ _ _ (keyIs_self_of_unknown _ _ (by decide) u3)] at h3
      rw [memberOf_cons_ne _ _ _ _ (keyIs_self_of_unknown _ _ (by decide) u4)] at h4
      exact ih cur x hrest h1 h2 h3 h4

theorem decode_IsPostStampResponse (fs : List String) (j : JSON) (o : PostStampResponse)
    (h : IsPostStampResponse j o) :
    decodeStruct PostStampResponse.field fs j PostStampResponse.zero = Decoded.ok o := by
  obtain ⟨ms, rfl, hs, h1, h2, h3, h4⟩ := h
  exact PostStampResponse_members fs ms PostStampResponse.zero o hs
    (FieldIs_step _ _ _ _ _ (fun j a => decodeString_IsString _ j a _) h1)
    (FieldIs_step _ _ _ _ _ (fun j a => decodeInt_IsInt _ j a _) h2)
    (FieldIs_step _ _ _ _ _ (fun j a => decodeInt_IsInt _ j a _) h3)
    (FieldIs_step _ _ _ _ _ (fun j a => decodeAkTimePtr_IsTime _ j a _) h4)

theorem PostTokenReissueResponse_field_login_company_code (fs : List String) (v : JSON) (o : PostTokenReissueResponse) :
    PostTokenReissueResponse.field fs "login_company_code".data v o =
      (decodeString (fs ++ ["login_company_code"]) v o.LoginCompanyCode).map
        (fun x => { o with LoginCompanyCode := x }) := rfl

theorem PostTokenReissueResponse_field_staff_id (fs : List String) (v : JSON) (o : PostTokenReissueResponse) :
    PostTokenReissueResponse.field fs "staff_id".data v o =
      (decodeInt (fs ++ ["staff_id"]) v o.StaffId).map
        (fun x => { o with StaffId := x }) := rfl

theorem PostTokenReissueResponse_field_agency_manager_id (fs : List String) (v : JSON) (o : PostTokenReissueResponse) :
    PostTokenReissueResponse.field fs "agency_manager_id".data v o =
      (decodeInt (fs ++ ["agency_manager_id"]) v o.AgencyManagerId).map
        (fun x => { o with AgencyManagerId := x }) := rfl

theorem PostTokenReissueResponse_field_token (fs : List String) (v : JSON) (o : PostTokenReissueResponse) :
    PostTokenReissueResponse.field fs "token".data v o =
      (decodeString (fs ++ ["token"]) v o.Token).map
        (fun x => { o with Token := x }) := rfl

theorem PostTokenReissueResponse_field_expired_at (fs : List String) (v : JSON) (o : PostTokenReissueResponse) :
    PostTokenReissueResponse.field fs "expired_at".data v o =
      (decodeAkTimePtr (fs ++ ["expired_at"]) v o.ExpiredAt).map
        (fun x => { o with ExpiredAt := x }) := rfl

theorem PostTokenReissueResponse_field_unknown (fs : List String) (k : List Char) (v : JSON)
    (o : PostTokenReissueResponse)
    (h : (["login_company_code", "staff_id", "agency_manager_id", "token", "expired_at"].all (fun t => !keyIs k t)) = true) :
    PostTokenReissueResponse.field fs k v o = Decoded.ok o := by
  simp only [List.all_cons, List.all_nil, Bool.and_true, Bool.and_eq_true,
    Bool.not_eq_true'] at h
  obtain ⟨u1, u2, u3, u4, u5⟩ := h
  simp only [PostTokenReissueResponse.field, u1, u2, u3, u4, u5, Bool.false_eq_true, if_false]

theorem PostTokenReissueResponse_members (fs : List String) (ms : List (List Char × JSON)) :
    ∀ cur x : PostTokenReissueResponse, shapeOK ["login_company_code", "staff_id", "agency_manager_id", "token", "expired_at"] ms = true →
    FieldStep (decodeString (fs ++ ["login_company_code"])) (memberOf "login_company_code" ms)
      cur.LoginCompanyCode x.LoginCompanyCode →
    FieldStep (decodeInt (fs ++ ["staff_id"])) (memberOf "staff_id" ms)
      cur.StaffId x.StaffId →
    FieldStep (decodeInt (fs ++ ["agency_manager_id"])) (memberOf "agency_manager_id" ms)
      cur.AgencyManagerId x.AgencyManagerId →
    FieldStep (decodeString (fs ++ ["token"])) (memberOf "token" ms)
      cur.Token x.Token →
    FieldStep (decodeAkTimePtr (fs ++ ["expired_at"])) (memberOf "expired_at" ms)
      cur.ExpiredAt x.ExpiredAt →
    decodeMembers (PostTokenReissueResponse.field fs) ms (Decoded.ok cur) = Decoded.ok x := by
  induction ms with
  | nil =>
    intro cur x _ h1 h2 h3 h4 h5
    obtain ⟨a1, a2, a3, a4, a5⟩ := cur
    obtain ⟨b1, b2, b3, b4, b5⟩ := x
    simp only [FieldStep, memberOf] at h1 h2 h3 h4 h5
    simp only [decodeMembers, h1, h2, h3, h4, h5]
  | cons kv rest ih =>
    intro cur x hs h1 h2 h3 h4 h5
    obtain ⟨k, v⟩ := kv
    simp only [shapeOK, Bool.and_eq_true, Bool.or_eq_true] at hs
    obtain ⟨hkv, hrest⟩ := hs
    simp only [decodeMembers, andThen_ok]
    rcases hkv with ⟨hk, hlater⟩ | hunk
    · simp only [List.any_cons, List.any_nil, Bool.or_false, Bool.or_eq_true,
        decide_eq_true_eq] at hk
      rcases hk with hk | hk | hk | hk | hk
      · have e : k = "login_company_code".data := hk
        subst e
        rw [memberOf_cons_self] at h1
        rw [memberOf_cons_ne _ _ _ _ (by decide)] at h2
        rw [memberOf_cons_ne _ _ _ _ (by decide)] at h3
        rw [memberOf_cons_ne _ _ _ _ (by decide)] at h4
        rw [memberOf_cons_ne _ _ _ _ (by decide)] at h5
        rw [PostTokenReissueResponse_field_login_company_code, show _ = _ from h1, map_ok]
        exact ih _ x hrest (by rw [memberOf_none_of_all _ _ hlater]; rfl) h2 h3 h4 h5
      · have e : k = "staff_id".data := hk
        subst e
        rw [memberOf_cons_ne _ _ _ _ (by decide)] at h1
        rw [memberOf_cons_self] at h2
        rw [memberOf_cons_ne _ _ _ _ (by decide)] at h3
        rw [memberOf_cons_ne _ _ _ _ (by decide)] at h4
        rw [memberOf_cons_ne _ _ _ _ (by decide)] at h5
        rw [PostTokenReissueResponse_field_staff_id, show _ = _ from h2, map_ok]
        exact ih _ x hrest h1 (by rw [memberOf_none_of_all _ _ hlater]; rfl) h3 h4 h5
      · have e : k = "agency_manager_id".data := hk
        subst e
        rw [memberOf_cons_ne _ _ _ _ (by decide)] at h1
        rw [memberOf_cons_ne _ _ _ _ (by decide)] at h2
        rw [memberOf_cons_self] at h3
        rw [memberOf_cons_ne _ _ _ _ (by decide)] at h4
        rw [memberOf_cons_ne _ _ _ _ (by decide)] at h5
        rw [PostTokenReissueResponse_field_agency_manager_id, show _ = _ from h3, map_ok]
        exact ih _ x hrest h1 h2 (by rw [memberOf_none_of_all _ _ hlater]; rfl) h4 h5
      · have e : k = "token".data := hk
        subst e
        rw [memberOf_cons_ne _ _ _ _ (by decide)] at h1
        rw [memberOf_cons_ne _ _ _ _ (by decide)] at h2
        rw [memberOf_cons_ne _ _ _ _ (by decide)] at h3
        rw [memberOf_cons_self] at h4
        rw [memberOf_cons_ne _ _ _ _ (by decide)] at h5
        rw [PostTokenReissueResponse_field_token, show _ = _ from h4, map_ok]
        exact ih _ x hrest h1 h2 h3 (by rw [memberOf_none_of_all _ _ hlater]; rfl) h5
      · have e : k = "expired_at".data := hk
        subst e
        rw [memberOf_cons_ne _ _ _ _ (by decide)] at h1
        rw [memberOf_cons_ne _ _ _ _ (by decide)] at h2
        rw [memberOf_cons_ne _ _ _ _ (by decide)] at h3
        rw [memberOf_cons_ne _ _ _ _ (by decide)] at h4
        rw [memberOf_cons_self] at h5
        rw [PostTokenReissueResponse_field_expired_at, show _ = _ from h5, map_ok]
        exact ih _ x hrest h1 h2 h3 h4 (by rw [memberOf_none_of_all _ _ hlater]; rfl)
    · rw [PostTokenReissueResponse_field_unknown fs k v cur hunk]
      simp only [List.all_cons, List.all_nil, Bool.and_true, Bool.and_eq_true,
        Bool.not_eq_true'] at hunk
      obtain ⟨u1, u2, u3, u4, u5⟩ := hunk
      rw [memberOf_cons_ne _ _ _ _ (keyIs_self_of_unknown _ _ (by decide) u1)] at h1
      rw [memberOf_cons_ne _ _ _ _ (keyIs_self_of_unknown _ _ (by decide) u2)] at h2
      rw [memberOf_cons_ne _ _ _ _ (keyIs_self_of_unknown _ _ (by decide) u3)] at h3
      rw [memberOf_cons_ne _ _ _ _ (keyIs_self_of_unknown _ _ (by decide) u4)] at h4
      rw [memberOf_cons_ne _ _ _ _ (keyIs_self_of_unknown _ _ (by decide) u5)] at h5
      exact ih cur x hrest h1 h2 h3 h4 h5

theorem decode_IsPostTokenReissueResponse (fs : List String) (j : JSON) (o : PostTokenReissueResponse)
    (h : IsPostTokenReissueResponse j o) :
    decodeStruct PostTokenReissueResponse.field fs j PostTokenReissueResponse.zero = Decoded.ok o := by
  obtain ⟨ms, rfl, hs, h1, h2, h3, h4, h5⟩ := h
  exact PostTokenReissueResponse_members fs ms PostTokenReissueResponse.zero o hs
    (FieldIs_step _ _ _ _ _ (fun j a => decodeString_IsString _ j a _) h1)
    (FieldIs_step _ _ _ _ _ (fun j a => decodeInt_IsInt _ j a _) h2)
    (FieldIs_step _ _ _ _ _ (fun j a => decodeInt_IsInt _ j a _) h3)
    (FieldIs_step _ _ _ _ _ (fun j a => decodeString_IsString _ j a _) h4)
    (FieldIs_step _ _ _ _ _ (fun j a => decodeAkTimePtr_IsTime _ j a _) h5)

/-! ### The decoder of the envelope -/

theorem Envelope_field_success {R : Type} (resp : Decoder R) (fs : List String) (v : JSON)
    (o : Envelope R) :
    Envelope.field resp fs "success".data v o =
      (decodeBool (fs ++ ["success"]) v o.Success).map (fun x => { o with Success := x }) := rfl

theorem Envelope_field_response_member {R : Type} (resp : Decoder R) (fs : List String) (v : JSON)
    (o : Envelope R) :
    Envelope.field resp fs "response".data v o =
      (resp (fs ++ ["response"]) v o.Response).map (fun x => { o with Response := x }) := rfl

theorem Envelope_field_errors_member {R : Type} (resp : Decoder R) (fs : List String) (v : JSON)
    (o : Envelope R) :
    Envelope.field resp fs "errors".data v o =
      (decodeSlice (decodeStruct Error.field) Error.zero (fs ++ ["errors"]) v o.Errors).map
        (fun x => { o with Errors := x }) := rfl

theorem Envelope_field_unknown {R : Type} (resp : Decoder R) (fs : List String) (k : List Char)
    (v : JSON) (o : Envelope R)
    (h : (["success", "response", "errors"].all (fun t => !keyIs k t)) = true) :
    Envelope.field resp fs k v o = Decoded.ok o := by
  simp only [List.all_cons, List.all_nil, Bool.and_true, Bool.and_eq_true,
    Bool.not_eq_true'] at h
  obtain ⟨u1, u2, u3⟩ := h
  simp only [Envelope.field, u1, u2, u3, Bool.false_eq_true, if_false]

theorem Envelope_members {R : Type} (resp : Decoder R) (fs : List String)
    (ms : List (List Char × JSON)) :
    ∀ cur x : Envelope R, shapeOK ["success", "response", "errors"] ms = true →
    FieldStep (decodeBool (fs ++ ["success"])) (memberOf "success" ms) cur.Success x.Success →
    FieldStep (resp (fs ++ ["response"])) (memberOf "response" ms) cur.Response x.Response →
    FieldStep (decodeSlice (decodeStruct Error.field) Error.zero (fs ++ ["errors"]))
      (memberOf "errors" ms) cur.Errors x.Errors →
    decodeMembers (Envelope.field resp fs) ms (Decoded.ok cur) = Decoded.ok x := by
  induction ms with
  | nil =>
    intro cur x _ h1 h2 h3
    obtain ⟨a1, a2, a3⟩ := cur
    obtain ⟨b1, b2, b3⟩ := x
    simp only [FieldStep, memberOf] at h1 h2 h3
    simp only [decodeMembers, h1, h2, h3]
  | cons kv rest ih =>
    intro cur x hs h1 h2 h3
    obtain ⟨k, v⟩ := kv
    simp only [shapeOK, Bool.and_eq_true, Bool.or_eq_true] at hs
    obtain ⟨hkv, hrest⟩ := hs
    simp only [decodeMembers, andThen_ok]
    rcases hkv with ⟨hk, hlater⟩ | hunk
    · simp only [List.any_cons, List.any_nil, Bool.or_false, Bool.or_eq_true,
        decide_eq_true_eq] at hk
      rcases hk with hk | hk | hk
      · have e : k = "success".data := hk
        subst e
        rw [memberOf_cons_self] at h1
        rw [memberOf_cons_ne _ _ _ _ (by decide)] at h2
        rw [memberOf_cons_ne _ _ _ _ (by decide)] at h3
        rw [Envelope_field_success, show _ = _ from h1, map_ok]
        exact ih _ x hrest (by rw [memberOf_none_of_all _ _ hlater]; rfl) h2 h3
      · have e : k = "response".data := hk
        subst e
        rw [memberOf_cons_ne _ _ _ _ (by decide)] at h1
        rw [memberOf_cons_self] at h2
        rw [memberOf_cons_ne _ _ _ _ (by decide)] at h3
        rw [Envelope_field_response_member, show _ = _ from h2, map_ok]
        exact ih _ x hrest h1 (by rw [memberOf_none_of_all _ _ hlater]; rfl) h3
      · have e : k = "errors".data := hk
        subst e
        rw [memberOf_cons_ne _ _ _ _ (by decide)] at h1
        rw [memberOf_cons_ne _ _ _ _ (by decide)] at h2
        rw [memberOf_cons_self] at h3
        rw [Envelope_field_errors_member, show _ = _ from h3, map_ok]
        exact ih _ x hrest h1 h2 (by rw [memberOf_none_of_all _ _ hlater]; rfl)
    · rw [Envelope_field_unknown resp fs k v cur hunk]
      simp only [List.all_cons, List.all_nil, Bool.and_true, Bool.and_eq_true,
        Bool.not_eq_true'] at hunk
      obtain ⟨u1, u2, u3⟩ := hunk
      rw [memberOf_cons_ne _ _ _ _ (keyIs_self_of_unknown _ _ (by decide) u1)] at h1
      rw [memberOf_cons_ne _ _ _ _ (keyIs_self_of_unknown _ _ (by decide) u2)] at h2
      rw [memberOf_cons_ne _ _ _ _ (keyIs_self_of_unknown _ _ (by decide) u3)] at h3
      exact ih cur x hrest h1 h2 h3

/-- An envelope with `success` true whose `response` denotes `x` is read without
error: `success` is true and the record is `x`. -/
theorem decodeEnvelope_success {R : Type} (P : JSON → R → Prop)
    (field : List String → List Char → JSON → R → Decoded R) (zero : R)
    (hP : ∀ fs j a, P j a → decodeStruct field fs j zero = Decoded.ok a)
    (r : String) (j : JSON) (x : R) (hscan : scanJSON r = Except.ok j)
    (h : IsSuccessEnvelope P j x) :
    ∃ es, decodeEnvelope field zero r = (⟨true, x, es⟩, none) := by
  obtain ⟨ms, jr, rfl, hs, hsucc, hresp, hx, es, hes⟩ := h
  refine ⟨es, ?_⟩
  have hm := Envelope_members (decodeStruct field) [] ms (Envelope.zero zero) ⟨true, x, es⟩ hs
    (by rw [hsucc]; rfl)
    (by rw [hresp]; exact hP _ jr x hx)
    (FieldIs_step _ _ _ _ _ (fun j a => decodeSlice_IsSlice IsError (decodeStruct Error.field)
      Error.zero _ (fun j a => decode_IsError _ j a) j a) hes)
  simp only [decodeEnvelope, json.Decode, hscan, unmarshal, Envelope.decoder, decodeStruct, hm]
  rfl

/-! ### The claims -/

/-- C1: for every text that is a well-formed envelope with `success` true whose
`response` object fits the record of the resource and denotes the record `x`
(members of the record at most once each, in any order, absent members standing
for zero values, unknown members allowed, at every level), each of the four
decoders returns no error and sets the output record to exactly `x`, whatever
the record held before.  A token body with escapes in a string and a member
name in another case is read to the text the escapes denote, into the field
the name selects. -/
theorem C1_success_envelope_sets_decoded_response (f : Float32Impl) (r : String) (j : JSON)
    (hscan : scanJSON r = Except.ok j) :
    (∀ x g : GetStaffResponse, IsSuccessEnvelope IsGetStaffResponse j x →
      g.DecodeFrom r = Run.ret (x, none)) ∧
    (∀ x g : GetStampResponse f, IsSuccessEnvelope (IsGetStampResponse f) j x →
      GetStampResponse.Decode f g r = (x, none)) ∧
    (∀ x p : PostStampResponse, IsSuccessEnvelope IsPostStampResponse j x →
      p.Decode r = (x, none)) ∧
    (∀ x p : PostTokenReissueResponse, IsSuccessEnvelope IsPostTokenReissueResponse j x →
      p.Decode r = (x, none)) ∧
    PostTokenReissueResponse.Decode ⟨"old", 1, 2, "old_token", none⟩
        "\x7b\"success\":true,\"response\":\x7b\"token\":\"a\\\"b\\\\c\\u00e9\\n\\ud83d\\ude00\\ud83dz\",\"Login_Company_Code\":\"foo\"\x7d\x7d" =
      (⟨"foo", 0, 0, "a\"b\\cé\n😀\uFFFDz", none⟩, none) := by
  refine ⟨?_, ?_, ?_, ?_, by decide⟩
  · intro x g h
    obtain ⟨es, he⟩ := decodeEnvelope_success IsGetStaffResponse GetStaffResponse.field
      GetStaffResponse.zero (fun fs j a => decode_IsGetStaffResponse fs j a) r j x hscan h
    simp only [GetStaffResponse.DecodeFrom, he]
    rfl
  · intro x g h
    obtain ⟨es, he⟩ := decodeEnvelope_success (IsGetStampResponse f) (GetStampResponse.field f)
      (GetStampResponse.zero f) (fun fs j a => decode_IsGetStampResponse f fs j a) r j x hscan h
    simp [GetStampResponse.Decode, he]
  · intro x p h
    obtain ⟨es, he⟩ := decodeEnvelope_success IsPostStampResponse PostStampResponse.field
      PostStampResponse.zero (fun fs j a => decode_IsPostStampResponse fs j a) r j x hscan h
    simp [PostStampResponse.Decode, he]
  · intro x p h
    obtain ⟨es, he⟩ := decodeEnvelope_success IsPostTokenReissueResponse
      PostTokenReissueResponse.field PostTokenReissueResponse.zero
      (fun fs j a => decode_IsPostTokenReissueResponse fs j a) r j x hscan h
    simp [PostTokenReissueResponse.Decode, he]

/-- Witness of C1: the body of the successful scenario of the employee test, the
token body of the specification read into a record that was set, the body of
the successful scenario of the stamp test, and a stamp list with a timestamp, a
`null` timestamp, numbers with fractions and unknown members. -/
theorem C1_success_envelope_sets_decoded_response_witness :
    GetStaffResponse.DecodeFrom GetStaffResponse.zero
        "\n\t\t\t\t\x7b\n\t\t\t\t\t\"success\":true,\n\t\t\t\t\t\"response\":\x7b\n\t\t\t\t\t\t\"login_company_code\":\"foo\",\n\t\t\t\t\t\t\"Count\":1,\n\t\t\t\t\t\t\"TotalCount\":1,\n\t\t\t\t\t\t\"staffs\":[\n\t\t\t\t\t\t\t\x7b\n\t\t\t\t\t\t\t\t\"staffId\":1,\n\t\t\t\t\t\t\t\t\"lastName\":\"愛\",\n\t\t\t\t\t\t\t\t\"firstName\":\"上大\",\n\t\t\t\t\t\t\t\t\"lastNameKana\":\"あい\",\n\t\t\t\t\t\t\t\t\"firstNameKana\":\"うえお\",\n\t\t\t\t\t\t\t\t\"organization\":\x7b\x7d,\n\t\t\t\t\t\t\t\t\"subgroups\":[],\n\t\t\t\t\t\t\t\t\"employmentCategory\":\x7b\x7d,\n\t\t\t\t\t\t\t\t\"tag\":\"bar\",\n\t\t\t\t\t\t\t\t\"staffNum\":\"123\",\n\t\t\t\t\t\t\t\t\"idmNum\":\"456\",\n\t\t\t\t\t\t\t\t\"cardTypeId\":123,\n\t\t\t\t\t\t\t\t\"remarks\":\"baz\",\n\t\t\t\t\t\t\t\t\"permissionGroup\":\x7b\x7d,\n\t\t\t\t\t\t\t\t\"managedOrganizations\":[]\n\t\t\t\t\t\t\t\x7d\n\t\t\t\t\t\t]\n\t\t\t\t\t\x7d,\n\t\t\t\t\t\"errors\":[]\n\t\t\t\t\x7d" =
      Run.ret (⟨"foo", 1, 1, some [⟨1, "愛", "上大", "あい", "うえお", ⟨0, ""⟩, some [], ⟨0, ""⟩, "bar", "123", "456", 123, "baz", ⟨0, 0, ""⟩, some []⟩]⟩, none) ∧
    PostTokenReissueResponse.Decode ⟨"old", 1, 2, "old_token", none⟩
        "\x7b\"success\":true,\"response\":\x7b\"login_company_code\":\"foo\",\"staff_id\":123,\"agency_manager_id\":456,\"token\":\"new_token\",\"expired_at\":\"2000/01/02 03:04:05\"\x7d\x7d" =
      (⟨"foo", 123, 456, "new_token", some ⟨⟨2000, 1, 2, 3, 4, 5, 0⟩⟩⟩, none) ∧
    PostStampResponse.Decode ⟨"old", 7, 8, none⟩
        "\x7b\"success\":true,\"response\":\x7b\"login_company_code\":\"foo\",\"staff_id\":1,\"type\":11\x7d\x7d" =
      (⟨"foo", 1, 11, none⟩, none) ∧
    GetStampResponse.Decode literalFloat32 (GetStampResponse.zero literalFloat32)
        "\x7b\"success\":true,\"response\":\x7b\"login_company_code\":\"foo\",\"staff_id\":1,\"count\":1,\"stamps\":[\x7b\"stamped_at\":\"2000/01/02 03:04:05\",\"type\":11,\"local_time\":null,\"timezone\":\"+09:00\",\"attributes\":\x7b\"method\":7,\"org_id\":2,\"latitude\":35.5,\"longitude\":-139.75,\"ip\":\"192.0.2.1\",\"note\":\"x\"\x7d\x7d],\"next\":null\x7d,\"errors\":null\x7d" =
      (⟨"foo", 1, 1, some [⟨some ⟨⟨2000, 1, 2, 3, 4, 5, 0⟩⟩, 11, none, "+09:00", ⟨7, 2, 0, ("35.5".data : List Char), ("-139.75".data : List Char), "192.0.2.1"⟩⟩]⟩, none) :=
  ⟨(C1_success_envelope_sets_decoded_response literalFloat32
      "\n\t\t\t\t\x7b\n\t\t\t\t\t\"success\":true,\n\t\t\t\t\t\"response\":\x7b\n\t\t\t\t\t\t\"login_company_code\":\"foo\",\n\t\t\t\t\t\t\"Count\":1,\n\t\t\t\t\t\t\"TotalCount\":1,\n\t\t\t\t\t\t\"staffs\":[\n\t\t\t\t\t\t\t\x7b\n\t\t\t\t\t\t\t\t\"staffId\":1,\n\t\t\t\t\t\t\t\t\"lastName\":\"愛\",\n\t\t\t\t\t\t\t\t\"firstName\":\"上大\",\n\t\t\t\t\t\t\t\t\"lastNameKana\":\"あい\",\n\t\t\t\t\t\t\t\t\"firstNameKana\":\"うえお\",\n\t\t\t\t\t\t\t\t\"organization\":\x7b\x7d,\n\t\t\t\t\t\t\t\t\"subgroups\":[],\n\t\t\t\t\t\t\t\t\"employmentCategory\":\x7b\x7d,\n\t\t\t\t\t\t\t\t\"tag\":\"bar\",\n\t\t\t\t\t\t\t\t\"staffNum\":\"123\",\n\t\t\t\t\t\t\t\t\"idmNum\":\"456\",\n\t\t\t\t\t\t\t\t\"cardTypeId\":123,\n\t\t\t\t\t\t\t\t\"remarks\":\"baz\",\n\t\t\t\t\t\t\t\t\"permissionGroup\":\x7b\x7d,\n\t\t\t\t\t\t\t\t\"managedOrganizations\":[]\n\t\t\t\t\t\t\t\x7d\n\t\t\t\t\t\t]\n\t\t\t\t\t\x7d,\n\t\t\t\t\t\"errors\":[]\n\t\t\t\t\x7d"
      (JSON.object [
      ("success".data, JSON.bool true),
      ("response".data, JSON.object [
        ("login_company_code".data, JSON.string "foo".data),
        ("Count".data, JSON.number "1".data),
        ("TotalCount".data, JSON.number "1".data),
        ("staffs".data, JSON.array [
          JSON.object [
            ("staffId".data, JSON.number "1".data),
            ("lastName".data, JSON.string "愛".data),
            ("firstName".data, JSON.string "上大".data),
            ("lastNameKana".data, JSON.string "あい".data),
            ("firstNameKana".data, JSON.string "うえお".data),
            ("organization".data, JSON.object []),
            ("subgroups".data, JSON.array []),
            ("employmentCategory".data, JSON.object []),
            ("tag".data, JSON.string "bar".data),
            ("staffNum".data, JSON.string "123".data),
            ("idmNum".data, JSON.string "456".data),
            ("cardTypeId".data, JSON.number "123".data),
            ("remarks".data, JSON.string "baz".data),
            ("permissionGroup".data, JSON.object []),
            ("managedOrganizations".data, JSON.array [])]])]),
      ("errors".data, JSON.array [])])
      (by rfl)).1 _ _
    ⟨_, _, rfl, by decide, rfl, rfl,
    ⟨_, rfl, by decide, FieldIs_some _ _ _ _ _ rfl (⟨rfl, by decide⟩),
      FieldIs_some _ _ _ _ _ rfl (⟨rfl, by decide, by decide⟩),
      FieldIs_some _ _ _ _ _ rfl (⟨rfl, by decide, by decide⟩),
      FieldIs_some _ _ _ _ _ rfl (Or.inr ⟨_, _, rfl, rfl, List.Forall₂.cons (⟨_, rfl, by decide, FieldIs_some _ _ _ _ _ rfl (⟨rfl, by decide, by decide⟩),
      FieldIs_some _ _ _ _ _ rfl (⟨rfl, by decide⟩),
      FieldIs_some _ _ _ _ _ rfl (⟨rfl, by decide⟩),
      FieldIs_some _ _ _ _ _ rfl (⟨rfl, by decide⟩),
      FieldIs_some _ _ _ _ _ rfl (⟨rfl, by decide⟩),
      FieldIs_some _ _ _ _ _ rfl (⟨_, rfl, by decide, FieldIs_none _ _ _ _ rfl rfl,
      FieldIs_none _ _ _ _ rfl rfl⟩),
      FieldIs_some _ _ _ _ _ rfl (Or.inr ⟨_, _, rfl, rfl, List.Forall₂.nil⟩),
      FieldIs_some _ _ _ _ _ rfl (⟨_, rfl, by decide, FieldIs_none _ _ _ _ rfl rfl,
      FieldIs_none _ _ _ _ rfl rfl⟩),
      FieldIs_some _ _ _ _ _ rfl (⟨rfl, by decide⟩),
      FieldIs_some _ _ _ _ _ rfl (⟨rfl, by decide⟩),
      FieldIs_some _ _ _ _ _ rfl (⟨rfl, by decide⟩),
      FieldIs_some _ _ _ _ _ rfl (⟨rfl, by decide, by decide⟩),
      FieldIs_some _ _ _ _ _ rfl (⟨rfl, by decide⟩),
      FieldIs_some _ _ _ _ _ rfl (⟨_, rfl, by decide, FieldIs_none _ _ _ _ rfl rfl,
      FieldIs_none _ _ _ _ rfl rfl,
      FieldIs_none _ _ _ _ rfl rfl⟩),
      FieldIs_some _ _ _ _ _ rfl (Or.inr ⟨_, _, rfl, rfl, List.Forall₂.nil⟩)⟩) (List.Forall₂.nil)⟩)⟩,
    ⟨some [], FieldIs_some _ _ _ _ _ rfl (Or.inr ⟨_, _, rfl, rfl, List.Forall₂.nil⟩)⟩⟩,
   (C1_success_envelope_sets_decoded_response literalFloat32
      "\x7b\"success\":true,\"response\":\x7b\"login_company_code\":\"foo\",\"staff_id\":123,\"agency_manager_id\":456,\"token\":\"new_token\",\"expired_at\":\"2000/01/02 03:04:05\"\x7d\x7d"
      (JSON.object [
      ("success".data, JSON.bool true),
      ("response".data, JSON.object [
        ("login_company_code".data, JSON.string "foo".data),
        ("staff_id".data, JSON.number "123".data),
        ("agency_manager_id".data, JSON.number "456".data),
        ("token".data, JSON.string "new_token".data),
        ("expired_at".data, JSON.string "2000/01/02 03:04:05".data)])])
      (by rfl)).2.2.2.1 _ _
    ⟨_, _, rfl, by decide, rfl, rfl,
    ⟨_, rfl, by decide, FieldIs_some _ _ _ _ _ rfl (⟨rfl, by decide⟩),
      FieldIs_some _ _ _ _ _ rfl (⟨rfl, by decide, by decide⟩),
      FieldIs_some _ _ _ _ _ rfl (⟨rfl, by decide, by decide⟩),
      FieldIs_some _ _ _ _ _ rfl (⟨rfl, by decide⟩),
      FieldIs_some _ _ _ _ _ rfl (Or.inr ⟨⟨2000, 1, 2, 3, 4, 5, 0⟩, by decide, by decide, by decide, rfl, rfl, rfl⟩)⟩,
    ⟨none, FieldIs_none _ _ _ _ rfl rfl⟩⟩,
   (C1_success_envelope_sets_decoded_response literalFloat32
      "\x7b\"success\":true,\"response\":\x7b\"login_company_code\":\"foo\",\"staff_id\":1,\"type\":11\x7d\x7d"
      (JSON.object [
      ("success".data, JSON.bool true),
      ("response".data, JSON.object [
        ("login_company_code".data, JSON.string "foo".data),
        ("staff_id".data, JSON.number "1".data),
        ("type".data, JSON.number "11".data)])])
      (by rfl)).2.2.1 _ _
    ⟨_, _, rfl, by decide, rfl, rfl,
    ⟨_, rfl, by decide, FieldIs_some _ _ _ _ _ rfl (⟨rfl, by decide⟩),
      FieldIs_some _ _ _ _ _ rfl (⟨rfl, by decide, by decide⟩),
      FieldIs_some _ _ _ _ _ rfl (⟨rfl, by decide, by decide⟩),
      FieldIs_none _ _ _ _ rfl rfl⟩,
    ⟨none, FieldIs_none _ _ _ _ rfl rfl⟩⟩,
   (C1_success_envelope_sets_decoded_response literalFloat32
      "\x7b\"success\":true,\"response\":\x7b\"login_company_code\":\"foo\",\"staff_id\":1,\"count\":1,\"stamps\":[\x7b\"stamped_at\":\"2000/01/02 03:04:05\",\"type\":11,\"local_time\":null,\"timezone\":\"+09:00\",\"attributes\":\x7b\"method\":7,\"org_id\":2,\"latitude\":35.5,\"longitude\":-139.75,\"ip\":\"192.0.2.1\",\"note\":\"x\"\x7d\x7d],\"next\":null\x7d,\"errors\":null\x7d"
      (JSON.object [
      ("success".data, JSON.bool true),
      ("response".data, JSON.object [
        ("login_company_code".data, JSON.string "foo".data),
        ("staff_id".data, JSON.number "1".data),
        ("count".data, JSON.number "1".data),
        ("stamps".data, JSON.array [
          JSON.object [
            ("stamped_at".data, JSON.string "2000/01/02 03:04:05".data),
            ("type".data, JSON.number "11".data),
            ("local_time".data, JSON.null),
            ("timezone".data, JSON.string "+09:00".data),
            ("attributes".data, JSON.object [
              ("method".data, JSON.number "7".data),
              ("org_id".data, JSON.number "2".data),
              ("latitude".data, JSON.number "35.5".data),
              ("longitude".data, JSON.number "-139.75".data),
              ("ip".data, JSON.string "192.0.2.1".data),
              ("note".data, JSON.string "x".data)])]]),
        ("next".data, JSON.null)]),
      ("errors".data, JSON.null)])
      (by rfl)).2.1 _ _
    ⟨_, _, rfl, by decide, rfl, rfl,
    ⟨_, rfl, by decide, FieldIs_some _ _ _ _ _ rfl (⟨rfl, by decide⟩),
      FieldIs_some _ _ _ _ _ rfl (⟨rfl, by decide, by decide⟩),
      FieldIs_some _ _ _ _ _ rfl (⟨rfl, by decide, by decide⟩),
      FieldIs_some _ _ _ _ _ rfl (Or.inr ⟨_, _, rfl, rfl, List.Forall₂.cons (⟨_, rfl, by decide, FieldIs_some _ _ _ _ _ rfl (Or.inr ⟨⟨2000, 1, 2, 3, 4, 5, 0⟩, by decide, by decide, by decide, rfl, rfl, rfl⟩),
      FieldIs_some _ _ _ _ _ rfl (⟨rfl, by decide, by decide⟩),
      FieldIs_some _ _ _ _ _ rfl (Or.inl ⟨rfl, rfl⟩),
      FieldIs_some _ _ _ _ _ rfl (⟨rfl, by decide⟩),
      FieldIs_some _ _ _ _ _ rfl (⟨_, rfl, by decide, FieldIs_some _ _ _ _ _ rfl (⟨rfl, by decide, by decide⟩),
      FieldIs_some _ _ _ _ _ rfl (⟨rfl, by decide, by decide⟩),
      FieldIs_none _ _ _ _ rfl rfl,
      FieldIs_some _ _ _ _ _ rfl (⟨"35.5".data, rfl, rfl⟩),
      FieldIs_some _ _ _ _ _ rfl (⟨"-139.75".data, rfl, rfl⟩),
      FieldIs_some _ _ _ _ _ rfl (⟨rfl, by decide⟩)⟩)⟩) (List.Forall₂.nil)⟩)⟩,
    ⟨none, FieldIs_some _ _ _ _ _ rfl (Or.inl ⟨rfl, rfl⟩)⟩⟩⟩

/-- C2: on the envelope `{"success":false}` and a default output record every
decoder fails with its own API-failure message and the record is still the
default record. -/
theorem C2_bare_failure_envelope (f : Float32Impl) :
    GetStaffResponse.DecodeFrom GetStaffResponse.zero "\x7b\"success\":false\x7d" =
      Run.ret (GetStaffResponse.zero, some (GoError.errorString "AKASHI API failed")) ∧
    GetStampResponse.Decode f (GetStampResponse.zero f) "\x7b\"success\":false\x7d" =
      (GetStampResponse.zero f, some (GoError.errorString "Requesting Stamps API failed")) ∧
    PostStampResponse.Decode PostStampResponse.zero "\x7b\"success\":false\x7d" =
      (PostStampResponse.zero, some (GoError.errorString "Requesting Stamp API failed")) ∧
    PostTokenReissueResponse.Decode PostTokenReissueResponse.zero "\x7b\"success\":false\x7d" =
      (PostTokenReissueResponse.zero,
        some (GoError.errorString "Requesting Token Reissue API failed")) := by
  refine ⟨by decide, by rfl, by decide, by decide⟩

/-- C3 (code bug): on a failed envelope that carries a payload
`GetStaffResponse.DecodeFrom` copies the payload into the output record, while
the three `Decode` functions leave the default record alone on the same input. -/
theorem C3_failed_envelope_payload_exposed (f : Float32Impl) :
    GetStaffResponse.DecodeFrom GetStaffResponse.zero
        "\x7b\"success\":false,\"response\":\x7b\"login_company_code\":\"foo\",\"Count\":3\x7d\x7d" =
      Run.ret (⟨"foo", 3, 0, none⟩, some (GoError.errorString "AKASHI API failed")) ∧
    GetStampResponse.Decode f (GetStampResponse.zero f)
        "\x7b\"success\":false,\"response\":\x7b\"login_company_code\":\"foo\",\"Count\":3\x7d\x7d" =
      (GetStampResponse.zero f, some (GoError.errorString "Requesting Stamps API failed")) ∧
    PostStampResponse.Decode PostStampResponse.zero
        "\x7b\"success\":false,\"response\":\x7b\"login_company_code\":\"foo\",\"Count\":3\x7d\x7d" =
      (PostStampResponse.zero, some (GoError.errorString "Requesting Stamp API failed")) ∧
    PostTokenReissueResponse.Decode PostTokenReissueResponse.zero
        "\x7b\"success\":false,\"response\":\x7b\"login_company_code\":\"foo\",\"Count\":3\x7d\x7d" =
      (PostTokenReissueResponse.zero,
        some (GoError.errorString "Requesting Token Reissue API failed")) := by
  refine ⟨by decide, by rfl, by decide, by decide⟩

/-- C4: for every envelope that is well-formed apart from a top-level `success`
member holding a JSON string (the envelope without that member decodes without
error), `GetStaffResponse.DecodeFrom` returns exactly the error
"Unmarshal error: field: success, value: string" and leaves the receiver as it
was. -/
theorem C4_success_string (g : GetStaffResponse) (r : String)
    (pre post : List (List Char × JSON)) (k raw : List Char)
    (hscan : scanJSON r = Except.ok (JSON.object (pre ++ (k, JSON.string raw) :: post)))
    (hk : keyIs k "success" = true)
    (hrest : (unmarshal (Envelope.decoder GetStaffResponse.field) (JSON.object (pre ++ post))
      (Envelope.zero GetStaffResponse.zero)).2 = none) :
    g.DecodeFrom r = Run.ret (g, some (GoError.errorString
      "Unmarshal error: field: success, value: string")) := by
  have h := unmarshal_success_string GetStaffResponse.field GetStaffResponse.zero pre post k raw
    hk hrest
  simp only [GetStaffResponse.DecodeFrom, decodeEnvelope, json.Decode, hscan, h]
  rfl

/-- Witness of C4: a string `success` between a `response` and an `errors` member. -/
theorem C4_success_string_witness :
    GetStaffResponse.DecodeFrom ⟨"kept", 7, 8, none⟩
        "\x7b\"response\":\x7b\"Count\":3\x7d,\"success\":\"foo\",\"errors\":[]\x7d" =
      Run.ret (⟨"kept", 7, 8, none⟩, some (GoError.errorString
        "Unmarshal error: field: success, value: string")) :=
  C4_success_string ⟨"kept", 7, 8, none⟩ "\x7b\"response\":\x7b\"Count\":3\x7d,\"success\":\"foo\",\"errors\":[]\x7d"
    [("response".data, JSON.object [("Count".data, JSON.number ['3'])])]
    [("errors".data, JSON.array [])] "success".data "foo".data (by rfl) (by decide) (by decide)

/-- C5 (code bug): on `{"success":"foo"}`, on a well-typed envelope cut short and
on text that is no JSON the three `Decode` functions return their API-failure
error, the very error of a well-formed `{"success":false}`, and no decode error. -/
theorem C5_decode_error_replaced_by_api_failure (f : Float32Impl) :
    (GetStampResponse.Decode f (GetStampResponse.zero f) "\x7b\"success\":\"foo\"\x7d").2 =
      some (GoError.errorString "Requesting Stamps API failed") ∧
    (PostStampResponse.Decode PostStampResponse.zero "\x7b\"success\":\"foo\"\x7d").2 =
      some (GoError.errorString "Requesting Stamp API failed") ∧
    (PostTokenReissueResponse.Decode PostTokenReissueResponse.zero "\x7b\"success\":\"foo\"\x7d").2 =
      some (GoError.errorString "Requesting Token Reissue API failed") ∧
    (GetStampResponse.Decode f (GetStampResponse.zero f) "\x7b\"success\":true,").2 =
      some (GoError.errorString "Requesting Stamps API failed") ∧
    (PostStampResponse.Decode PostStampResponse.zero "\x7b\"success\":true,").2 =
      some (GoError.errorString "Requesting Stamp API failed") ∧
    (PostTokenReissueResponse.Decode PostTokenReissueResponse.zero "not json").2 =
      some (GoError.errorString "Requesting Token Reissue API failed") ∧
    (decodeEnvelope PostStampResponse.field PostStampResponse.zero "\x7b\"success\":\"foo\"\x7d").2 =
      some (GoError.unmarshalTypeError "string" "success") := by
  refine ⟨by rfl, by decide, by decide, by rfl, by decide, by decide, by decide⟩

/-- C6 (code bug): on an empty stream, on an object cut short and on a syntax
error `GetStaffResponse.DecodeFrom` does not return: the type assertion in its
failure branch panics. -/
theorem C6_malformed_input_panics :
    GetStaffResponse.DecodeFrom GetStaffResponse.zero "" =
      Run.panic "interface conversion: error is not *json.UnmarshalTypeError" ∧
    GetStaffResponse.DecodeFrom GetStaffResponse.zero "\x7b\"success\":true," =
      Run.panic "interface conversion: error is not *json.UnmarshalTypeError" ∧
    GetStaffResponse.DecodeFrom GetStaffResponse.zero "\x7b\"success\" true\x7d" =
      Run.panic "interface conversion: error is not *json.UnmarshalTypeError" ∧
    scanJSON "" = Except.error GoError.eof ∧
    scanJSON "\x7b\"success\":true," = Except.error GoError.unexpectedEOF ∧
    scanJSON "\x7b\"success\" true\x7d" = Except.error GoError.jsonSyntaxError := by
  refine ⟨by decide, by decide, by decide, by rfl, by rfl, by rfl⟩

/-- C7 (amended): what a decoder returns does not depend on the list of the
`errors` member.  Two well-formed envelopes that differ in their lists of error
details only give every decoder the same error and the same output record. -/
theorem C7_errors_list_not_exposed (f : Float32Impl) (r1 r2 : String)
    (pre post : List (List Char × JSON)) (k : List Char) (e1 e2 : JSON)
    (hscan1 : scanJSON r1 = Except.ok (JSON.object (pre ++ (k, e1) :: post)))
    (hscan2 : scanJSON r2 = Except.ok (JSON.object (pre ++ (k, e2) :: post)))
    (hk : keyIs k "errors" = true) (h1 : IsErrorList e1) (h2 : IsErrorList e2) :
    (∀ g : GetStaffResponse, g.DecodeFrom r1 = g.DecodeFrom r2) ∧
    (∀ g : GetStampResponse f, GetStampResponse.Decode f g r1 = GetStampResponse.Decode f g r2) ∧
    (∀ p : PostStampResponse, p.Decode r1 = p.Decode r2) ∧
    (∀ p : PostTokenReissueResponse, p.Decode r1 = p.Decode r2) := by
  have key : ∀ {R : Type} (field : List String → List Char → JSON → R → Decoded R) (zero : R),
      (decodeEnvelope field zero r1).1.Success = (decodeEnvelope field zero r2).1.Success ∧
      (decodeEnvelope field zero r1).1.Response = (decodeEnvelope field zero r2).1.Response ∧
      (decodeEnvelope field zero r1).2 = (decodeEnvelope field zero r2).2 := by
    intro R field zero
    simp only [decodeEnvelope, json.Decode, hscan1, hscan2]
    exact unmarshal_errors_irrelevant field zero pre post k e1 e2 hk h1 h2
  refine ⟨?_, ?_, ?_, ?_⟩
  · intro g
    obtain ⟨hS, hR, hE⟩ := key GetStaffResponse.field GetStaffResponse.zero
    simp only [GetStaffResponse.DecodeFrom, hS, hR, hE]
  · intro g
    obtain ⟨hS, hR, hE⟩ := key (GetStampResponse.field f) (GetStampResponse.zero f)
    simp only [GetStampResponse.Decode, hS, hR, hE]
  · intro p
    obtain ⟨hS, hR, hE⟩ := key PostStampResponse.field PostStampResponse.zero
    simp only [PostStampResponse.Decode, hS, hR, hE]
  · intro p
    obtain ⟨hS, hR, hE⟩ := key PostTokenReissueResponse.field PostTokenReissueResponse.zero
    simp only [PostTokenReissueResponse.Decode, hS, hR, hE]

/-- Witness of C7: a failed envelope with one error detail and one with none. -/
theorem C7_errors_list_not_exposed_witness :
    PostTokenReissueResponse.Decode PostTokenReissueResponse.zero
        "\x7b\"success\":false,\"errors\":[\x7b\"code\":\"E1\",\"message\":\"first\"\x7d]\x7d" =
      PostTokenReissueResponse.Decode PostTokenReissueResponse.zero
        "\x7b\"success\":false,\"errors\":[]\x7d" :=
  (C7_errors_list_not_exposed literalFloat32
    "\x7b\"success\":false,\"errors\":[\x7b\"code\":\"E1\",\"message\":\"first\"\x7d]\x7d"
    "\x7b\"success\":false,\"errors\":[]\x7d"
    [("success".data, JSON.bool false)] [] "errors".data
    (JSON.array [JSON.object [("code".data, JSON.string "E1".data),
      ("message".data, JSON.string "first".data)]])
    (JSON.array []) (by rfl) (by rfl) (by decide) (by decide) (by decide)).2.2.2
    PostTokenReissueResponse.zero

/-- Counterexample to C7 as stated: two failed envelopes whose lists of error
details differ give every decoder the same result. -/
theorem C7_counterexample :
    (decodeEnvelope PostTokenReissueResponse.field PostTokenReissueResponse.zero
        "\x7b\"success\":false,\"errors\":[\x7b\"code\":\"E1\",\"message\":\"first\"\x7d]\x7d").1.Errors ≠
      (decodeEnvelope PostTokenReissueResponse.field PostTokenReissueResponse.zero
        "\x7b\"success\":false,\"errors\":[\x7b\"code\":\"E2\",\"message\":\"second\"\x7d]\x7d").1.Errors ∧
    PostTokenReissueResponse.Decode PostTokenReissueResponse.zero
        "\x7b\"success\":false,\"errors\":[\x7b\"code\":\"E1\",\"message\":\"first\"\x7d]\x7d" =
      PostTokenReissueResponse.Decode PostTokenReissueResponse.zero
        "\x7b\"success\":false,\"errors\":[\x7b\"code\":\"E2\",\"message\":\"second\"\x7d]\x7d" ∧
    PostStampResponse.Decode PostStampResponse.zero
        "\x7b\"success\":false,\"errors\":[\x7b\"code\":\"E1\",\"message\":\"first\"\x7d]\x7d" =
      PostStampResponse.Decode PostStampResponse.zero
        "\x7b\"success\":false,\"errors\":[\x7b\"code\":\"E2\",\"message\":\"second\"\x7d]\x7d" ∧
    GetStaffResponse.DecodeFrom GetStaffResponse.zero
        "\x7b\"success\":false,\"errors\":[\x7b\"code\":\"E1\",\"message\":\"first\"\x7d]\x7d" =
      GetStaffResponse.DecodeFrom GetStaffResponse.zero
        "\x7b\"success\":false,\"errors\":[\x7b\"code\":\"E2\",\"message\":\"second\"\x7d]\x7d" := by
  decide

/-- C8 (amended): for every non-empty `LoginCompanyCode` `c` and non-empty `Token`
`t`, with no optional field set, `GetStaffParam.EncodeURL` returns no error and
`"/" + c + "/staffs?token=" + QueryEscape(t)`, and `GetStampParam.EncodeURL`
returns `"/" + c + "/stamps?token=" + QueryEscape(t)`; the escaped token is `t`
itself when `t` consists of letters, digits and `-`, `_`, `.`, `~`. -/
theorem C8_minimal_urls (c t : String) (hc : c ≠ "") (ht : t ≠ "") :
    GetStaffParam.EncodeURL ⟨c, t, none, none, none⟩ =
        Run.ret ("/" ++ c ++ "/staffs?token=" ++ QueryEscape t, none) ∧
    GetStampParam.EncodeURL ⟨c, t, none, none, 0⟩ = "/" ++ c ++ "/stamps?token=" ++ QueryEscape t ∧
    ((∀ ch ∈ t.data, isUnreserved ch = true) → QueryEscape t = t) := by
  have hadd : Values.Add [] "token" t = [("token", [t])] := rfl
  have hq : Values.Encode [("token", [t])] ≠ "" := by
    rw [Encode_token]
    exact append_ne_empty _ _ (by decide)
  refine ⟨?_, ?_, QueryEscape_unreserved t⟩
  · simp only [GetStaffParam.EncodeURL, GetStaffParam.queryValues, bind, Run.bind, pure, hc, ht,
      if_false, ne_eq, not_false_eq_true, if_true, hadd, reduceCtorEq, hq, not_true_eq_false]
    rw [Encode_token]
    congr 2
    apply String.ext
    simp [String.data_append]
  · simp only [GetStampParam.EncodeURL, ht, if_false, ne_eq, not_false_eq_true, if_true, hadd, hq,
      not_true_eq_false]
    rw [Encode_token]
    apply String.ext
    simp [String.data_append]

/-- Witness of C8: company `foo`, token `bar`. -/
theorem C8_minimal_urls_witness :
    GetStaffParam.EncodeURL ⟨"foo", "bar", none, none, none⟩ =
        Run.ret ("/foo/staffs?token=bar", none) ∧
    GetStampParam.EncodeURL ⟨"foo", "bar", none, none, 0⟩ = "/foo/stamps?token=bar" ∧
    QueryEscape "bar" = "bar" :=
  ⟨(C8_minimal_urls "foo" "bar" (by decide) (by decide)).1.trans (by decide),
   (C8_minimal_urls "foo" "bar" (by decide) (by decide)).2.1.trans (by decide),
   (C8_minimal_urls "foo" "bar" (by decide) (by decide)).2.2 (by decide)⟩

/-- Counterexample to C8 as stated: a token with a blank is not copied verbatim. -/
theorem C8_counterexample :
    GetStaffParam.EncodeURL ⟨"foo", "a b", none, none, none⟩ ≠
        Run.ret ("/" ++ "foo" ++ "/staffs?token=" ++ "a b", none) ∧
    GetStampParam.EncodeURL ⟨"foo", "a b", none, none, 0⟩ ≠
        "/" ++ "foo" ++ "/stamps?token=" ++ "a b" := by
  decide

/-- C9 (amended): for every `GetStampParam` whose dates have a year from 0 to
9999, `EncodeURL` returns the URL the specification describes: the path
`"/" + LoginCompanyCode + "/stamps"`, then `"/"` and the decimal `StaffID` when it
is not zero, then, when a parameter is set, `"?"` and the set parameters joined
by `"&"` in the order `end_date`, `start_date`, `token`, each date as its fourteen
digits and the token percent-encoded. -/
theorem C9_stamp_url (g : GetStampParam)
    (hs : ∀ d, g.StartDate = some d → d.IsValid ∧ 0 ≤ d.year ∧ d.year ≤ 9999)
    (he : ∀ d, g.EndDate = some d → d.IsValid ∧ 0 ≤ d.year ∧ d.year ≤ 9999) :
    g.EncodeURL = g.specURL := by
  obtain ⟨c, tok, sd, ed, sid⟩ := g
  have hpath : ∀ q : String, q ≠ "" →
      (if q ≠ "" then
        (if sid ≠ 0 then "/" ++ c ++ "/stamps" ++ "/" ++ formatInt sid else "/" ++ c ++ "/stamps") ++
          ("?" ++ q)
       else (if sid ≠ 0 then "/" ++ c ++ "/stamps" ++ "/" ++ formatInt sid else "/" ++ c ++ "/stamps"))
      = "/" ++ c ++ "/stamps" ++ (if sid ≠ 0 then "/" ++ formatInt sid else "") ++ "?" ++ q := by
    intro q hq
    by_cases h0 : sid = 0
    · simp only [h0, hq, ne_eq, not_true_eq_false, not_false_eq_true, if_true, if_false]
      apply String.ext
      simp [String.data_append]
    · simp only [h0, hq, ne_eq, not_true_eq_false, not_false_eq_true, if_true, if_false]
      apply String.ext
      simp [String.data_append]
  have hpath0 : (if sid ≠ 0 then "/" ++ c ++ "/stamps" ++ "/" ++ formatInt sid else "/" ++ c ++ "/stamps")
      = "/" ++ c ++ "/stamps" ++ (if sid ≠ 0 then "/" ++ formatInt sid else "") := by
    by_cases h0 : sid = 0
    · simp only [h0, ne_eq, not_true_eq_false, if_false]
      apply String.ext
      simp [String.data_append]
    · simp only [h0, ne_eq, not_false_eq_true, if_true]
      apply String.ext
      simp [String.data_append]
  by_cases ht : tok = ""
  · subst ht
    cases sd with
    | none =>
      cases ed with
      | none =>
        have hE : Values.Encode [] = "" := rfl
        simp only [GetStampParam.EncodeURL, GetStampParam.specURL, ne_eq, not_true_eq_false,
          if_false, hE]
        exact hpath0
      | some e =>
        have hq : Values.Encode [("end_date", [e.Format DateFormat])] ≠ "" := by
          rw [Encode_end]; exact append_ne_empty _ _ (by decide)
        have hadd : Values.Add [] "end_date" (e.Format DateFormat)
            = [("end_date", [e.Format DateFormat])] := rfl
        simp only [GetStampParam.EncodeURL, GetStampParam.specURL, ne_eq, not_true_eq_false,
          if_false, hadd]
        rw [hpath _ hq, Encode_end, stamp_date_text e (he e rfl)]
        rfl
    | some s =>
      cases ed with
      | none =>
        have hq : Values.Encode [("start_date", [s.Format DateFormat])] ≠ "" := by
          rw [Encode_start]; exact append_ne_empty _ _ (by decide)
        have hadd : Values.Add [] "start_date" (s.Format DateFormat)
            = [("start_date", [s.Format DateFormat])] := rfl
        simp only [GetStampParam.EncodeURL, GetStampParam.specURL, ne_eq, not_true_eq_false,
          if_false, hadd]
        rw [hpath _ hq, Encode_start, stamp_date_text s (hs s rfl)]
        rfl
      | some e =>
        have hq : Values.Encode [("start_date", [s.Format DateFormat]),
            ("end_date", [e.Format DateFormat])] ≠ "" := by
          rw [Encode_start_end]
          repeat apply append_ne_empty
          decide
        have hadd : Values.Add (Values.Add [] "start_date" (s.Format DateFormat)) "end_date"
            (e.Format DateFormat) = [("start_date", [s.Format DateFormat]),
              ("end_date", [e.Format DateFormat])] := rfl
        simp only [GetStampParam.EncodeURL, GetStampParam.specURL, ne_eq, not_true_eq_false,
          if_false, hadd]
        rw [hpath _ hq, Encode_start_end, stamp_date_text s (hs s rfl),
          stamp_date_text e (he e rfl)]
        rfl
  · cases sd with
    | none =>
      cases ed with
      | none =>
        have hq : Values.Encode [("token", [tok])] ≠ "" := by
          rw [Encode_token]; exact append_ne_empty _ _ (by decide)
        have hadd : Values.Add [] "token" tok = [("token", [tok])] := rfl
        simp only [GetStampParam.EncodeURL, GetStampParam.specURL, ne_eq, ht, not_false_eq_true,
          if_true, hadd]
        rw [hpath _ hq, Encode_token]
        rfl
      | some e =>
        have hq : Values.Encode [("token", [tok]), ("end_date", [e.Format DateFormat])] ≠ "" := by
          rw [Encode_token_end]
          repeat apply append_ne_empty
          decide
        have hadd : Values.Add (Values.Add [] "token" tok) "end_date" (e.Format DateFormat)
            = [("token", [tok]), ("end_date", [e.Format DateFormat])] := rfl
        simp only [GetStampParam.EncodeURL, GetStampParam.specURL, ne_eq, ht, not_false_eq_true,
          if_true, hadd]
        rw [hpath _ hq, Encode_token_end, stamp_date_text e (he e rfl)]
        rfl
    | some s =>
      cases ed with
      | none =>
        have hq : Values.Encode [("token", [tok]), ("start_date", [s.Format DateFormat])] ≠ "" := by
          rw [Encode_token_start]
          repeat apply append_ne_empty
          decide
        have hadd : Values.Add (Values.Add [] "token" tok) "start_date" (s.Format DateFormat)
            = [("token", [tok]), ("start_date", [s.Format DateFormat])] := rfl
        simp only [GetStampParam.EncodeURL, GetStampParam.specURL, ne_eq, ht, not_false_eq_true,
          if_true, hadd]
        rw [hpath _ hq, Encode_token_start, stamp_date_text s (hs s rfl)]
        rfl
      | some e =>
        have hq : Values.Encode [("token", [tok]), ("start_date", [s.Format DateFormat]),
            ("end_date", [e.Format DateFormat])] ≠ "" := by
          rw [Encode_token_start_end]
          repeat apply append_ne_empty
          decide
        have hadd : Values.Add (Values.Add (Values.Add [] "token" tok) "start_date"
            (s.Format DateFormat)) "end_date" (e.Format DateFormat)
            = [("token", [tok]), ("start_date", [s.Format DateFormat]),
              ("end_date", [e.Format DateFormat])] := rfl
        simp only [GetStampParam.EncodeURL, GetStampParam.specURL, ne_eq, ht, not_false_eq_true,
          if_true, hadd]
        rw [hpath _ hq, Encode_token_start_end, stamp_date_text s (hs s rfl),
          stamp_date_text e (he e rfl)]
        rfl

/-- Witness of C9: the end-to-end example of the specification. -/
theorem C9_stamp_url_witness :
    GetStampParam.EncodeURL
      ⟨"foo", "bar", some ⟨2000, 1, 2, 3, 4, 5, 0⟩, some ⟨2000, 2, 3, 4, 5, 6, 0⟩, 1⟩ =
      "/foo/stamps/1?end_date=20000203040506&start_date=20000102030405&token=bar" :=
  (C9_stamp_url ⟨"foo", "bar", some ⟨2000, 1, 2, 3, 4, 5, 0⟩, some ⟨2000, 2, 3, 4, 5, 6, 0⟩, 1⟩
    (by intro d h; cases h; decide) (by intro d h; cases h; decide)).trans (by decide)

/-- Counterexample to C9 as stated: a date in the year 10000 is not rendered by
fourteen digits. -/
theorem C9_counterexample :
    ¬ ∃ ds : List Char, ds.length = 14 ∧
      GetStampParam.EncodeURL ⟨"foo", "bar", some ⟨10000, 1, 1, 0, 0, 0, 0⟩, none, 0⟩ =
        "/foo/stamps?start_date=" ++ String.mk ds ++ "&token=bar" := by
  rintro ⟨ds, hlen, h⟩
  have hv : GetStampParam.EncodeURL ⟨"foo", "bar", some ⟨10000, 1, 1, 0, 0, 0, 0⟩, none, 0⟩ =
      "/foo/stamps?start_date=100000101000000&token=bar" := by decide
  rw [hv] at h
  have hl := congrArg String.length h
  rw [String.length_append, String.length_append] at hl
  have h1 : ("/foo/stamps?start_date=100000101000000&token=bar" : String).length = 48 := by decide
  have h2 : ("/foo/stamps?start_date=" : String).length = 23 := by decide
  have h3 : ("&token=bar" : String).length = 10 := by decide
  have h4 : (String.mk ds).length = 14 := hlen
  omega

/-- C10: for every `GetStaffParam` with non-empty `LoginCompanyCode` `c` and
`Token` and with `Target`, `StaffID` and `Page` present, `EncodeURL` returns no
error and `"/" + c + "/staffs/" + StaffID + "?page=" + Page + "&target=" +
QueryEscape(Target) + "&token=" + QueryEscape(Token)`: the keys come in
alphabetical order. -/
theorem C10_staff_url_all_fields (c tok target : String) (staffID page : Int)
    (hc : c ≠ "") (ht : tok ≠ "") :
    GetStaffParam.EncodeURL ⟨c, tok, some target, some staffID, some page⟩ =
      Run.ret ("/" ++ c ++ "/staffs/" ++ formatInt staffID ++ "?page=" ++ formatInt page ++
        "&target=" ++ QueryEscape target ++ "&token=" ++ QueryEscape tok, none) := by
  have hadd : Values.Add (Values.Add (Values.Add [] "token" tok) "target" target) "page"
      (formatInt page) = [("token", [tok]), ("target", [target]), ("page", [formatInt page])] := rfl
  have hq : Values.Encode [("token", [tok]), ("target", [target]), ("page", [formatInt page])] ≠ "" := by
    rw [Encode_token_target_page]
    repeat apply append_ne_empty
    decide
  simp only [GetStaffParam.EncodeURL, GetStaffParam.queryValues, deref, bind, Run.bind, pure, hc, ht,
    if_false, ne_eq, not_false_eq_true, if_true, hadd, reduceCtorEq, hq]
  rw [Encode_token_target_page, QueryEscape_formatInt]
  congr 2
  apply String.ext
  simp [String.data_append]

/-- Witness of C10: the example of the test suite. -/
theorem C10_staff_url_all_fields_witness :
    GetStaffParam.EncodeURL ⟨"foo", "bar", some "baz", some 123, some 2⟩ =
      Run.ret ("/foo/staffs/123?page=2&target=baz&token=bar", none) :=
  (C10_staff_url_all_fields "foo" "bar" "baz" 123 2 (by decide) (by decide)).trans (by decide)

/-- C11 (code bug): with `Target` set and `Page` nil the `Target` case falls through
into the `Page` case, which dereferences the nil `Page`: `EncodeURL` panics and
returns no URL.  With both set the URL carries `page` and `target`. -/
theorem C11_target_without_page_panics :
    GetStaffParam.EncodeURL ⟨"foo", "bar", some "baz", none, none⟩ =
      Run.panic "runtime error: invalid memory address or nil pointer dereference" ∧
    (∀ (c t target : String) (staffID : Option Int), c = "" ∨ t = "" ∨
      GetStaffParam.EncodeURL ⟨c, t, some target, staffID, none⟩ =
        Run.panic "runtime error: invalid memory address or nil pointer dereference") ∧
    GetStaffParam.EncodeURL ⟨"foo", "bar", some "baz", none, some 2⟩ =
      Run.ret ("/foo/staffs?page=2&target=baz&token=bar", none) := by
  refine ⟨by decide, ?_, by decide⟩
  intro c t target staffID
  by_cases hc : c = ""
  · exact Or.inl hc
  · by_cases ht : t = ""
    · exact Or.inr (Or.inl ht)
    · refine Or.inr (Or.inr ?_)
      simp [GetStaffParam.EncodeURL, GetStaffParam.queryValues, deref, bind, Run.bind, pure, hc, ht]

/-- C12 (code bug): `GetStaffParam.EncodeURL` panics on valid parameters with
`Target` set and `Page` nil; in every other case, and in the three other
encoders, encoding returns a URL with no error. -/
theorem C12_encoder_panics_on_valid_parameters :
    GetStaffParam.EncodeURL ⟨"foo", "bar", some "baz", some 123, none⟩ =
      Run.panic "runtime error: invalid memory address or nil pointer dereference" ∧
    (∀ (c t : String) (target : Option String) (staffID page : Option Int),
      c = "" ∨ t = "" ∨ (target ≠ none ∧ page = none) ∨
      ∃ url, GetStaffParam.EncodeURL ⟨c, t, target, staffID, page⟩ = Run.ret (url, none)) ∧
    (∀ p : PostStampParam, p.EncodeURL = ("/" ++ p.LoginCompanyCode ++ "/stamps", none)) ∧
    (∀ p : PostTokenReissueParam, p.EncodeUrl = ("/token/reissue/" ++ p.LoginCompanyCode, none)) := by
  refine ⟨by decide, ?_, fun _ => rfl, fun _ => rfl⟩
  intro c t target staffID page
  by_cases hc : c = ""
  · exact Or.inl hc
  · by_cases ht : t = ""
    · exact Or.inr (Or.inl ht)
    · refine Or.inr (Or.inr ?_)
      cases target with
      | none =>
        right
        cases page with
        | none =>
          exact ⟨_, by simp only [GetStaffParam.EncodeURL, GetStaffParam.queryValues, deref, bind,
            Run.bind, pure, hc, ht, if_false, ne_eq, not_true_eq_false]; rfl⟩
        | some pg =>
          exact ⟨_, by simp only [GetStaffParam.EncodeURL, GetStaffParam.queryValues, deref, bind,
            Run.bind, pure, hc, ht, if_false, ne_eq, not_true_eq_false, reduceCtorEq,
            not_false_eq_true, if_true]; rfl⟩
      | some tg =>
        cases page with
        | none => exact Or.inl ⟨by simp, rfl⟩
        | some pg =>
          right
          exact ⟨_, by simp only [GetStaffParam.EncodeURL, GetStaffParam.queryValues, deref, bind,
            Run.bind, pure, hc, ht, if_false, ne_eq, not_true_eq_false, reduceCtorEq,
            not_false_eq_true, if_true]; rfl⟩

/-- C13: `GetStampParam.IsValid` returns the first unmet constraint in the order
`LoginCompanyCode`, `Token`, `StartDate`, `EndDate`, each with its message; it
returns no error exactly when the two strings are non-empty and the two dates
present; `StaffID` has no influence on the result. -/
theorem C13_stamp_validation_order (g : GetStampParam) :
    g.IsValid = firstUnmet
      [(decide (g.LoginCompanyCode ≠ ""), "LoginCompanyCode must be set"),
       (decide (g.Token ≠ ""), "Token must be set"),
       (decide (g.StartDate ≠ none), "StartDate must be set"),
       (decide (g.EndDate ≠ none), "EndDate must be set")] ∧
    (g.IsValid = none ↔
      g.LoginCompanyCode ≠ "" ∧ g.Token ≠ "" ∧ g.StartDate ≠ none ∧ g.EndDate ≠ none) ∧
    (∀ id : Int, GetStampParam.IsValid { g with StaffID := id } = g.IsValid) := by
  obtain ⟨c, t, sd, ed, sid⟩ := g
  refine ⟨?_, ?_, fun _ => rfl⟩
  · by_cases hc : c = "" <;> by_cases ht : t = "" <;> by_cases hs : sd = none <;>
      by_cases he : ed = none <;>
      simp [GetStampParam.IsValid, firstUnmet, hc, ht, hs, he]
  · by_cases hc : c = "" <;> by_cases ht : t = "" <;> by_cases hs : sd = none <;>
      by_cases he : ed = none <;>
      simp [GetStampParam.IsValid, errors.New, hc, ht, hs, he]

/-- C14: `PostStampParam.IsValid`, `PostTokenReissueParam.IsValid` and the
validation at the head of `GetStaffParam.EncodeURL` report an empty
`LoginCompanyCode` first, whatever the other fields hold, and an empty `Token`
only behind a non-empty `LoginCompanyCode`; the two `IsValid` functions return
no error exactly when both are non-empty; on a validation error
`GetStaffParam.EncodeURL` returns the empty URL. -/
theorem C14_credentials_validation_order :
    (∀ p : PostStampParam,
      p.IsValid = firstUnmet [(decide (p.LoginCompanyCode ≠ ""), "LoginCompanyCode must be set"),
        (decide (p.Token ≠ ""), "Token must be set")] ∧
      (p.IsValid = none ↔ p.LoginCompanyCode ≠ "" ∧ p.Token ≠ "")) ∧
    (∀ p : PostTokenReissueParam,
      p.IsValid = firstUnmet [(decide (p.LoginCompanyCode ≠ ""), "LoginCompanyCode must be set"),
        (decide (p.Token ≠ ""), "Token must be set")] ∧
      (p.IsValid = none ↔ p.LoginCompanyCode ≠ "" ∧ p.Token ≠ "")) ∧
    (∀ (g : GetStaffParam) (e : GoError),
      firstUnmet [(decide (g.LoginCompanyCode ≠ ""), "LoginCompanyCode must be set"),
        (decide (g.Token ≠ ""), "Token must be set")] = some e →
      g.EncodeURL = Run.ret ("", some e)) := by
  refine ⟨?_, ?_, ?_⟩
  · intro p
    obtain ⟨c, t, ty, st, tz⟩ := p
    by_cases hc : c = "" <;> by_cases ht : t = "" <;>
      simp [PostStampParam.IsValid, firstUnmet, errors.New, hc, ht]
  · intro p
    obtain ⟨c, t⟩ := p
    by_cases hc : c = "" <;> by_cases ht : t = "" <;>
      simp [PostTokenReissueParam.IsValid, firstUnmet, errors.New, hc, ht]
  · intro g e h
    obtain ⟨c, t, tg, sid, pg⟩ := g
    by_cases hc : c = ""
    · simp [firstUnmet, errors.New, hc] at h
      simp [GetStaffParam.EncodeURL, errors.New, hc, h, pure]
    · by_cases ht : t = ""
      · simp [firstUnmet, errors.New, hc, ht] at h
        simp [GetStaffParam.EncodeURL, errors.New, hc, ht, h, pure]
      · simp [firstUnmet, hc, ht] at h

/-- Witness of C14: an empty `LoginCompanyCode` with an empty `Token`, and an empty
`Token` alone. -/
theorem C14_credentials_validation_order_witness :
    GetStaffParam.EncodeURL ⟨"", "", some "baz", none, none⟩ =
      Run.ret ("", some (GoError.errorString "LoginCompanyCode must be set")) ∧
    GetStaffParam.EncodeURL ⟨"foo", "", some "baz", none, none⟩ =
      Run.ret ("", some (GoError.errorString "Token must be set")) :=
  ⟨C14_credentials_validation_order.2.2 ⟨"", "", some "baz", none, none⟩ _ (by decide),
   C14_credentials_validation_order.2.2 ⟨"foo", "", some "baz", none, none⟩ _ (by decide)⟩

/-- C15 (code bug): the path of the token reissue request is
`"/token/reissue/" + LoginCompanyCode`, but the body handed to the transport
carries the company code too, under the name `LoginCompanyCode`: the field has
no `json` tag and `json.Marshal` writes it.  The request for company `foo` and
token `bar` is the only one `PostTokenReissue` hands to the transport. -/
theorem C15_company_code_in_body :
    (∀ p : PostTokenReissueParam, p.EncodeUrl = ("/token/reissue/" ++ p.LoginCompanyCode, none)) ∧
    PostTokenReissueParam.Marshal ⟨"foo", "bar"⟩ =
      ("\x7b\"LoginCompanyCode\":\"foo\",\"token\":\"bar\"\x7d", none) ∧
    (∀ Do : Request → Option Response × error,
      client.Post PostTokenReissueParam.Marshal ⟨fun _ _ => none, Do⟩ "/token/reissue/foo"
          ⟨"foo", "bar"⟩ =
        Do ⟨"POST", "https://atnd.ak4.jp/api/cooperation/token/reissue/foo",
          some "\x7b\"LoginCompanyCode\":\"foo\",\"token\":\"bar\"\x7d",
          some "application/json"⟩) ∧
    (∀ Do : Request → Option Response × error,
      PostTokenReissue ⟨fun _ _ => none, Do⟩ ⟨"foo", "bar"⟩ =
        PostTokenReissue ⟨fun _ _ => none, fun _ =>
          Do ⟨"POST", "https://atnd.ak4.jp/api/cooperation/token/reissue/foo",
            some "\x7b\"LoginCompanyCode\":\"foo\",\"token\":\"bar\"\x7d",
            some "application/json"⟩⟩ ⟨"foo", "bar"⟩) := by
  have hpost : ∀ Do : Request → Option Response × error,
      client.Post PostTokenReissueParam.Marshal ⟨fun _ _ => none, Do⟩ "/token/reissue/foo"
          ⟨"foo", "bar"⟩ =
        Do ⟨"POST", "https://atnd.ak4.jp/api/cooperation/token/reissue/foo",
          some "\x7b\"LoginCompanyCode\":\"foo\",\"token\":\"bar\"\x7d",
          some "application/json"⟩ := fun _ => rfl
  refine ⟨fun _ => rfl, by decide, hpost, ?_⟩
  intro Do
  have h1 : PostTokenReissueParam.EncodeUrl ⟨"foo", "bar"⟩ = ("/token/reissue/foo", none) := by
    decide
  simp only [PostTokenReissue, h1, hpost]

/-- C16: for every valid civil time `t` with whole seconds and a year from 0 to
9999 the outbound form is the fourteen digits `YYYYMMDDHHMMSS`, and
`AkTime.UnmarshalJSON` on the inbound literal `"YYYY/MM/DD HH:MM:SS"` written for
`t` returns no error and yields exactly `t`; the inbound literal without its
separators is the outbound form. -/
theorem C16_wire_time_round_trip (t : Time) (a : AkTime) (hv : t.IsValid) (h0 : 0 ≤ t.year)
    (h1 : t.year ≤ 9999) (hn : t.nsec = 0) :
    t.Format DateFormat = YYYYMMDDHHMMSS t ∧
    a.UnmarshalJSON (inboundLiteral t) = (⟨t⟩, none) ∧
    (inboundLiteral t).filter isDigitChar = (YYYYMMDDHHMMSS t).data := by
  refine ⟨Format_DateFormat_eq t hv h0 h1, ?_, ?_⟩
  · have hnull : inboundLiteral t ≠ ['n', 'u', 'l', 'l'] := by
      intro h
      have := congrArg List.head? h
      simp [inboundLiteral] at this
    simp only [AkTime.UnmarshalJSON, hnull, if_false, Parse_inboundLiteral t hv h0 h1 hn]
  · have hq : isDigitChar '"' = false := by decide
    have hs : isDigitChar '/' = false := by decide
    have hb : isDigitChar ' ' = false := by decide
    have hc : isDigitChar ':' = false := by decide
    simp [inboundLiteral, YYYYMMDDHHMMSS, fourDigits, twoDigits, List.filter,
      isDigitChar_digitChar, hq, hs, hb, hc]

/-- Witness of C16: 2000-01-02 03:04:05. -/
theorem C16_wire_time_round_trip_witness :
    Time.Format ⟨2000, 1, 2, 3, 4, 5, 0⟩ DateFormat = "20000102030405" ∧
    AkTime.UnmarshalJSON ⟨Time.zero⟩ "\"2000/01/02 03:04:05\"".data =
      (⟨⟨2000, 1, 2, 3, 4, 5, 0⟩⟩, none) := by
  have h := C16_wire_time_round_trip ⟨2000, 1, 2, 3, 4, 5, 0⟩ ⟨Time.zero⟩ (by decide) (by decide)
    (by decide) rfl
  exact ⟨h.1.trans (by decide), h.2.1⟩

/-- C17: `AkTime.UnmarshalJSON` on `null` returns no error and leaves the receiver
as it was; in every record a `null` for the timestamp member (`stamped_at`,
`local_time`, `stampedAt`, `expired_at`) decodes without error to a nil
pointer, whatever the field held before. -/
theorem C17_null_timestamp (f : Float32Impl) :
    (∀ a : AkTime, a.UnmarshalJSON ['n', 'u', 'l', 'l'] = (a, none)) ∧
    (∀ (fs : List String) (cur : Option AkTime),
      decodeAkTimePtr fs JSON.null cur = Decoded.ok none) ∧
    (∀ (fs : List String) (o : Stamp f),
      Stamp.field f fs "stamped_at".data JSON.null o = Decoded.ok { o with StampedAt := none }) ∧
    (∀ (fs : List String) (o : Stamp f),
      Stamp.field f fs "local_time".data JSON.null o = Decoded.ok { o with LocalTime := none }) ∧
    (∀ (fs : List String) (o : PostStampResponse),
      PostStampResponse.field fs "stampedAt".data JSON.null o =
        Decoded.ok { o with StampedAt := none }) ∧
    (∀ (fs : List String) (o : PostTokenReissueResponse),
      PostTokenReissueResponse.field fs "expired_at".data JSON.null o =
        Decoded.ok { o with ExpiredAt := none }) ∧
    PostTokenReissueResponse.Decode ⟨"", 0, 0, "", some ⟨⟨2000, 1, 2, 3, 4, 5, 0⟩⟩⟩
        "\x7b\"success\":true,\"response\":\x7b\"token\":\"t\",\"expired_at\":null\x7d\x7d" =
      (⟨"", 0, 0, "t", none⟩, none) ∧
    (GetStampResponse.Decode f (GetStampResponse.zero f)
        "\x7b\"success\":true,\"response\":\x7b\"stamps\":[\x7b\"stamped_at\":null,\"local_time\":null\x7d]\x7d\x7d") =
      (⟨"", 0, 0, some [Stamp.zero f]⟩, none) := by
  refine ⟨fun _ => rfl, fun _ _ => rfl, fun _ _ => rfl, fun _ _ => rfl, fun _ _ => rfl,
    fun _ _ => rfl, by decide, by rfl⟩

/-- C18 (amended): `AkTime.UnmarshalJSON` returns a decode error (and sets the
receiver to the zero time) for every input other than `null` that is not a
double-quoted string of the shape `time.Parse` accepts: `YYYY/MM/DD`, one or
more blanks, an hour of one or two digits, `:MM:SS` and an optional fraction of
a second, denoting a date and time that exist. -/
theorem C18_unmarshal_rejects_other_shapes (a : AkTime) (data : List Char)
    (hnull : data ≠ ['n', 'u', 'l', 'l']) (hshape : ¬ AcceptedInbound data) :
    a.UnmarshalJSON data = (⟨Time.zero⟩, some GoError.timeParseError) := by
  have herr : (time.Parse (Chunk.lit ['"'] :: ReturnDateFormat ++ [Chunk.lit ['"']]) data).2
      ≠ none := fun h => hshape (Parse_inbound_inv data h)
  simp only [AkTime.UnmarshalJSON, hnull, if_false, Parse_error _ _ herr]

/-- Witness of C18: a date written with hyphens. -/
theorem C18_unmarshal_rejects_other_shapes_witness :
    AkTime.UnmarshalJSON ⟨⟨2000, 1, 2, 3, 4, 5, 0⟩⟩ "\"2000-01-02 03:04:05\"".data =
      (⟨Time.zero⟩, some GoError.timeParseError) :=
  C18_unmarshal_rejects_other_shapes ⟨⟨2000, 1, 2, 3, 4, 5, 0⟩⟩ "\"2000-01-02 03:04:05\"".data
    (by decide)
    (fun ⟨p, hv, ht⟩ => absurd (ht ▸ Parse_inbound_accepts p hv) (by decide))

/-- Counterexample to C18 as stated: an hour of one digit, a fraction of a second
and a run of blanks are not of the strict shape and are read without error. -/
theorem C18_counterexample :
    (¬ StrictInbound "\"2000/01/02 3:04:05\"".data ∧
      "\"2000/01/02 3:04:05\"".data ≠ ['n', 'u', 'l', 'l'] ∧
      AkTime.UnmarshalJSON ⟨Time.zero⟩ "\"2000/01/02 3:04:05\"".data =
        (⟨⟨2000, 1, 2, 3, 4, 5, 0⟩⟩, none)) ∧
    (¬ StrictInbound "\"2000/01/02 03:04:05.5\"".data ∧
      AkTime.UnmarshalJSON ⟨Time.zero⟩ "\"2000/01/02 03:04:05.5\"".data =
        (⟨⟨2000, 1, 2, 3, 4, 5, 500000000⟩⟩, none)) ∧
    (¬ StrictInbound "\"2000/01/02   03:04:05\"".data ∧
      AkTime.UnmarshalJSON ⟨Time.zero⟩ "\"2000/01/02   03:04:05\"".data =
        (⟨⟨2000, 1, 2, 3, 4, 5, 0⟩⟩, none)) := by
  refine ⟨⟨?_, by decide, by decide⟩, ⟨?_, by decide⟩, ⟨?_, by decide⟩⟩
  · exact fun h => absurd (StrictInbound_length _ h) (by decide)
  · exact fun h => absurd (StrictInbound_length _ h) (by decide)
  · exact fun h => absurd (StrictInbound_length _ h) (by decide)

/-- C19 (amended): with valid parameters and a response whose status code is not
200, `GetStamps`, `PostStamp` and `PostTokenReissue` return the error
`"Status code=<code>"` with that code and the default record, whatever the body
holds and whether or not the transport returned an error with the response.
`GetStaff` looks at the error of the transport first: it returns the status
error when the response came without an error, and the error of the transport
(with the default record) when the response came with one. -/
theorem C19_status_error (f : Float32Impl) (http : HTTP) (res : Response)
    (hcode : res.StatusCode ≠ 200) :
    (∀ (param : GetStaffParam) (url : String), param.EncodeURL = Run.ret (url, none) →
      client.Get http url = (some res, none) →
      GetStaff http param = Run.ret (GetStaffResponse.zero,
        some (GoError.errorString ("Status code=" ++ formatInt res.StatusCode)))) ∧
    (∀ (param : GetStaffParam) (url : String) (e : GoError),
      param.EncodeURL = Run.ret (url, none) →
      client.Get http url = (some res, some e) →
      GetStaff http param = Run.ret (GetStaffResponse.zero, some e)) ∧
    (∀ param : GetStampParam, param.IsValid = none →
      (client.Get http param.EncodeURL).1 = some res →
      GetStamps f http param = Run.ret (GetStampResponse.zero f,
        some (GoError.errorString ("Status code=" ++ formatInt res.StatusCode)))) ∧
    (∀ param : PostStampParam, param.IsValid = none →
      (client.Post PostStampParam.Marshal http param.EncodeURL.1 param).1 = some res →
      PostStamp http param = Run.ret (PostStampResponse.zero,
        some (GoError.errorString ("Status code=" ++ formatInt res.StatusCode)))) ∧
    (∀ param : PostTokenReissueParam, param.IsValid = none →
      (client.Post PostTokenReissueParam.Marshal http param.EncodeUrl.1 param).1 = some res →
      PostTokenReissue http param = Run.ret (PostTokenReissueResponse.zero,
        some (GoError.errorString ("Status code=" ++ formatInt res.StatusCode)))) := by
  have hcode' : res.StatusCode ≠ StatusOK := hcode
  refine ⟨?_, ?_, ?_, ?_, ?_⟩
  · intro param url henc hget
    simp only [GetStaff, henc, hget, bind, Run.bind, deref, pure, ne_eq, not_true_eq_false,
      if_false, hcode', not_false_eq_true, if_true, statusError]
  · intro param url e henc hget
    simp only [GetStaff, henc, hget, bind, Run.bind, deref, pure, ne_eq, not_true_eq_false,
      if_false, reduceCtorEq, not_false_eq_true, if_true]
  · intro param hvalid hget
    simp only [GetStamps, hvalid, hget, bind, Run.bind, deref, pure, ne_eq, not_true_eq_false,
      if_false, hcode', not_false_eq_true, if_true, statusError]
  · intro param hvalid hpost
    have h2 : param.EncodeURL.2 = none := rfl
    simp only [PostStamp, hvalid, h2, hpost, bind, Run.bind, deref, pure, ne_eq,
      not_true_eq_false, if_false, hcode', not_false_eq_true, if_true, statusError]
  · intro param hvalid hpost
    have h2 : param.EncodeUrl.2 = none := rfl
    simp only [PostTokenReissue, hvalid, h2, hpost, bind, Run.bind, deref, pure, ne_eq,
      not_true_eq_false, if_false, hcode', not_false_eq_true, if_true, statusError]

/-- Witness of C19: status 500 with a body that would decode, from a transport
that returns no error; for `GetStaff` also a redirect returned together with an
error. -/
theorem C19_status_error_witness :
    GetStaff (respondWith ⟨500, "\x7b\"success\":true,\"response\":\x7b\"Count\":3\x7d\x7d"⟩)
        ⟨"foo", "bar", none, none, none⟩ =
      Run.ret (GetStaffResponse.zero, some (GoError.errorString "Status code=500")) ∧
    GetStamps literalFloat32
        (respondWith ⟨500, "\x7b\"success\":true,\"response\":\x7b\"Count\":3\x7d\x7d"⟩)
        ⟨"foo", "bar", some ⟨2000, 1, 2, 3, 4, 5, 0⟩, some ⟨2000, 2, 3, 4, 5, 6, 0⟩, 1⟩ =
      Run.ret (GetStampResponse.zero literalFloat32,
        some (GoError.errorString "Status code=500")) ∧
    PostStamp (respondWith ⟨500, "\x7b\"success\":true,\"response\":\x7b\"Count\":3\x7d\x7d"⟩)
        ⟨"foo", "bar", 11, none, ""⟩ =
      Run.ret (PostStampResponse.zero, some (GoError.errorString "Status code=500")) ∧
    PostTokenReissue
        (respondWith ⟨500, "\x7b\"success\":true,\"response\":\x7b\"Count\":3\x7d\x7d"⟩)
        ⟨"foo", "bar"⟩ =
      Run.ret (PostTokenReissueResponse.zero, some (GoError.errorString "Status code=500")) ∧
    GetStaff (redirectFailure ⟨302, ""⟩ (GoError.httpError "stopped after 10 redirects"))
        ⟨"foo", "bar", none, none, none⟩ =
      Run.ret (GetStaffResponse.zero, some (GoError.httpError "stopped after 10 redirects")) := by
  have h := C19_status_error literalFloat32
    (respondWith ⟨500, "\x7b\"success\":true,\"response\":\x7b\"Count\":3\x7d\x7d"⟩)
    ⟨500, "\x7b\"success\":true,\"response\":\x7b\"Count\":3\x7d\x7d"⟩ (by decide)
  have h2 := C19_status_error literalFloat32
    (redirectFailure ⟨302, ""⟩ (GoError.httpError "stopped after 10 redirects"))
    ⟨302, ""⟩ (by decide)
  exact ⟨h.1 _ "/foo/staffs?token=bar" (by decide) (by rfl), h.2.2.1 _ (by decide) (by rfl),
    h.2.2.2.1 _ (by decide) (by rfl), h.2.2.2.2 _ (by decide) (by rfl),
    h2.2.1 _ "/foo/staffs?token=bar" _ (by decide) (by rfl)⟩

/-- Counterexample to C19 as stated: the transport returns a response with status
302 together with an error, as `http.Client.Do` does when the redirect policy
fails; `GetStaff` returns the error of the transport, not `"Status code=302"`,
while `GetStamps` returns the status error. -/
theorem C19_counterexample :
    client.Get (redirectFailure ⟨302, ""⟩ (GoError.httpError "stopped after 10 redirects"))
        "/foo/staffs?token=bar" =
      (some ⟨302, ""⟩, some (GoError.httpError "stopped after 10 redirects")) ∧
    GetStaff (redirectFailure ⟨302, ""⟩ (GoError.httpError "stopped after 10 redirects"))
        ⟨"foo", "bar", none, none, none⟩ =
      Run.ret (GetStaffResponse.zero, some (GoError.httpError "stopped after 10 redirects")) ∧
    GetStaff (redirectFailure ⟨302, ""⟩ (GoError.httpError "stopped after 10 redirects"))
        ⟨"foo", "bar", none, none, none⟩ ≠
      Run.ret (GetStaffResponse.zero, some (GoError.errorString "Status code=302")) ∧
    GetStamps literalFloat32
        (redirectFailure ⟨302, ""⟩ (GoError.httpError "stopped after 10 redirects"))
        ⟨"foo", "bar", some ⟨2000, 1, 2, 3, 4, 5, 0⟩, some ⟨2000, 2, 3, 4, 5, 6, 0⟩, 1⟩ =
      Run.ret (GetStampResponse.zero literalFloat32,
        some (GoError.errorString "Status code=302")) := by
  refine ⟨by rfl, by rfl, ?_, by rfl⟩
  have h : GetStaff (redirectFailure ⟨302, ""⟩ (GoError.httpError "stopped after 10 redirects"))
        ⟨"foo", "bar", none, none, none⟩ =
      Run.ret (GetStaffResponse.zero, some (GoError.httpError "stopped after 10 redirects")) := by
    rfl
  rw [h]
  simp

/-- C20 (code bug): when the transport call fails and returns no response, each
operation reads `res` before it looks at the error (`res.Body` in the `defer`
of `GetStaff`, `res.StatusCode` in the first case of the `switch` of the three
others) and panics on the nil pointer; the transport error is not returned. -/
theorem C20_transport_failure_panics (f : Float32Impl) (e : GoError) :
    GetStaff (failWith e) ⟨"foo", "bar", none, none, none⟩ =
      Run.panic "runtime error: invalid memory address or nil pointer dereference" ∧
    GetStamps f (failWith e)
        ⟨"foo", "bar", some ⟨2000, 1, 2, 3, 4, 5, 0⟩, some ⟨2000, 2, 3, 4, 5, 6, 0⟩, 1⟩ =
      Run.panic "runtime error: invalid memory address or nil pointer dereference" ∧
    PostStamp (failWith e) ⟨"foo", "bar", 11, none, ""⟩ =
      Run.panic "runtime error: invalid memory address or nil pointer dereference" ∧
    PostTokenReissue (failWith e) ⟨"foo", "bar"⟩ =
      Run.panic "runtime error: invalid memory address or nil pointer dereference" := by
  refine ⟨by rfl, by rfl, by rfl, by rfl⟩

/-- C21: when the parameters fail validation, each operation returns the
validation error and the default record, whatever the transport is: the result
does not depend on the transport, which is not called. -/
theorem C21_validation_before_transport (f : Float32Impl) (http : HTTP) (e : GoError) :
    (∀ g : GetStaffParam,
      firstUnmet [(decide (g.LoginCompanyCode ≠ ""), "LoginCompanyCode must be set"),
        (decide (g.Token ≠ ""), "Token must be set")] = some e →
      GetStaff http g = Run.ret (GetStaffResponse.zero, some e)) ∧
    (∀ g : GetStampParam, g.IsValid = some e →
      GetStamps f http g = Run.ret (GetStampResponse.zero f, some e)) ∧
    (∀ p : PostStampParam, p.IsValid = some e →
      PostStamp http p = Run.ret (PostStampResponse.zero, some e)) ∧
    (∀ p : PostTokenReissueParam, p.IsValid = some e →
      PostTokenReissue http p = Run.ret (PostTokenReissueResponse.zero, some e)) := by
  refine ⟨?_, ?_, ?_, ?_⟩
  · intro g h
    obtain ⟨c, t, tg, sid, pg⟩ := g
    by_cases hc : c = ""
    · simp [firstUnmet, errors.New, hc] at h
      simp [GetStaff, GetStaffParam.EncodeURL, errors.New, hc, h, pure, bind, Run.bind]
    · by_cases ht : t = ""
      · simp [firstUnmet, errors.New, hc, ht] at h
        simp [GetStaff, GetStaffParam.EncodeURL, errors.New, hc, ht, h, pure, bind, Run.bind]
      · simp [firstUnmet, hc, ht] at h
  · intro g h
    simp [GetStamps, h, pure]
  · intro p h
    simp [PostStamp, h, pure]
  · intro p h
    simp [PostTokenReissue, h, pure]

/-- Witness of C21: parameters without a company code, with a transport that
would answer 200 and a body that decodes, and with one that fails. -/
theorem C21_validation_before_transport_witness :
    (GetStaff (respondWith ⟨200, "\x7b\"success\":true,\"response\":\x7b\"Count\":3\x7d\x7d"⟩)
        ⟨"", "bar", none, none, none⟩ =
      Run.ret (GetStaffResponse.zero, some (GoError.errorString "LoginCompanyCode must be set"))) ∧
    (GetStamps literalFloat32 (failWith GoError.timeParseError)
        ⟨"foo", "bar", none, some ⟨2000, 2, 3, 4, 5, 6, 0⟩, 1⟩ =
      Run.ret (GetStampResponse.zero literalFloat32,
        some (GoError.errorString "StartDate must be set"))) ∧
    (PostStamp (failWith GoError.timeParseError) ⟨"foo", "", 11, none, ""⟩ =
      Run.ret (PostStampResponse.zero, some (GoError.errorString "Token must be set"))) ∧
    (PostTokenReissue
        (respondWith ⟨200, "\x7b\"success\":true,\"response\":\x7b\"token\":\"t\"\x7d\x7d"⟩)
        ⟨"", ""⟩ =
      Run.ret (PostTokenReissueResponse.zero,
        some (GoError.errorString "LoginCompanyCode must be set"))) :=
  ⟨(C21_validation_before_transport literalFloat32 _ _).1 _ (by decide),
   (C21_validation_before_transport literalFloat32 _ _).2.1 _ (by decide),
   (C21_validation_before_transport literalFloat32 _ _).2.2.1 _ (by decide),
   (C21_validation_before_transport literalFloat32 _ _).2.2.2 _ (by decide)⟩

/-- C22 (amended): `GetStaffParam.EncodeURL` branches on the presence of `StaffID`:
an ID that is supplied, zero included, adds `"/"` and its decimal form to the
path, and only a nil `StaffID` gives the collection path.
`GetStampParam.EncodeURL` uses zero as the mark of an unset `StaffID`: a
non-zero ID adds `"/"` and its decimal form, zero gives the collection path. -/
theorem C22_staff_id_presence :
    (∀ (g : GetStaffParam) (url : String), g.EncodeURL = Run.ret (url, none) →
      ∃ q, url = "/" ++ g.LoginCompanyCode ++ "/staffs" ++ idSuffix g.StaffID ++ q ∧
        (q = "" ∨ ∃ q', q = "?" ++ q')) ∧
    (∀ id : Int, idSuffix (some id) = "/" ++ formatInt id) ∧
    idSuffix (some 0) = "/0" ∧ idSuffix none = "" ∧
    (∀ g : GetStampParam,
      ∃ q, g.EncodeURL = "/" ++ g.LoginCompanyCode ++ "/stamps" ++
          (if g.StaffID ≠ 0 then "/" ++ formatInt g.StaffID else "") ++ q ∧
        (q = "" ∨ ∃ q', q = "?" ++ q')) :=
  ⟨staff_url_shape, fun _ => rfl, by decide, rfl, stamp_url_shape⟩

/-- Witness of C22: a staff ID of zero in a `GetStaffParam`. -/
theorem C22_staff_id_presence_witness :
    GetStaffParam.EncodeURL ⟨"foo", "bar", none, some 0, none⟩ =
      Run.ret ("/foo/staffs/0?token=bar", none) ∧
    ∃ q, "/foo/staffs/0?token=bar" = "/" ++ "foo" ++ "/staffs" ++ idSuffix (some 0) ++ q ∧
      (q = "" ∨ ∃ q', q = "?" ++ q') :=
  ⟨by decide,
   C22_staff_id_presence.1 ⟨"foo", "bar", none, some 0, none⟩ "/foo/staffs/0?token=bar"
     (by decide)⟩

/-- Counterexample to C22 as stated: in a `GetStampParam` a staff ID of zero gives
the collection path, not the suffix `"/0"`, unlike the ID 1. -/
theorem C22_counterexample :
    GetStampParam.EncodeURL ⟨"foo", "bar", none, none, 0⟩ = "/foo/stamps?token=bar" ∧
    GetStampParam.EncodeURL ⟨"foo", "bar", none, none, 0⟩ ≠ "/foo/stamps/0?token=bar" ∧
    GetStampParam.EncodeURL ⟨"foo", "bar", none, none, 1⟩ = "/foo/stamps/1?token=bar" ∧
    GetStaffParam.EncodeURL ⟨"foo", "bar", none, some 0, none⟩ =
      Run.ret ("/foo/staffs/0?token=bar", none) := by
  decide

/-- C23: for every input and every receiver, each of the three `Decode` functions
either returns an error and leaves the receiver as it was, or returns no error
and assigns the record decoded from the envelope to the receiver.  A failed
envelope and an envelope with a member of the wrong type leave a receiver that
was set untouched. -/
theorem C23_receiver_assigned_iff_no_error (f : Float32Impl) :
    (∀ (g : GetStampResponse f) (r : String),
      ((GetStampResponse.Decode f g r).2 ≠ none ∧ (GetStampResponse.Decode f g r).1 = g) ∨
      ((GetStampResponse.Decode f g r).2 = none ∧
        (GetStampResponse.Decode f g r).1 =
          (decodeEnvelope (GetStampResponse.field f) (GetStampResponse.zero f) r).1.Response)) ∧
    (∀ (p : PostStampResponse) (r : String),
      ((p.Decode r).2 ≠ none ∧ (p.Decode r).1 = p) ∨
      ((p.Decode r).2 = none ∧
        (p.Decode r).1 =
          (decodeEnvelope PostStampResponse.field PostStampResponse.zero r).1.Response)) ∧
    (∀ (p : PostTokenReissueResponse) (r : String),
      ((p.Decode r).2 ≠ none ∧ (p.Decode r).1 = p) ∨
      ((p.Decode r).2 = none ∧
        (p.Decode r).1 =
          (decodeEnvelope PostTokenReissueResponse.field PostTokenReissueResponse.zero r).1.Response)) ∧
    PostTokenReissueResponse.Decode ⟨"foo", 1, 2, "old", none⟩
        "\x7b\"success\":false,\"response\":\x7b\"token\":\"new\"\x7d\x7d" =
      (⟨"foo", 1, 2, "old", none⟩,
        some (GoError.errorString "Requesting Token Reissue API failed")) ∧
    PostTokenReissueResponse.Decode ⟨"foo", 1, 2, "old", none⟩
        "\x7b\"success\":true,\"response\":\x7b\"token\":\"new\",\"staff_id\":\"x\"\x7d\x7d" =
      (⟨"foo", 1, 2, "old", none⟩,
        some (GoError.unmarshalTypeError "string" "response.staff_id")) ∧
    PostTokenReissueResponse.Decode ⟨"foo", 1, 2, "old", none⟩
        "\x7b\"success\":true,\"response\":\x7b\"token\":\"new\"\x7d\x7d" =
      (⟨"", 0, 0, "new", none⟩, none) := by
  refine ⟨?_, ?_, ?_, by decide, by decide, by decide⟩
  · intro g r
    unfold GetStampResponse.Decode
    cases hs : (decodeEnvelope (GetStampResponse.field f) (GetStampResponse.zero f) r).1.Success
    · left; simp [errors.New, hs]
    · cases he : (decodeEnvelope (GetStampResponse.field f) (GetStampResponse.zero f) r).2
      · right; simp [hs, he]
      · left; simp [hs, he]
  · intro p r
    unfold PostStampResponse.Decode
    cases hs : (decodeEnvelope PostStampResponse.field PostStampResponse.zero r).1.Success
    · left; simp [errors.New, hs]
    · cases he : (decodeEnvelope PostStampResponse.field PostStampResponse.zero r).2
      · right; simp [hs, he]
      · left; simp [hs, he]
  · intro p r
    unfold PostTokenReissueResponse.Decode
    cases hs : (decodeEnvelope PostTokenReissueResponse.field PostTokenReissueResponse.zero r).1.Success
    · left; simp [errors.New, hs]
    · cases he : (decodeEnvelope PostTokenReissueResponse.field PostTokenReissueResponse.zero r).2
      · right; simp [hs, he]
      · left; simp [hs, he]

/-- C24: every encoder copies `LoginCompanyCode` into the path as it is: the URL of
`GetStampParam.EncodeURL` begins with `"/" + LoginCompanyCode + "/stamps"`, that of
`PostStampParam.EncodeURL` is `"/" + LoginCompanyCode + "/stamps"`, that of
`PostTokenReissueParam.EncodeUrl` is `"/token/reissue/" + LoginCompanyCode`, and a
URL returned by `GetStaffParam.EncodeURL` begins with
`"/" + LoginCompanyCode + "/staffs"`.  For the company code `a/b?c#d&e` the
path holds these characters unchanged, while the same text as a token is
percent-encoded in the query. -/
theorem C24_company_code_verbatim :
    (∀ g : GetStampParam,
      ∃ rest, g.EncodeURL = "/" ++ g.LoginCompanyCode ++ "/stamps" ++ rest) ∧
    (∀ p : PostStampParam, p.EncodeURL = ("/" ++ p.LoginCompanyCode ++ "/stamps", none)) ∧
    (∀ p : PostTokenReissueParam,
      p.EncodeUrl = ("/token/reissue/" ++ p.LoginCompanyCode, none)) ∧
    (∀ (g : GetStaffParam) (url : String), g.EncodeURL = Run.ret (url, none) →
      ∃ rest, url = "/" ++ g.LoginCompanyCode ++ "/staffs" ++ rest) ∧
    GetStampParam.EncodeURL ⟨"a/b?c#d&e", "a/b?c#d&e", none, none, 0⟩ =
      "/a/b?c#d&e/stamps?token=a%2Fb%3Fc%23d%26e" ∧
    GetStaffParam.EncodeURL ⟨"a/b?c#d&e", "a/b?c#d&e", none, none, none⟩ =
      Run.ret ("/a/b?c#d&e/staffs?token=a%2Fb%3Fc%23d%26e", none) ∧
    PostStampParam.EncodeURL ⟨"a/b?c#d&e", "bar", 0, none, ""⟩ = ("/a/b?c#d&e/stamps", none) ∧
    PostTokenReissueParam.EncodeUrl ⟨"a/b?c#d&e", "bar"⟩ = ("/token/reissue/a/b?c#d&e", none) := by
  refine ⟨?_, fun _ => rfl, fun _ => rfl, ?_, by decide, by decide, by decide, by decide⟩
  · intro g
    obtain ⟨q, hq, _⟩ := stamp_url_shape g
    exact ⟨(if g.StaffID ≠ 0 then "/" ++ formatInt g.StaffID else "") ++ q, by
      rw [hq, String.append_assoc]⟩
  · intro g url h
    obtain ⟨q, hq, _⟩ := staff_url_shape g url h
    exact ⟨idSuffix g.StaffID ++ q, by rw [hq, String.append_assoc]⟩

/-- Witness of C24: a company code with `/`, `?`, `#` and `&`, and a staff ID. -/
theorem C24_company_code_verbatim_witness :
    ∃ rest, "/a/b?c#d&e/staffs/7?token=x%26y" = "/" ++ "a/b?c#d&e" ++ "/staffs" ++ rest :=
  C24_company_code_verbatim.2.2.2.1 ⟨"a/b?c#d&e", "x&y", none, some 7, none⟩
    "/a/b?c#d&e/staffs/7?token=x%26y" (by decide)

end Kiku
